import Mathlib

/-!
# xln: ledger, reconciliation and credential resolution

A shallow embedding of the wallet ledger (`models/wallet.go`,
`models/pendingpayment.go`, `models/pendinginvoice.go`, `models/withdraw.go`,
`models/user.go`), of the wallet manager
(`resources/wallet/manager.go`), of the invoice manager
(`resources/invoice/manager.go`, `resources/invoice/handler.go`), of the
credential service (`auth/service.go`), of the user manager
(`resources/user/manager.go`), of the creation hooks (`models/hooks.go`), of
the name validation (`util/validation.go`), of the transaction listings
(`models/transaction.go`) and of the transaction response of the server
(`xlnserver.go`).

Modelling conventions.

* The relational store is a record of tables, each table a list of rows.
  A query `Where(...)` is a `filter`, an `UPDATE ... WHERE` is a `map` that
  rewrites the matching rows, `RowsAffected` is the number of matching rows.
* Go values of type `uint64` are natural numbers below `2 ^ 64`; arithmetic
  that Go performs on them wraps (`% 2 ^ 64`), conversions `uint64(x)` of an
  `int64` are `x % 2 ^ 64`.
* The `balance` column is updated in place by SQL expressions
  (`balance + ?`, `balance - ?`).  Those are evaluated by the store over the
  integers, so the column is an `Int` here; Go reads it back as a `uint64`.
* `db.Transaction(f)` runs `f` on the store and keeps the result only when `f`
  returns no error and the commit succeeds; otherwise the store is the one
  the transaction started from.
* `log.Fatal` ends the process: functions that can reach it return `Option`,
  `none` standing for the halted process.
* A statement that the store itself fails to execute (the `ErrInternal`
  branches) is modelled where a property is about it, in `Transfer`
  (`TransferFaults`) and in `CreateInvoice` (`CreateInvoiceFaults`);
  elsewhere the store executes every statement.
* A goroutine is run to its end where its result is asked for
  (`payWithdrawJob`); the state while it waits is the state its last
  completed step left.
* The floating-point fee ceiling of `payInvoice` is a function of the
  environment applied to the operands the source gives it.
* The store enforces primary keys and unique columns and takes no
  foreign-key action of its own; the values that the creation hooks generate
  (UUIDs, keys) are arguments of the creating call.
* A Go pointer that is compared with `==` is an address with the value it
  points to; a pointer that is only tested for nil and dereferenced is an
  `Option`, and the dereference of nil is the result `none` of the function.
* Payment hashes are strings; the hash a pending record is stored under and
  the hash the payment network reports for it are the same string.
-/

namespace Xln

/-! ## Errors (`models/errors.go`, `auth/errors.go`, `gorm`) -/

inductive Err where
  | ErrInternal
  | ErrInvalidParams
  | ErrCannotUpdateLockedWallet
  | ErrCannotTransactWithLockedWallet
  | ErrInsufficientBalance
  | ErrNonZeroBalance
  | ErrInvoiceNotFound
  | ErrUserNotFound
  | ErrWalletNotFound
  | ErrPendingPaymentNotFound
  | ErrPendingInvoiceNotFound
  | ErrWithdrawNotFound
  | ErrMaxNumResultsExceeded
  | ErrUnauthenticated
  | ErrInvalidHeaderFormat
  | ErrMissingUsername
  | ErrParsingContext
  | ErrMissingUsernameOrWallet
  /-- The `ErrInternal` of package `auth`. -/
  | AuthErrInternal
  /-- The error `gorm.ErrRecordNotFound`, where the source hands it on as it is. -/
  | ErrRecordNotFound
  /-- An error made on the spot with `errors.New(text)`. -/
  | New (text : String)
  /-- The error `fmt.Errorf("%s. Reason: %v", msg, cause)`. -/
  | Reason (msg : String) (cause : Err)
  deriving DecidableEq, Repr

deriving instance DecidableEq for Except

def MsgDecrementWalletFailed : String := "failed to decrement balance of wallet"
def MsgGetConfirmedBalanceFailed : String := "failed to confirm the current wallet balance"
def MsgCreateInvoiceFailed : String := "failed to create invoice"

/-! ## Machine integers -/

/-- The exclusive bound of a Go `uint64`. -/
def u64 : Nat := 2 ^ 64

/-- Go's `uint64(x)` for an `int64` (or a stored integer) `x`. -/
def toUint64 (x : Int) : Nat := (x % (u64 : Int)).toNat

/-- Go's `a - b` on `uint64`. -/
def subU64 (a b : Nat) : Nat := (a + (u64 - b % u64)) % u64

/-! ## Rows -/

structure Wallet where
  id : String
  username : String
  name : Option String := none
  apiKey : String := ""
  balance : Int := 0
  locked : Bool := false
  linkKey : Option String := none
  linkLabel : Option String := none
  deriving DecidableEq, Repr

structure PendingPayment where
  id : Nat
  walletID : String
  walletUsername : String
  paymentHash : String
  amount : Nat
  withdrawK1 : Option String := none
  deriving DecidableEq, Repr

structure PendingInvoice where
  paymentHash : String
  walletID : String
  walletUsername : String
  amount : Nat
  deriving DecidableEq, Repr

/-- A ledger entry.  The UUID and the timestamps that the creation hook and
the store fill in are left out. -/
structure Transaction where
  fromID : Option String
  fromUsername : Option String
  toID : Option String
  toUsername : Option String
  amount : Nat
  feesPaid : Nat
  invoiceID : Option String := none
  deriving DecidableEq, Repr

structure Invoice where
  paymentHash : String
  paymentRequest : String := ""
  pubkey : String := ""
  memo : String := ""
  amount : Nat := 0
  /-- The settlement time; `0` is the zero `time.Time` of an unsettled invoice. -/
  settled : Nat := 0
  recipientID : Option String := none
  recipientUsername : Option String := none
  senderID : Option String := none
  senderUsername : Option String := none
  deriving DecidableEq, Repr

structure User where
  username : String
  apiKey : String := ""
  /-- Set by the soft delete (`DeletedAt`). -/
  deleted : Bool := false
  linkKey : Option String := none
  linkLabel : Option String := none
  deriving DecidableEq, Repr

/-- An LNURL-withdraw template.  `expiry` is a time, `0` the zero `time.Time`
of a template that does not expire. -/
structure Withdraw where
  k1 : String
  walletID : String
  username : String
  minMsat : Nat := 0
  maxMsat : Nat := 0
  maxUse : Nat := 0
  uses : Nat := 0
  expiry : Nat := 0
  deriving DecidableEq, Repr

/-- The tables of the store. -/
structure Store where
  users : List User := []
  wallets : List Wallet := []
  pendingPayments : List PendingPayment := []
  pendingInvoices : List PendingInvoice := []
  transactions : List Transaction := []
  invoices : List Invoice := []
  withdraws : List Withdraw := []
  deriving DecidableEq, Repr

/-! ## Wallet repository (`models/wallet.go`) -/

/-- The row predicate `username = ? AND id = ?`. -/
def isWallet (username walletId : String) (w : Wallet) : Bool :=
  w.username == username && w.id == walletId

/-- `GetWallet`: the wallet `(username, walletId)`, or `ErrWalletNotFound`. -/
def GetWallet (s : Store) (username walletId : String) : Except Err Wallet :=
  match s.wallets.find? (isWallet username walletId) with
  | some w => .ok w
  | none => .error Err.ErrWalletNotFound

/-- `IncrementWalletBalance`: `UPDATE wallets SET balance = balance + ?
WHERE username = ? AND id = ?`; no row affected is `ErrWalletNotFound`. -/
def IncrementWalletBalance (s : Store) (username walletId : String) (deltaBalance : Nat) :
    Except Err Store :=
  if s.wallets.any (isWallet username walletId) then
    .ok { s with wallets := s.wallets.map fun w =>
      if isWallet username walletId w then { w with balance := w.balance + deltaBalance } else w }
  else .error Err.ErrWalletNotFound

/-- The loop `pendingPaymentTotal += pendingPayment.Amount` over `uint64`. -/
def sumPendingAmounts (pendingPayments : List PendingPayment) : Nat :=
  pendingPayments.foldl (fun total pp => (total + pp.amount) % u64) 0

/-- `DecrementWalletBalance`: the pending payments are selected by
`wallet_id = ?` alone, their amounts are summed, and the wallet row is updated
`WHERE username = ? AND id = ? AND balance >= minBalance`; no row affected is
the error built from `ErrInsufficientBalance`. -/
def DecrementWalletBalance (s : Store) (username walletId : String) (deltaBalance : Nat) :
    Except Err Store :=
  let pendingPayments := s.pendingPayments.filter fun pp => pp.walletID == walletId
  let pendingPaymentTotal := sumPendingAmounts pendingPayments
  let minBalance := (deltaBalance + pendingPaymentTotal) % u64
  let sel := fun w : Wallet =>
    isWallet username walletId w && decide ((minBalance : Int) ≤ w.balance)
  if s.wallets.any sel then
    .ok { s with wallets := s.wallets.map fun w =>
      if (sel w) then { w with balance := w.balance - deltaBalance } else w }
  else .error (Err.Reason MsgDecrementWalletFailed Err.ErrInsufficientBalance)

/-- `WalletsFromUser`: the wallets of `username` whose id is among `walletIds`,
and whether there are as many of them as ids. -/
def WalletsFromUser (s : Store) (username : String) (walletIds : List String) :
    Bool × List Wallet :=
  let wallets := s.wallets.filter fun w => w.username == username && walletIds.contains w.id
  (decide (walletIds.length = wallets.length), wallets)

/-- `LockWalletRecordForUpdate`: `Take` of the row; a missing row surfaces as
the storage error of `Take`, a locked wallet as `ErrCannotUpdateLockedWallet`. -/
def LockWalletRecordForUpdate (s : Store) (username walletId : String) : Except Err Wallet :=
  match s.wallets.find? (isWallet username walletId) with
  | none => .error Err.ErrRecordNotFound
  | some wallet =>
    if wallet.locked then .error Err.ErrCannotUpdateLockedWallet else .ok wallet

/-- `ListWalletPendingPayments`: `wallet_username = ? AND wallet_id = ?`. -/
def ListWalletPendingPayments (s : Store) (username walletId : String) : List PendingPayment :=
  s.pendingPayments.filter fun pp => pp.walletUsername == username && pp.walletID == walletId

/-- `GetConfirmedBalance`: the balance of the locked-for-update wallet, less
each pending payment of the wallet, in `uint64` arithmetic. -/
def GetConfirmedBalance (s : Store) (username walletId : String) : Except Err Nat :=
  match LockWalletRecordForUpdate s username walletId with
  | .error err => .error (Err.Reason MsgGetConfirmedBalanceFailed err)
  | .ok wallet =>
    let pendingPayments := ListWalletPendingPayments s wallet.username walletId
    .ok (pendingPayments.foldl (fun confirmedBalance pp => subU64 confirmedBalance pp.amount)
      (toUint64 wallet.balance))

/-! ## Pending records, transactions, invoices
(`models/pendinginvoice.go`, `models/pendingpayment.go`, `models/transaction.go`,
`models/invoice.go`) -/

/-- `GetPendingInvoice`: `Take` by `payment_hash`. -/
def GetPendingInvoice (s : Store) (paymentHash : String) : Except Err PendingInvoice :=
  match s.pendingInvoices.find? (fun pi => pi.paymentHash == paymentHash) with
  | some pi => .ok pi
  | none => .error Err.ErrPendingInvoiceNotFound

/-- `DeletePendingInvoice`: `DELETE ... WHERE payment_hash = ?`; no row
affected is `ErrPendingInvoiceNotFound`. -/
def DeletePendingInvoice (s : Store) (paymentHash : String) : Except Err Store :=
  if s.pendingInvoices.any (fun pi => pi.paymentHash == paymentHash) then
    .ok { s with pendingInvoices :=
      s.pendingInvoices.filter fun pi => !(pi.paymentHash == paymentHash) }
  else .error Err.ErrPendingInvoiceNotFound

/-- `ListPendingInvoices`. -/
def ListPendingInvoices (s : Store) : List PendingInvoice := s.pendingInvoices

/-- `GetPendingPayment`: `Take` by `payment_hash`. -/
def GetPendingPayment (s : Store) (paymentHash : String) : Except Err PendingPayment :=
  match s.pendingPayments.find? (fun pp => pp.paymentHash == paymentHash) with
  | some pp => .ok pp
  | none => .error Err.ErrPendingPaymentNotFound

/-- `DeletePendingPayment`: `tx.Delete(pendingPayment)`, a delete by the
primary key `ID`; no row affected is `ErrPendingPaymentNotFound`. -/
def DeletePendingPayment (s : Store) (pendingPayment : PendingPayment) : Except Err Store :=
  if s.pendingPayments.any (fun pp => pp.id == pendingPayment.id) then
    .ok { s with pendingPayments :=
      s.pendingPayments.filter fun pp => !(pp.id == pendingPayment.id) }
  else .error Err.ErrPendingPaymentNotFound

/-- The `ID` the store gives to the next pending payment (auto-increment). -/
def nextPendingPaymentID (s : Store) : Nat :=
  (s.pendingPayments.map (·.id)).foldr max 0 + 1

/-- `CreatePendingPayment`: inserts the row under a fresh `ID` and hands the
stored row back, as `tx.Create` does through the pointer. -/
def CreatePendingPayment (s : Store) (pendingPayment : PendingPayment) :
    Except Err (PendingPayment × Store) :=
  let row := { pendingPayment with id := nextPendingPaymentID s }
  .ok (row, { s with pendingPayments := s.pendingPayments ++ [row] })

/-- `CreateTransaction`: inserts the row. -/
def CreateTransaction (s : Store) (transaction : Transaction) : Except Err Store :=
  .ok { s with transactions := s.transactions ++ [transaction] }

/-- `CreateInvoice`: inserts the row; a second row under the same primary key
`payment_hash` is refused by the store. -/
def CreateInvoice (s : Store) (invoice : Invoice) : Except Err Store :=
  if s.invoices.any (fun i => i.paymentHash == invoice.paymentHash) then
    .error (Err.Reason MsgCreateInvoiceFailed Err.ErrInternal)
  else .ok { s with invoices := s.invoices ++ [invoice] }

/-- `UpdateInvoiceSettleTime`: `UPDATE invoices SET settled = ? WHERE payment_hash = ?`. -/
def UpdateInvoiceSettleTime (s : Store) (paymentHash : String) (time : Nat) : Except Err Store :=
  .ok { s with invoices := s.invoices.map fun i =>
    if i.paymentHash == paymentHash then { i with settled := time } else i }

/-- `SetInvoiceSenderAmount`: sets `sender_id`, `sender_username`, `amount`
and `settled` (to the current time `now`) of the rows with the payment hash. -/
def SetInvoiceSenderAmount (s : Store) (paymentHash username id : String) (amount : Int)
    (now : Nat) : Except Err Store :=
  .ok { s with invoices := s.invoices.map fun i =>
    if i.paymentHash == paymentHash then
      { i with senderID := some id, senderUsername := some username,
               amount := toUint64 amount, settled := now }
    else i }

/-! ## Store transactions and storage failures -/

/-- The result of a repository call as its caller sees it: the storage
failure `fault` when there is one, else what the call computes on the store. -/
def orFault {α : Type} (fault : Option Err) (r : Except Err α) : Except Err α :=
  match fault with
  | some e => .error e
  | none => r

/-- `db.Transaction(fc)`: `fc` runs on the store; its writes are kept only if
it returns no error and the commit (failing with `commit` when that is set)
goes through. -/
def dbTransaction {α : Type} (commit : Option Err) (s : Store)
    (fc : Store → Except Err (α × Store)) : Except Err α × Store :=
  match fc s with
  | .error e => (.error e, s)
  | .ok (a, s') =>
    match commit with
    | some e => (.error e, s)
    | none => (.ok a, s')

/-! ## Wallet manager (`resources/wallet/manager.go`) -/

/-- The storage failures that can strike the repository calls of `Transfer`,
one per call, in the order of the calls. -/
structure TransferFaults where
  walletsFromUser : Option Err := none
  lockFrom : Option Err := none
  lockTo : Option Err := none
  decrement : Option Err := none
  increment : Option Err := none
  createTransaction : Option Err := none
  commit : Option Err := none

/-- What `Transfer` hands back, and the store it leaves. -/
structure TransferOutcome where
  transaction : Option Transaction
  err : Option Err
  db : Store
  deriving DecidableEq, Repr

/-- `isUpdatable`: `LockWalletRecordForUpdate` with logging. -/
def isUpdatable (tx : Store) (username walletId : String) : Except Err Wallet :=
  LockWalletRecordForUpdate tx username walletId

/-- The function `Transfer` passes to `db.Transaction`. -/
def transferTx (f : TransferFaults) (username walletId toWalletId : String) (amount : Nat)
    (tx : Store) : Except Err (Transaction × Store) := do
  let _ ← orFault f.lockFrom (isUpdatable tx username walletId)
  let _ ← orFault f.lockTo (isUpdatable tx username toWalletId)
  let tx ← orFault f.decrement (DecrementWalletBalance tx username walletId amount)
  let tx ← orFault f.increment (IncrementWalletBalance tx username toWalletId amount)
  let transaction : Transaction :=
    { fromID := some walletId, fromUsername := some username,
      toID := some toWalletId, toUsername := some username,
      amount := amount, feesPaid := 0 }
  let tx ← orFault f.createTransaction (CreateTransaction tx transaction)
  pure (transaction, tx)

/-- `Transfer`. -/
def Transfer (f : TransferFaults) (s : Store) (username walletId toWalletId : String)
    (amount : Nat) : TransferOutcome :=
  if amount == 0 then
    ⟨none, some (Err.New "transfer amount must be non-zero"), s⟩
  else if walletId == toWalletId then
    ⟨none, some (Err.New "cannot transfer to the same wallet"), s⟩
  else
    match orFault f.walletsFromUser
        (.ok (WalletsFromUser s username [walletId, toWalletId])) with
    | .error err => ⟨none, some err, s⟩
    | .ok (walletsFromSameUser, _) =>
      if !walletsFromSameUser then
        ⟨none, some (Err.New
          "either wallets are not from same user or one or more wallets do not exist"), s⟩
      else
        match dbTransaction f.commit s (transferTx f username walletId toWalletId amount) with
        | (.error err, db) =>
          if err = Err.ErrCannotUpdateLockedWallet then
            ⟨none, some Err.ErrCannotTransactWithLockedWallet, db⟩
          else ⟨none, some err, db⟩
        | (.ok transaction, db) => ⟨some transaction, none, db⟩

/-! ## The payment network as the invoice manager sees it -/

inductive InvoiceState where
  | OPEN
  | SETTLED
  | CANCELED
  | ACCEPTED
  deriving DecidableEq, Repr

/-- The fields of `lnrpc.Invoice` that the manager reads.  `rHash` is the
payment hash in the encoding of the store key (base64). -/
structure LnInvoice where
  rHash : String
  state : InvoiceState
  amtPaidMsat : Int
  deriving DecidableEq, Repr

/-- The fields of `lnrpc.PayReq` that the manager reads. -/
structure PayReq where
  numMsat : Int
  paymentHash : String
  destination : String := ""
  deriving DecidableEq, Repr

inductive PaymentStatus where
  | UNKNOWN
  | IN_FLIGHT
  | SUCCEEDED
  | FAILED
  deriving DecidableEq, Repr

/-- The fields of `lnrpc.Payment` that the manager reads; `failureReason` is
empty for `FAILURE_REASON_NONE`. -/
structure LnPayment where
  paymentHash : String
  valueMsat : Int
  feeMsat : Int
  status : PaymentStatus
  failureReason : String := ""
  deriving DecidableEq, Repr

structure SendPaymentRequest where
  paymentRequest : String
  feeLimitMsat : Int
  timeoutSeconds : Int
  amtMsat : Int
  deriving DecidableEq, Repr

/-- What lies outside the manager: the answers of the payment network
client, the clock, the hash decoding and the floating-point fee ceiling. -/
structure Env where
  /-- The first message of the stream of `SendPaymentV2`, or the error of the
  call or of `Recv`. -/
  sendPaymentV2 : SendPaymentRequest → Except Err LnPayment
  /-- The first message of the stream of `TrackPaymentV2`; `none` is an error. -/
  trackPaymentV2 : String → Option LnPayment
  /-- The answer of `LookupInvoice` for a stored payment hash; `none` is an
  error of the decoding or of the lookup. -/
  lookupInvoice : String → Option LnInvoice
  /-- The base64 form of a hex payment hash; `none` when it is not hex. -/
  base64OfHex : String → Option String
  /-- The value of `int64(math.Min(float64(numMsat) * 0.03, float64(cBal - uint64(numMsat))))`,
  given `numMsat` and `cBal`. -/
  feeLimitMsat : Int → Nat → Int
  /-- The reading of `time.Now()`. -/
  now : Nat
  /-- The answer of `DecodePayReq` for a payment request. -/
  decodePayReq : String → Except Err PayReq := fun _ => .error (Err.New "invalid payment request")
  /-- The answer of `AddInvoice` for a memo, a value and an expiry: the payment
  request and the payment hash (in the encoding of the store key). -/
  addInvoice : String → Int → Int → Except Err (String × String) :=
    fun _ _ _ => .error (Err.New "unable to create invoice")

/-! ## Invoice manager (`resources/invoice/manager.go`, `resources/invoice/handler.go`) -/

structure Payment where
  success : Bool
  amountMsat : Nat
  feeMsat : Nat := 0
  failureReason : String := ""
  deriving DecidableEq, Repr

/-- The manager: the store, the two pending caches (each entry is kept
under the payment hash of the record it holds), the payment ceiling, and the
requests handed to the payment network so far. -/
structure Manager where
  db : Store
  pendingInvoiceCache : List PendingInvoice := []
  pendingPaymentCache : List PendingPayment := []
  maxPayment : Int
  sent : List SendPaymentRequest := []
  deriving DecidableEq, Repr

/-- `finalizeInvoice`.  `none` is the halt of `log.Fatal`. -/
def finalizeInvoice (m : Manager) (invoice : LnInvoice) : Option Manager :=
  let paymentHash := invoice.rHash
  let found : Option (PendingInvoice × Manager) :=
    match m.pendingInvoiceCache.find? (fun pi => pi.paymentHash == paymentHash) with
    | some pi =>
      some (pi, { m with pendingInvoiceCache :=
        m.pendingInvoiceCache.filter fun c => !(c.paymentHash == pi.paymentHash) })
    | none =>
      match GetPendingInvoice m.db paymentHash with
      | .ok pi => some (pi, m)
      | .error _ => none
  match found with
  | none => some m
  | some (pendingInvoice, m) =>
    let res := dbTransaction none m.db fun tx =>
      let tx := { tx with pendingInvoices :=
        tx.pendingInvoices.filter fun pi => !(pi.paymentHash == pendingInvoice.paymentHash) }
      if invoice.state ≠ InvoiceState.SETTLED then .ok ((), tx)
      else
        match GetWallet m.db pendingInvoice.walletUsername pendingInvoice.walletID with
        | .error err => .error err
        | .ok wal =>
          let wal := { wal with
            balance := ((toUint64 wal.balance + toUint64 invoice.amtPaidMsat) % u64 : Nat) }
          let save := fun w : Wallet => if isWallet wal.username wal.id w then wal else w
          let tx := { tx with wallets := tx.wallets.map save }
          let walTx : Transaction :=
            { fromID := none, fromUsername := none,
              toID := some wal.id, toUsername := some wal.username,
              amount := toUint64 invoice.amtPaidMsat, feesPaid := 0,
              invoiceID := some paymentHash }
          match CreateTransaction tx walTx with
          | .error err => .error err
          | .ok tx => .ok ((), tx)
    match res with
    | (.error _, _) => none
    | (.ok _, db) => some { m with db := db }

/-- `handleStaleInvoices`: every pending invoice of the store is put in the
cache, looked up on the payment network and handed to `finalizeInvoice`. -/
def handleStaleInvoices (env : Env) (m : Manager) : Option Manager :=
  (ListPendingInvoices m.db).foldl
    (fun acc pi =>
      match acc with
      | none => none
      | some m =>
        let m := { m with pendingInvoiceCache :=
          (m.pendingInvoiceCache.filter fun c => !(c.paymentHash == pi.paymentHash)) ++ [pi] }
        match env.lookupInvoice pi.paymentHash with
        | none => none
        | some invoice => finalizeInvoice m invoice)
    (some m)

/-- One event of the subscription of `trackPendingInvoices`. -/
def trackPendingInvoices (m : Manager) (invoice : LnInvoice) : Option Manager :=
  if invoice.state = InvoiceState.SETTLED ∨ invoice.state = InvoiceState.CANCELED then
    finalizeInvoice m invoice
  else some m

/-- `finalizePayment`.  `none` is the halt of `log.Fatal`. -/
def finalizePayment (env : Env) (m : Manager) (paymentHash : String) (success : Bool)
    (feesPaid : Int) : Option Manager :=
  let found : Option (PendingPayment × Manager) :=
    match m.pendingPaymentCache.find? (fun pp => pp.paymentHash == paymentHash) with
    | some pp =>
      some (pp, { m with pendingPaymentCache :=
        m.pendingPaymentCache.filter fun c => !(c.paymentHash == paymentHash) })
    | none =>
      match GetPendingPayment m.db paymentHash with
      | .ok pp => some (pp, m)
      | .error _ => none
  match found with
  | none => none
  | some (pendingPayment, m) =>
    let res := dbTransaction none m.db fun tx => do
      let tx ← DeletePendingPayment tx pendingPayment
      if !success then pure ((), tx)
      else
        let tx ← DecrementWalletBalance tx pendingPayment.walletUsername
          pendingPayment.walletID (subU64 pendingPayment.amount (toUint64 feesPaid))
        let paymentTime := env.now
        let walTx : Transaction :=
          { fromID := some pendingPayment.walletID,
            fromUsername := some pendingPayment.walletUsername,
            toID := none, toUsername := none,
            amount := pendingPayment.amount, feesPaid := toUint64 feesPaid,
            invoiceID := some paymentHash }
        let tx ← CreateTransaction tx walTx
        let tx ← UpdateInvoiceSettleTime tx paymentHash paymentTime
        pure ((), tx)
    match res with
    | (.error _, _) => none
    | (.ok _, db) => some { m with db := db }

/-- `trackPendingPayment`: the terminal status of the payment is read from
the payment network and handed to `finalizePayment`. -/
def trackPendingPayment (env : Env) (m : Manager) (paymentHash : String) :
    Option (Payment × Manager) :=
  match env.trackPaymentV2 paymentHash with
  | none => none
  | some lnPayment =>
    match finalizePayment env m paymentHash
        (decide (lnPayment.status = PaymentStatus.SUCCEEDED)) lnPayment.feeMsat with
    | none => none
    | some m =>
      some ({ success := decide (lnPayment.status = PaymentStatus.SUCCEEDED),
              amountMsat := toUint64 lnPayment.valueMsat,
              feeMsat := toUint64 lnPayment.feeMsat,
              failureReason := lnPayment.failureReason }, m)

/-- `handleSelfPayments`: the error it returns, if any, and the manager it leaves. -/
def handleSelfPayments (env : Env) (m : Manager) (sUsername sId rUsername rId : String)
    (payHash : String) (amount : Int) : Option Err × Manager :=
  let res := dbTransaction none m.db fun tx => do
    let cBal ← GetConfirmedBalance tx sUsername sId
    if cBal < toUint64 amount then throw (Err.New "insufficient funds")
    let tx ← SetInvoiceSenderAmount tx payHash sUsername sId amount env.now
    let tx ← CreateTransaction tx
      { fromID := some sId, fromUsername := some sUsername,
        toID := some rId, toUsername := some rUsername,
        amount := toUint64 amount, feesPaid := 0, invoiceID := some payHash }
    let tx ← DeletePendingInvoice tx payHash
    let tx ← IncrementWalletBalance tx rUsername rId (toUint64 amount)
    let tx ← DecrementWalletBalance tx sUsername sId (toUint64 amount)
    pure ((), tx)
  match res with
  | (.error err, db) => (some err, { m with db := db })
  | (.ok _, db) =>
    (none, { m with db := db, pendingInvoiceCache :=
      m.pendingInvoiceCache.filter fun c => !(c.paymentHash == payHash) })

/-- What `payInvoice` hands back. -/
structure PayOutcome where
  payment : Option Payment
  err : Option Err
  deriving DecidableEq, Repr

/-- The function the external branch of `payInvoice` passes to
`db.Transaction`, together with what it does outside the store: the request
handed to the payment network and the entry put in the pending-payment cache
stay when the store transaction is rolled back. -/
def payInvoiceTx (env : Env) (m : Manager) (wal : Wallet) (pr : String) (payreq : PayReq)
    (amount : Int) : Manager × Except Err LnPayment :=
  match GetConfirmedBalance m.db wal.username wal.id with
  | .error err => (m, .error err)
  | .ok cBal =>
    if cBal < toUint64 amount then (m, .error (Err.New "insufficient funds"))
    else
      let specifiedAmount : Int := if payreq.numMsat > 0 then 0 else amount
      let req : SendPaymentRequest :=
        { paymentRequest := pr,
          feeLimitMsat := env.feeLimitMsat payreq.numMsat cBal,
          timeoutSeconds := 30,
          amtMsat := specifiedAmount }
      let m := { m with sent := m.sent ++ [req] }
      match env.sendPaymentV2 req with
      | .error err => (m, .error err)
      | .ok payment =>
        match CreatePendingPayment m.db
            { id := 0, walletID := wal.id, walletUsername := wal.username,
              paymentHash := payment.paymentHash, amount := toUint64 amount } with
        | .error err => (m, .error err)
        | .ok (pendingPayment, tx) =>
          let cache := (m.pendingPaymentCache.filter fun c =>
            !(c.paymentHash == payment.paymentHash)) ++ [pendingPayment]
          match CreateInvoice tx
              { paymentHash := payment.paymentHash, paymentRequest := pr,
                pubkey := payreq.destination, amount := toUint64 amount,
                senderID := some wal.id, senderUsername := some wal.username,
                settled := 0 } with
          | .error err => ({ m with pendingPaymentCache := cache }, .error err)
          | .ok tx => ({ m with db := tx, pendingPaymentCache := cache }, .ok payment)

/-- `payInvoice`.  With `sync` the terminal status is awaited and finalized
before the return; without it the tracker is left to run later
(`trackPendingPayment`).  `none` is the halt of `log.Fatal`. -/
def payInvoice (env : Env) (m : Manager) (wal : Wallet) (pr : String) (payreq : PayReq)
    (amount : Int) (sync : Bool) : Option (PayOutcome × Manager) :=
  if payreq.numMsat > m.maxPayment then
    some (⟨none, some (Err.New "size is greater than the maximum payment size")⟩, m)
  else
    match env.base64OfHex payreq.paymentHash with
    | none => some (⟨none, some (Err.New "failed to decode payment hash")⟩, m)
    | some payH =>
      match GetPendingInvoice m.db payH with
      | .ok pending =>
        match handleSelfPayments env m wal.username wal.id pending.walletUsername
            pending.walletID payH amount with
        | (none, m) => some (⟨some { success := true, amountMsat := toUint64 amount }, none⟩, m)
        | (some err, m) => some (⟨none, some err⟩, m)
      | .error err =>
        if err ≠ Err.ErrPendingInvoiceNotFound then some (⟨none, some err⟩, m)
        else
          match payInvoiceTx env m wal pr payreq amount with
          | (m, .error err) => some (⟨none, some err⟩, m)
          | (m, .ok payment) =>
            if sync then
              match trackPendingPayment env m payment.paymentHash with
              | none => none
              | some (p, m) => some (⟨some p, none⟩, m)
            else some (⟨none, none⟩, m)

/-! ## Users (`models/user.go`) -/

/-- `GetUser`: `First` by `username` among the users that are not soft-deleted. -/
def GetUser (s : Store) (username : String) : Except Err User :=
  match s.users.find? (fun u => u.username == username && !u.deleted) with
  | some u => .ok u
  | none => .error Err.ErrUserNotFound

/-! ## Credential service (`auth/service.go`, `auth/util.go`) -/

inductive HeaderApiKey where
  | Admin
  | User
  | Wallet
  | Invalid
  deriving DecidableEq, Repr

/-- The request metadata: the first value of each of the four headers, when present. -/
structure Metadata where
  username : Option String := none
  adminApiKey : Option String := none
  userApiKey : Option String := none
  walletApiKey : Option String := none
  deriving DecidableEq, Repr

/-- `getStringHeader`. -/
def getStringHeader (header : Option String) : Except Err String :=
  match header with
  | some v => .ok v
  | none => .error Err.ErrInvalidHeaderFormat

/-- `getApiKey`: the key and its kind when exactly one of the three key
headers is present. -/
def getApiKey (md : Metadata) : Except Err (String × HeaderApiKey) :=
  match md.adminApiKey, md.userApiKey, md.walletApiKey with
  | some k, none, none => .ok (k, HeaderApiKey.Admin)
  | none, some k, none => .ok (k, HeaderApiKey.User)
  | none, none, some k => .ok (k, HeaderApiKey.Wallet)
  | _, _, _ => .error Err.ErrInvalidHeaderFormat

/-- A `cache.Cache` holding strings: at most one entry is read per key. -/
abbrev KeyCache := List (String × String)

/-- `Get` of a key cache. -/
def KeyCache.get (c : KeyCache) (k : String) : Option String :=
  (c.find? fun e => e.1 == k).map (·.2)

/-- `SetDefault` of a key cache. -/
def KeyCache.setDefault (c : KeyCache) (k v : String) : KeyCache :=
  (c.filter fun e => !(e.1 == k)) ++ [(k, v)]

/-- The credential service: the admin key, the store behind the user and
wallet managers, and the three caches. -/
structure Service where
  xlnApiKey : String
  db : Store
  userKeys : KeyCache := []
  walletKeys : KeyCache := []
  walletUserKeys : KeyCache := []
  deriving DecidableEq, Repr

/-- `userExists`. -/
def userExists (s : Service) (username : String) : Bool × Option Err :=
  if username ≠ "" then
    match GetUser s.db username with
    | .error Err.ErrUserNotFound => (false, some Err.ErrUnauthenticated)
    | .error _ => (false, some Err.AuthErrInternal)
    | .ok _ => (true, none)
  else (false, some Err.ErrMissingUsername)

/-- `userKeyMatchesUser`. -/
def userKeyMatchesUser (s : Service) (username userKey : String) : Bool × Service :=
  if userKey = "" then (false, s)
  else
    match s.userKeys.get username with
    | some apiKey => (apiKey == userKey, s)
    | none =>
      match GetUser s.db username with
      | .error _ => (false, s)
      | .ok u => (u.apiKey == userKey, { s with userKeys := s.userKeys.setDefault username u.apiKey })

/-- `userMatchesWallet`. -/
def userMatchesWallet (s : Service) (username walletId userKey : String) : Bool × Service :=
  if userKey = "" then (false, s)
  else
    match s.walletUserKeys.get walletId with
    | some apiKey => (apiKey == userKey, s)
    | none =>
      match GetWallet s.db username walletId with
      | .error _ => (false, s)
      | .ok _ => (true, { s with walletUserKeys := s.walletUserKeys.setDefault walletId userKey })

/-- `walletKeyMatchesWallet`. -/
def walletKeyMatchesWallet (s : Service) (username walletId walletKey : String) :
    Bool × Service :=
  if walletKey = "" then (false, s)
  else
    match s.walletKeys.get walletId with
    | some apiKey => (apiKey == walletKey, s)
    | none =>
      match GetWallet s.db username walletId with
      | .error _ => (false, s)
      | .ok w => (w.apiKey == walletKey, { s with walletKeys := s.walletKeys.setDefault walletId w.apiKey })

/-- What a validator hands back, and the service it leaves. -/
structure AuthOutcome where
  username : String
  err : Option Err
  service : Service
  deriving DecidableEq, Repr

/-- `ValidateWalletCredentials`; `md` is `none` when the context carries no metadata. -/
def ValidateWalletCredentials (s : Service) (md : Option Metadata) (walletId : String) :
    AuthOutcome :=
  match md with
  | none => ⟨"", some Err.ErrParsingContext, s⟩
  | some md =>
    match getApiKey md with
    | .error headerErr => ⟨"", some headerErr, s⟩
    | .ok (apiKey, keyType) =>
      match getStringHeader md.username with
      | .error headerErr => ⟨"", some headerErr, s⟩
      | .ok username =>
        match keyType with
        | HeaderApiKey.Admin =>
          if s.xlnApiKey ≠ apiKey then ⟨username, some Err.ErrUnauthenticated, s⟩
          else
            match userExists s username with
            | (true, none) => ⟨username, none, s⟩
            | (_, err) => ⟨username, err, s⟩
        | HeaderApiKey.User =>
          match userKeyMatchesUser s username apiKey with
          | (false, s) => ⟨username, some Err.ErrUnauthenticated, s⟩
          | (true, s) =>
            match userMatchesWallet s username walletId apiKey with
            | (true, s) => ⟨username, none, s⟩
            | (false, s) => ⟨username, some Err.ErrUnauthenticated, s⟩
        | HeaderApiKey.Wallet =>
          match walletKeyMatchesWallet s username walletId apiKey with
          | (true, s) => ⟨username, none, s⟩
          | (false, s) => ⟨username, some Err.ErrUnauthenticated, s⟩
        | HeaderApiKey.Invalid => ⟨username, some Err.ErrInvalidHeaderFormat, s⟩

/-! ## Concrete states used below -/

/-- Alice holds wallet `w` with balance 0 and one payment of 5 in flight
(the balance was lowered by `UpdateWalletOptions` after the payment left). -/
def storeOverdrawn : Store :=
  { wallets := [{ id := "w", username := "alice", balance := 0 }],
    pendingPayments :=
      [{ id := 1, walletID := "w", walletUsername := "alice", paymentHash := "h", amount := 5 }] }

/-- User `u` holds wallet `a` with balance 50 and wallet `b` with balance 0. -/
def storeTwoWallets : Store :=
  { wallets := [{ id := "a", username := "u", balance := 50 },
                { id := "b", username := "u", balance := 0 }] }

/-- An environment whose payment network accepts every payment and reports
it succeeded without fee; hex hashes are taken as their own base64 form. -/
def envPlain : Env :=
  { sendPaymentV2 := fun req =>
      .ok { paymentHash := req.paymentRequest, valueMsat := 0, feeMsat := 0,
            status := PaymentStatus.IN_FLIGHT },
    trackPaymentV2 := fun h =>
      some { paymentHash := h, valueMsat := 0, feeMsat := 0, status := PaymentStatus.SUCCEEDED },
    lookupInvoice := fun h => some { rHash := h, state := InvoiceState.OPEN, amtPaidMsat := 0 },
    base64OfHex := fun h => some h,
    feeLimitMsat := fun _ _ => 0,
    now := 1700000000 }

/-- Alice holds 1000; Bob has issued the invoice `inv1` of 100, still pending. -/
def managerSelfPay : Manager :=
  { db :=
      { wallets := [{ id := "alice", username := "alice", balance := 1000 },
                    { id := "bob", username := "bob", balance := 0 }],
        pendingInvoices :=
          [{ paymentHash := "inv1", walletID := "bob", walletUsername := "bob", amount := 100 }],
        invoices :=
          [{ paymentHash := "inv1", amount := 100,
             recipientID := some "bob", recipientUsername := some "bob" }] },
    pendingInvoiceCache :=
      [{ paymentHash := "inv1", walletID := "bob", walletUsername := "bob", amount := 100 }],
    maxPayment := 1000000 }

/-- As `managerSelfPay`, but Bob's wallet has been deleted since the invoice
was issued. -/
def managerNoRecipient : Manager :=
  { managerSelfPay with
    db := { managerSelfPay.db with
      wallets := [{ id := "alice", username := "alice", balance := 1000 }] } }

/-- As `managerSelfPay`, but Carol owns a wallet that also has the id `alice`
and has a payment of 950 in flight from it. -/
def managerForeignPending : Manager :=
  { managerSelfPay with
    db := { managerSelfPay.db with
      wallets := [{ id := "alice", username := "alice", balance := 1000 },
                  { id := "bob", username := "bob", balance := 0 },
                  { id := "alice", username := "carol", balance := 5000 }],
      pendingPayments :=
        [{ id := 1, walletID := "alice", walletUsername := "carol", paymentHash := "out1",
           amount := 950 }] } }

/-- The wallet snapshot `payInvoice` is called with for Alice. -/
def walletAlice : Wallet := { id := "alice", username := "alice", balance := 1000 }

/-! ## Schema constraints -/

/-- The primary key of the wallets table: `(username, id)`. -/
def Wallet.key (w : Wallet) : String × String := (w.username, w.id)

/-- The wallets table has no two rows under one primary key. -/
def Store.walletKeysUnique (s : Store) : Prop := (s.wallets.map Wallet.key).Nodup

instance (s : Store) : Decidable s.walletKeysUnique :=
  inferInstanceAs (Decidable (s.wallets.map Wallet.key).Nodup)

/-- The ledger entry that `Transfer` writes. -/
def transferTransaction (username walletId toWalletId : String) (amount : Nat) : Transaction :=
  { fromID := some walletId, fromUsername := some username,
    toID := some toWalletId, toUsername := some username,
    amount := amount, feesPaid := 0 }

/-- A wallet row with `delta` taken from its balance. -/
def Wallet.debit (w : Wallet) (delta : Int) : Wallet := { w with balance := w.balance - delta }

/-- A wallet row with `delta` added to its balance. -/
def Wallet.credit (w : Wallet) (delta : Int) : Wallet := { w with balance := w.balance + delta }

/-- The sum of the balances of all wallets. -/
def Store.totalBalance (s : Store) : Int := (s.wallets.map (·.balance)).sum

/-- The `minBalance` that `DecrementWalletBalance` compares the balance with. -/
def minBalance (s : Store) (walletId : String) (deltaBalance : Nat) : Nat :=
  (deltaBalance +
    sumPendingAmounts (s.pendingPayments.filter fun pp => pp.walletID == walletId)) % u64

/-- What `Transfer` does to a wallet row. -/
def transferRow (username walletId toWalletId : String) (amount : Nat) (w : Wallet) : Wallet :=
  if isWallet username walletId w then w.debit amount
  else if isWallet username toWalletId w then w.credit amount
  else w

/-- What `IncrementWalletBalance` does to a wallet row. -/
def creditRow (username walletId : String) (delta : Nat) (w : Wallet) : Wallet :=
  if isWallet username walletId w then w.credit delta else w

/-- What `DecrementWalletBalance` does to a wallet row, `min` being the
`minBalance` of its `WHERE` clause. -/
def debitRow (username walletId : String) (min delta : Nat) (w : Wallet) : Wallet :=
  if isWallet username walletId w && decide ((min : Int) ≤ w.balance) then w.debit delta else w

/-! ## Exact quantities the properties speak of -/

/-- The exact sum of the amounts of the pending payments of wallet
`(username, walletId)`: the `P` of the spec. -/
def pendingTotal (s : Store) (username walletId : String) : Nat :=
  ((ListWalletPendingPayments s username walletId).map (·.amount)).sum

/-- No pending payment of another user is recorded under wallet id `walletId`. -/
def Store.noForeignPending (s : Store) (username walletId : String) : Prop :=
  ∀ pp ∈ s.pendingPayments, pp.walletID = walletId → pp.walletUsername = username

instance (s : Store) (username walletId : String) :
    Decidable (s.noForeignPending username walletId) :=
  inferInstanceAs (Decidable (∀ pp ∈ s.pendingPayments, _ → _))

/-- A wallet row of `(username, walletId)` with `delta` taken from its balance. -/
def debitPayerRow (username walletId : String) (delta : Nat) (w : Wallet) : Wallet :=
  if isWallet username walletId w then w.debit delta else w

/-- What `SetInvoiceSenderAmount` does to an invoice row. -/
def paidInvoiceRow (paymentHash username id : String) (amount : Int) (now : Nat)
    (i : Invoice) : Invoice :=
  if i.paymentHash == paymentHash then
    { i with senderID := some id, senderUsername := some username,
             amount := toUint64 amount, settled := now }
  else i

/-- The ledger entry of a self-payment. -/
def selfPaymentTransaction (sUsername sId rUsername rId payHash : String) (amount : Int) :
    Transaction :=
  { fromID := some sId, fromUsername := some sUsername,
    toID := some rId, toUsername := some rUsername,
    amount := toUint64 amount, feesPaid := 0, invoiceID := some payHash }

/-- The store after the self-payment of `amount` by `(sUsername, sId)` of the
invoice `payHash` of `(rUsername, rId)`. -/
def selfPaymentStore (s : Store) (sUsername sId rUsername rId payHash : String) (amount : Int)
    (now : Nat) : Store :=
  { s with
    invoices := s.invoices.map (paidInvoiceRow payHash sUsername sId amount now),
    transactions :=
      s.transactions ++ [selfPaymentTransaction sUsername sId rUsername rId payHash amount],
    pendingInvoices := s.pendingInvoices.filter fun pi => !(pi.paymentHash == payHash),
    wallets := (s.wallets.map (creditRow rUsername rId (toUint64 amount))).map
      (debitPayerRow sUsername sId (toUint64 amount)) }

/-- The receipt that `finalizeInvoice` writes for a settled invoice. -/
def receiptTransaction (pending : PendingInvoice) (paymentHash : String) (amount : Nat) :
    Transaction :=
  { fromID := none, fromUsername := none,
    toID := some pending.walletID, toUsername := some pending.walletUsername,
    amount := amount, feesPaid := 0, invoiceID := some paymentHash }

/-- The store without the pending invoices of `paymentHash`. -/
def withoutPendingInvoice (s : Store) (paymentHash : String) : Store :=
  { s with pendingInvoices := s.pendingInvoices.filter fun pi => !(pi.paymentHash == paymentHash) }

/-- The store after the settlement of `amount` on the pending invoice `pending`. -/
def settledStore (s : Store) (pending : PendingInvoice) (paymentHash : String) (amount : Nat) :
    Store :=
  { withoutPendingInvoice s paymentHash with
    wallets := s.wallets.map (creditRow pending.walletUsername pending.walletID amount),
    transactions := s.transactions ++ [receiptTransaction pending paymentHash amount] }

/-- A manager whose pending-invoice cache has lost the entries of `paymentHash`. -/
def Manager.evictInvoice (m : Manager) (paymentHash : String) : Manager :=
  { m with pendingInvoiceCache :=
      m.pendingInvoiceCache.filter fun c => !(c.paymentHash == paymentHash) }

/-- Alice's default wallet at 0 with one invoice of 5000 issued and pending
(the scenario of the spec). -/
def managerAliceInvoice : Manager :=
  { db :=
      { wallets := [{ id := "alice", username := "alice", balance := 0 }],
        pendingInvoices :=
          [{ paymentHash := "inv5000", walletID := "alice", walletUsername := "alice",
             amount := 5000 }],
        invoices :=
          [{ paymentHash := "inv5000", amount := 5000,
             recipientID := some "alice", recipientUsername := some "alice" }] },
    pendingInvoiceCache :=
      [{ paymentHash := "inv5000", walletID := "alice", walletUsername := "alice",
         amount := 5000 }],
    maxPayment := 1000000 }

/-- As `managerAliceInvoice`, after Alice's wallet has been deleted. -/
def managerInvoiceNoWallet : Manager :=
  { managerAliceInvoice with db := { managerAliceInvoice.db with wallets := [] } }

/-- As `managerAliceInvoice`, with Alice's balance at the top of the `uint64` range. -/
def managerInvoiceFull : Manager :=
  { managerAliceInvoice with
    db := { managerAliceInvoice.db with
      wallets := [{ id := "alice", username := "alice", balance := 2 ^ 64 - 1 }] } }

/-- The ledger entry that `finalizePayment` writes for a succeeded payment. -/
def paymentTransaction (pending : PendingPayment) (paymentHash : String) (fee : Nat) :
    Transaction :=
  { fromID := some pending.walletID, fromUsername := some pending.walletUsername,
    toID := none, toUsername := none,
    amount := pending.amount, feesPaid := fee, invoiceID := some paymentHash }

/-- What `UpdateInvoiceSettleTime` does to an invoice row. -/
def settleRow (paymentHash : String) (time : Nat) (i : Invoice) : Invoice :=
  if i.paymentHash == paymentHash then { i with settled := time } else i

/-- The store without the pending payment row of `pending` (rows of its `ID`). -/
def withoutPendingPayment (s : Store) (pending : PendingPayment) : Store :=
  { s with pendingPayments := s.pendingPayments.filter fun pp => !(pp.id == pending.id) }

/-- The store after the succeeded payment `pending` with fee `fee` has been
finalized at time `now`. -/
def paidStore (s : Store) (pending : PendingPayment) (paymentHash : String) (fee : Nat)
    (now : Nat) : Store :=
  { withoutPendingPayment s pending with
    wallets := s.wallets.map
      (debitPayerRow pending.walletUsername pending.walletID (pending.amount - fee)),
    transactions := s.transactions ++ [paymentTransaction pending paymentHash fee],
    invoices := s.invoices.map (settleRow paymentHash now) }

/-- A manager whose pending-payment cache has lost the entries of `paymentHash`. -/
def Manager.evictPayment (m : Manager) (paymentHash : String) : Manager :=
  { m with pendingPaymentCache :=
      m.pendingPaymentCache.filter fun c => !(c.paymentHash == paymentHash) }

/-- Alice holds 1000 and has the payment `out1` of 50 in flight. -/
def managerPayment : Manager :=
  { db :=
      { wallets := [{ id := "alice", username := "alice", balance := 1000 }],
        pendingPayments :=
          [{ id := 1, walletID := "alice", walletUsername := "alice", paymentHash := "out1",
             amount := 50 }],
        invoices :=
          [{ paymentHash := "out1", amount := 50,
             senderID := some "alice", senderUsername := some "alice" }] },
    pendingPaymentCache :=
      [{ id := 1, walletID := "alice", walletUsername := "alice", paymentHash := "out1",
         amount := 50 }],
    maxPayment := 1000000 }

/-- As `managerPayment`, after Alice's balance has been set to 10 through
`UpdateWalletOptions`. -/
def managerPaymentShort : Manager :=
  { managerPayment with
    db := { managerPayment.db with
      wallets := [{ id := "alice", username := "alice", balance := 10 }] } }

/-- The manager at start-up, before the recovery sweep: the store of
`managerAliceInvoice` (Alice at 0, her invoice of 5000 pending), empty caches. -/
def managerRestart : Manager :=
  { managerAliceInvoice with pendingInvoiceCache := [] }

/-- Alice and Bob each own a wallet with the id `main`, with their own keys. -/
def serviceTwoMain : Service :=
  { xlnApiKey := "admin-key",
    db :=
      { users := [{ username := "alice", apiKey := "alice-user-key" },
                  { username := "bob", apiKey := "bob-user-key" }],
        wallets := [{ id := "main", username := "alice", apiKey := "alice-main-key" },
                    { id := "main", username := "bob", apiKey := "bob-main-key" }] } }

/-- A request carrying a wallet key for `username`. -/
def walletKeyRequest (username key : String) : Metadata :=
  { username := some username, walletApiKey := some key }

/-- As `envPlain`, with a payment network that reports every invoice looked
up as settled for 5000. -/
def envSettled : Env :=
  { envPlain with
    lookupInvoice := fun h =>
      some { rHash := h, state := InvoiceState.SETTLED, amtPaidMsat := 5000 } }

/-- The event of the settlement of Alice's invoice for 5000. -/
def eventSettled : LnInvoice :=
  { rHash := "inv5000", state := InvoiceState.SETTLED, amtPaidMsat := 5000 }

/-! ## Second part of the model: options, withdraw templates, public payment
operations, invoice creation, user credentials -/

/-- Go's `int64(x)` for a `uint64` `x`. -/
def toInt64 (x : Nat) : Int :=
  if x % u64 < 2 ^ 63 then ((x % u64 : Nat) : Int) else ((x % u64 : Nat) : Int) - (u64 : Int)

def MsgCreatePendingInvoiceFailed : String := "failed to create pending invoice"

/-- The `WalletOptions` of an update: `none` is a nil pointer. -/
structure WalletOptions where
  name : Option String := none
  locked : Option Bool := none
  balance : Option Nat := none
  deriving DecidableEq, Repr

/-- What the `UPDATE` of `UpdateWalletOptions` does to a matching wallet row. -/
def applyWalletOptions (walletOptions : WalletOptions) (w : Wallet) : Wallet :=
  let w := match walletOptions.name with
    | some name => { w with name := some name }
    | none => w
  let w := match walletOptions.locked with
    | some locked => { w with locked := locked }
    | none => w
  match walletOptions.balance with
  | some balance => { w with balance := (balance : Int) }
  | none => w

/-- What the `UPDATE` of `UpdateWalletOptions` does to a wallet row. -/
def optionsRow (username walletId : String) (walletOptions : WalletOptions) (w : Wallet) :
    Wallet :=
  if isWallet username walletId w then applyWalletOptions walletOptions w else w

/-- `UpdateWalletOptions` of the repository: no row affected is `ErrWalletNotFound`. -/
def UpdateWalletOptions (s : Store) (username walletId : String)
    (walletOptions : WalletOptions) : Except Err Store :=
  if s.wallets.any (isWallet username walletId) then
    .ok { s with wallets := s.wallets.map (optionsRow username walletId walletOptions) }
  else .error Err.ErrWalletNotFound

/-- `UpdateWalletOptions` of the wallet manager: the error it returns, if any,
and the store it leaves. -/
def Wallets.UpdateWalletOptions (s : Store) (username walletId : String)
    (walletOptions : WalletOptions) : Option Err × Store :=
  if (match walletOptions.name with
      | some name => decide (name ≠ "") && decide (walletId = username)
      | none => false) then
    (some (Err.New "Cannot edit the name of the main wallet"), s)
  else
    let res := dbTransaction none s fun tx =>
      let err : Option Err :=
        match isUpdatable tx username walletId with
        | .ok _ => none
        | .error e => some e
      let unlockingLocked : Bool := decide (err = some Err.ErrCannotUpdateLockedWallet) &&
        decide (walletOptions.locked = some false)
      if decide (err = none) || unlockingLocked then
        match Xln.UpdateWalletOptions tx username walletId walletOptions with
        | .ok tx => .ok ((), tx)
        | .error e => .error e
      else
        match err with
        | some e => .error e
        | none => .ok ((), tx)
    match res with
    | (.error e, s) => (some e, s)
    | (.ok _, s) => (none, s)

/-- `ListPendingWithdraws`: `wallet_username = ? AND wallet_id = ? AND withdraw_k1 = ?`. -/
def ListPendingWithdraws (s : Store) (username walletId k1 : String) : List PendingPayment :=
  s.pendingPayments.filter fun pp =>
    pp.walletUsername == username && pp.walletID == walletId && pp.withdrawK1 == some k1

/-- `GetWithdraw` with `includeExpired = false`, at time `now`:
`k1 = ? AND (expiry >= now OR expiry = zero)`. -/
def GetWithdraw (s : Store) (k1 : String) (now : Nat) : Except Err Withdraw :=
  match s.withdraws.find? (fun w => w.k1 == k1 && (decide (now ≤ w.expiry) || w.expiry == 0)) with
  | some w => .ok w
  | none => .error Err.ErrWithdrawNotFound

/-- What `IncrementWithdrawCount` does to a withdraw row. -/
def usedRow (k1 : String) (w : Withdraw) : Withdraw :=
  if w.k1 == k1 then { w with uses := w.uses + 1 } else w

/-- `IncrementWithdrawCount`: `UPDATE withdraws SET uses = uses + 1 WHERE k1 = ?`;
no row affected is `ErrWalletNotFound`. -/
def IncrementWithdrawCount (s : Store) (k1 : String) : Except Err Store :=
  if s.withdraws.any (fun w => w.k1 == k1) then
    .ok { s with withdraws := s.withdraws.map (usedRow k1) }
  else .error Err.ErrWalletNotFound

/-- `CreatePendingInvoice`: inserts the row; a second row under the same
primary key `payment_hash` is refused by the store. -/
def CreatePendingInvoice (s : Store) (pendingInv : PendingInvoice) : Except Err Store :=
  if s.pendingInvoices.any (fun pi => pi.paymentHash == pendingInv.paymentHash) then
    .error (Err.Reason MsgCreatePendingInvoiceFailed Err.ErrInternal)
  else .ok { s with pendingInvoices := s.pendingInvoices ++ [pendingInv] }

/-- `getAndValidateWallet`. -/
def getAndValidateWallet (m : Manager) (username walletId : String) : Except Err Wallet :=
  match GetWallet m.db username walletId with
  | .error err => .error err
  | .ok wallet =>
    if wallet.locked then .error (Err.New "cannot transact with locked wallet") else .ok wallet

/-- `PayInvoice`. -/
def PayInvoice (env : Env) (m : Manager) (username walletId pr : String) (sync : Bool) :
    Option (PayOutcome × Manager) :=
  match getAndValidateWallet m username walletId with
  | .error err => some (⟨none, some err⟩, m)
  | .ok wallet =>
    match env.decodePayReq pr with
    | .error _ => some (⟨none, some (Err.New "invalid payment request format")⟩, m)
    | .ok payreq =>
      if payreq.numMsat = 0 then
        some (⟨none, some (Err.New
          "amount must be specified when paying a zero amount invoice")⟩, m)
      else payInvoice env m wallet pr payreq payreq.numMsat sync

/-- `PayInvoiceAmount`. -/
def PayInvoiceAmount (env : Env) (m : Manager) (username walletId pr : String) (sync : Bool)
    (amount : Int) : Option (PayOutcome × Manager) :=
  match getAndValidateWallet m username walletId with
  | .error err => some (⟨none, some err⟩, m)
  | .ok wallet =>
    match env.decodePayReq pr with
    | .error _ => some (⟨none, some (Err.New "invalid payment request format")⟩, m)
    | .ok payreq =>
      if payreq.numMsat ≠ 0 ∧ amount ≠ payreq.numMsat then
        some (⟨none, some (Err.New
          "provided amount does not satisfy payment request amount")⟩, m)
      else payInvoice env m wallet pr payreq amount sync

/-- The checks of `PayWithdrawInvoice` that come before its goroutine: the
error returned, or the wallet and the decoded request the goroutine works on. -/
def payWithdrawChecks (env : Env) (m : Manager) (k1 pr : String) :
    Except Err (Wallet × PayReq) :=
  match GetWithdraw m.db k1 env.now with
  | .error err => .error err
  | .ok withdrawal =>
    match getAndValidateWallet m withdrawal.username withdrawal.walletID with
    | .error err => .error err
    | .ok wallet =>
      let gate : Option Err :=
        if withdrawal.maxUse ≠ 0 then
          if withdrawal.uses ≥ withdrawal.maxUse then
            some (Err.New "exceeded maximum number of allowed withdrawals")
          else
            let pWithdrawals :=
              ListPendingWithdraws m.db withdrawal.username withdrawal.walletID k1
            if (withdrawal.uses + pWithdrawals.length) % u64 ≥ withdrawal.maxUse then
              some (Err.New "processing other withdrawals. Retry.")
            else none
        else none
      match gate with
      | some err => .error err
      | none =>
        match env.decodePayReq pr with
        | .error _ => .error (Err.New "invalid payment request format")
        | .ok payreq =>
          if payreq.numMsat = 0 then
            .error (Err.New "amount must be specified when paying a zero amount invoice")
          else if toInt64 withdrawal.minMsat > payreq.numMsat then
            .error (Err.New "amount is below the minimum withdrawable value")
          else if withdrawal.maxMsat ≠ 0 ∧ payreq.numMsat > toInt64 withdrawal.maxMsat then
            .error (Err.New "amount exceeds the maximum withdrawable value")
          else .ok (wallet, payreq)

/-- The goroutine of `PayWithdrawInvoice`, run to its end: the payment is
made synchronously and, `payInvoice` returning no error, the use counter of
the template is incremented.  `none` is the halt of `log.Fatal`. -/
def payWithdrawJob (env : Env) (m : Manager) (wallet : Wallet) (pr : String) (payreq : PayReq)
    (k1 : String) : Option Manager :=
  match payInvoice env m wallet pr payreq payreq.numMsat true with
  | none => none
  | some (⟨_, some _⟩, m) => some m
  | some (⟨_, none⟩, m) =>
    match IncrementWithdrawCount m.db k1 with
    | .ok db => some { m with db := db }
    | .error _ => some m

/-- `PayWithdrawInvoice`, its goroutine run to its end: the error returned to
the caller, if any, and the manager left. -/
def PayWithdrawInvoice (env : Env) (m : Manager) (k1 pr : String) :
    Option (Option Err × Manager) :=
  match payWithdrawChecks env m k1 pr with
  | .error err => some (some err, m)
  | .ok (wallet, payreq) =>
    match payWithdrawJob env m wallet pr payreq k1 with
    | none => none
    | some m => some (none, m)

/-- The storage failures that can strike the two writes of `CreateInvoice`. -/
structure CreateInvoiceFaults where
  createPendingInvoice : Option Err := none
  createInvoice : Option Err := none

/-- What `CreateInvoice` hands back. -/
structure CreateInvoiceOutcome where
  invoice : Option Invoice
  err : Option Err
  deriving DecidableEq, Repr

/-- `CreateInvoice` of the invoice manager. -/
def Invoices.CreateInvoice (f : CreateInvoiceFaults) (env : Env) (m : Manager)
    (username walletId memo : String) (value expiry : Int) : CreateInvoiceOutcome × Manager :=
  if value > m.maxPayment then
    (⟨none, some (Err.New "invoice is greater than the maximum payment size")⟩, m)
  else
    match getAndValidateWallet m username walletId with
    | .error err => (⟨none, some err⟩, m)
    | .ok wallet =>
      match env.addInvoice memo value expiry with
      | .error err => (⟨none, some err⟩, m)
      | .ok (paymentRequest, paymentHash) =>
        match env.decodePayReq paymentRequest with
        | .error err => (⟨none, some err⟩, m)
        | .ok decodePayRes =>
          let pendingInv : PendingInvoice :=
            { walletID := walletId, walletUsername := username,
              paymentHash := paymentHash, amount := toUint64 value }
          match orFault f.createPendingInvoice (CreatePendingInvoice m.db pendingInv) with
          | .error err => (⟨none, some err⟩, m)
          | .ok db =>
            let m := { m with
              db := db,
              pendingInvoiceCache :=
                (m.pendingInvoiceCache.filter fun c => !(c.paymentHash == paymentHash))
                  ++ [pendingInv] }
            let xlnInvoice : Invoice :=
              { amount := toUint64 value, memo := memo, paymentHash := paymentHash,
                paymentRequest := paymentRequest, pubkey := decodePayRes.destination,
                recipientID := some wallet.id, recipientUsername := some wallet.username,
                settled := 0 }
            match orFault f.createInvoice (Xln.CreateInvoice m.db xlnInvoice) with
            | .error err => (⟨none, some err⟩, m)
            | .ok db => (⟨some xlnInvoice, none⟩, { m with db := db })

/-- `ValidateUserCredentials`; `md` is `none` when the context carries no metadata. -/
def ValidateUserCredentials (s : Service) (md : Option Metadata) : AuthOutcome :=
  match md with
  | none => ⟨"", some Err.ErrParsingContext, s⟩
  | some md =>
    match getStringHeader md.username with
    | .error err => ⟨"", some err, s⟩
    | .ok username =>
      match getApiKey md with
      | .error err => ⟨username, some err, s⟩
      | .ok (apiKey, keyType) =>
        match keyType with
        | HeaderApiKey.Admin =>
          if s.xlnApiKey ≠ apiKey then ⟨username, some Err.ErrUnauthenticated, s⟩
          else
            match userExists s username with
            | (true, none) => ⟨username, none, s⟩
            | (_, err) => ⟨username, err, s⟩
        | HeaderApiKey.User =>
          match userKeyMatchesUser s username apiKey with
          | (true, s) => ⟨username, none, s⟩
          | (false, s) => ⟨username, some Err.ErrUnauthenticated, s⟩
        | _ => ⟨username, some Err.ErrInvalidHeaderFormat, s⟩

/-! ## Concrete states of the second part -/

/-- A payment request that carries no amount. -/
def payReqAmountless : PayReq := { numMsat := 0, paymentHash := "ext1", destination := "node" }

/-- As `envPlain`, with a decoder that reads every payment request as
`payReqAmountless` and a payment network that reports every payment as
succeeded for 5000 without fee. -/
def envAmountless : Env :=
  { envPlain with
    decodePayReq := fun _ => .ok payReqAmountless,
    trackPaymentV2 := fun h =>
      some { paymentHash := h, valueMsat := 5000, feeMsat := 0,
             status := PaymentStatus.SUCCEEDED } }

/-- Alice holds 1000000; the payment ceiling is 1000. -/
def managerCeiling : Manager :=
  { db := { wallets := [{ id := "alice", username := "alice", balance := 1000000 }] },
    maxPayment := 1000 }

/-- Alice holds 1000000; the payment ceiling is 10000000. -/
def managerFunded : Manager :=
  { db := { wallets := [{ id := "alice", username := "alice", balance := 1000000 }] },
    maxPayment := 10000000 }

/-- As `envPlain`, with a payment network that mints the invoice `lnbc1` of
payment hash `hash1` and decodes it as a request for 5000. -/
def envInvoice : Env :=
  { envPlain with
    addInvoice := fun _ _ _ => .ok ("lnbc1", "hash1"),
    decodePayReq := fun _ => .ok { numMsat := 5000, paymentHash := "hex1", destination := "node" } }

/-- Alice's default wallet at 0, nothing else in the store. -/
def managerAliceEmpty : Manager :=
  { db := { wallets := [{ id := "alice", username := "alice", balance := 0 }] },
    maxPayment := 1000000 }

/-- The pending invoice that `CreateInvoice` writes for Alice's invoice `hash1`. -/
def pendingHash1 : PendingInvoice :=
  { paymentHash := "hash1", walletID := "alice", walletUsername := "alice", amount := 5000 }

/-- The decoded request of a withdrawal of 100. -/
def payReqHundred : PayReq := { numMsat := 100, paymentHash := "ext1", destination := "node" }

/-- As `envPlain`, with a decoder that reads every payment request as one for 100. -/
def envWithdraw : Env :=
  { envPlain with decodePayReq := fun _ => .ok payReqHundred }

/-- As `envWithdraw`, with a payment network that reports every payment as
failed for want of a route. -/
def envFailing : Env :=
  { envWithdraw with
    trackPaymentV2 := fun h =>
      some { paymentHash := h, valueMsat := 100, feeMsat := 0, status := PaymentStatus.FAILED,
             failureReason := "FAILURE_REASON_NO_ROUTE" } }

/-- Alice holds 1000 and has issued the withdraw template `k1`, good for one
use and not used yet. -/
def managerWithdraw : Manager :=
  { db :=
      { wallets := [{ id := "alice", username := "alice", balance := 1000 }],
        withdraws := [{ k1 := "k1", walletID := "alice", username := "alice", maxUse := 1 }] },
    maxPayment := 1000000 }

/-- The manager of `managerWithdraw` once the goroutine of a first
`PayWithdrawInvoice(k1, pr)` has dispatched its payment and waits for the
terminal status. -/
def managerWithdrawInFlight : Manager :=
  (payInvoiceTx envWithdraw managerWithdraw walletAlice "pr" payReqHundred 100).1

/-- Alice's default wallet is locked at 1000; her wallet `savings` holds 500. -/
def storeLocked : Store :=
  { wallets := [{ id := "alice", username := "alice", balance := 1000, locked := true },
                { id := "savings", username := "alice", balance := 500 }] }

/-- As `managerAliceInvoice`, after Alice's wallet has been locked. -/
def managerLockedInvoice : Manager :=
  { managerAliceInvoice with
    db := { managerAliceInvoice.db with
      wallets := [{ id := "alice", username := "alice", balance := 0, locked := true }] } }

/-- As `managerPayment`, after Alice's wallet has been locked. -/
def managerLockedPayment : Manager :=
  { managerPayment with
    db := { managerPayment.db with
      wallets := [{ id := "alice", username := "alice", balance := 1000, locked := true }] } }

/-- As `managerSelfPay`, after Bob's wallet has been locked. -/
def managerLockedRecipient : Manager :=
  { managerSelfPay with
    db := { managerSelfPay.db with
      wallets := [{ id := "alice", username := "alice", balance := 1000 },
                  { id := "bob", username := "bob", balance := 0, locked := true }] } }

/-- A request carrying an admin key for `username`. -/
def adminKeyRequest (username key : String) : Metadata :=
  { username := some username, adminApiKey := some key }

/-- A request carrying a user key for `username`. -/
def userKeyRequest (username key : String) : Metadata :=
  { username := some username, userApiKey := some key }

/-- A user row of `username` that is not soft-deleted is in the users table. -/
def Store.hasUser (s : Store) (username : String) : Prop :=
  ∃ u ∈ s.users, u.username = username ∧ u.deleted = false

instance (s : Store) (username : String) : Decidable (s.hasUser username) :=
  inferInstanceAs (Decidable (∃ u ∈ s.users, _ ∧ _))

/-- The key of the stored user `username`, if there is such a user. -/
def storedUserKey (s : Store) (username : String) : Option String :=
  match GetUser s username with
  | .ok u => some u.apiKey
  | .error _ => none

/-- Every entry of the user-key cache holds the key of the stored user. -/
def Service.userKeysCoherent (s : Service) : Prop :=
  ∀ e ∈ s.userKeys, storedUserKey s.db e.1 = some e.2

instance (s : Service) : Decidable s.userKeysCoherent :=
  inferInstanceAs (Decidable (∀ e ∈ s.userKeys, _))

/-- As `serviceTwoMain`, once Alice has authenticated with her user key. -/
def serviceWarm : Service :=
  { serviceTwoMain with userKeys := [("alice", "alice-user-key")] }

/-- Alice's locked wallet row of `storeLocked`. -/
def walletLockedAlice : Wallet :=
  { id := "alice", username := "alice", balance := 1000, locked := true }

/-- A manager over `storeLocked`. -/
def managerLocked : Manager := { db := storeLocked, maxPayment := 1000000 }

/-! ## Third part of the model: creation and deletion of users and wallets
(`models/user.go`, `models/wallet.go`, `models/hooks.go`, `models/invoice.go`,
`models/transaction.go`, `resources/user/manager.go`,
`resources/wallet/manager.go`)

The store enforces primary keys and unique columns; it takes no foreign-key
action of its own (the store "without cascading deletes" of the source,
`isPostgres = false`). -/

def MsgUserExistsFailed : String := "failed to determine if user exists"
def MsgCreateUserFailed : String := "failed to create user"
def MsgCreateWalletFailed : String := "failed to create wallet"

/-- What a creation hook draws: the result of `createUUID()` and of `util.GenKey()`. -/
structure Fresh where
  uuid : String
  key : String
  deriving DecidableEq, Repr

/-- The `BeforeCreate` hook of `User`. -/
def User.BeforeCreate (fresh : Fresh) (user : User) : User :=
  let user := if user.username == "" then { user with username := fresh.uuid } else user
  { user with apiKey := fresh.key }

/-- `CreateUser` of the repository: the hook, then the insert; a row under the
same primary key `username` or the same unique `api_key` makes the insert fail
with the store's unique-constraint message. -/
def CreateUser (s : Store) (fresh : Fresh) (user : User) : Except Err (User × Store) :=
  let user := user.BeforeCreate fresh
  if s.users.any (fun u => u.username == user.username || u.apiKey == user.apiKey) then
    .error (Err.New "failed to create user. Reason: user with that username already exists")
  else .ok (user, { s with users := s.users ++ [user] })

/-- The `BeforeCreate` hook of `Wallet`. -/
def Wallet.BeforeCreate (fresh : Fresh) (wallet : Wallet) : Wallet :=
  let id := if wallet.id == "" then fresh.uuid else wallet.id
  let name := match wallet.name with
    | none => some id
    | some n => some n
  { wallet with id := id, name := name, apiKey := fresh.key }

/-- `CreateWallet` of the repository: the hook, then the insert; a row under
the same primary key `(id, username)` or the same unique `api_key` makes the
insert fail with the store's unique-constraint message. -/
def CreateWallet (s : Store) (fresh : Fresh) (wallet : Wallet) : Except Err (Wallet × Store) :=
  let wallet := wallet.BeforeCreate fresh
  if s.wallets.any (fun w =>
      (w.id == wallet.id && w.username == wallet.username) || w.apiKey == wallet.apiKey) then
    .error (Err.New "failed to create wallet. Reason: wallet with that id already exists")
  else .ok (wallet, { s with wallets := s.wallets ++ [wallet] })

/-- `CreateUser` of the user manager: what it returns (the user and the
wallets it carries, or the error) and the store it leaves. -/
def Users.CreateUser (s : Store) (freshUser freshWallet : Fresh) (username : String) :
    Except Err (User × List Wallet) × Store :=
  let user : User := { username := if username ≠ "" then username else "" }
  dbTransaction none s fun tx =>
    match Xln.CreateUser tx freshUser user with
    | .error err => .error err
    | .ok (user, tx) =>
      let wallet : Wallet := { id := username, name := some username, username := username }
      match Xln.CreateWallet tx freshWallet wallet with
      | .error err => .error err
      | .ok (wallet, tx) => .ok ((user, [wallet]), tx)

/-- `CreateWallet` of the wallet manager. -/
def Wallets.CreateWallet (s : Store) (fresh : Fresh) (username id name : String) :
    Except Err Wallet × Store :=
  let wallet : Wallet :=
    { id := id, username := username, name := if name ≠ "" then some name else none }
  dbTransaction none s fun tx => Xln.CreateWallet tx fresh wallet

/-- `DeleteUser` of the repository: the soft delete of the rows of `username`
that are not deleted yet; no row affected is `ErrUserNotFound`. -/
def DeleteUser (s : Store) (username : String) : Except Err Store :=
  let sel := fun u : User => u.username == username && !u.deleted
  if s.users.any sel then
    .ok { s with users := s.users.map fun u => if (sel u) then { u with deleted := true } else u }
  else .error Err.ErrUserNotFound

/-- `DeleteUserWallets`: `DELETE FROM wallets WHERE username = ?`; no row
affected is `ErrUserNotFound`. -/
def DeleteUserWallets (s : Store) (username : String) : Except Err Store :=
  if s.wallets.any (fun w => w.username == username) then
    .ok { s with wallets := s.wallets.filter fun w => !(w.username == username) }
  else .error Err.ErrUserNotFound

/-- `UserExists`: the error of `GetUser` is compared with `gorm.ErrRecordNotFound`. -/
def UserExists (s : Store) (username : String) : Bool × Option Err :=
  match GetUser s username with
  | .error err =>
    if err = Err.ErrRecordNotFound then (false, some err)
    else (false, some (Err.Reason MsgUserExistsFailed Err.ErrInternal))
  | .ok _ => (true, none)

/-- The rows that a `Nullify...` call selects: those of `username`, and of the
wallet `id` unless `id` is empty. -/
def refersTo (username id : String) (refUsername refID : Option String) : Bool :=
  if id == "" then refUsername == some username
  else refUsername == some username && refID == some id

/-- `NullifyInvoiceRecipient`. -/
def NullifyInvoiceRecipient (s : Store) (username id : String) : Except Err Store :=
  .ok { s with invoices := s.invoices.map fun i =>
    if refersTo username id i.recipientUsername i.recipientID then
      { i with recipientID := none, recipientUsername := none }
    else i }

/-- `NullifyInvoiceSender`. -/
def NullifyInvoiceSender (s : Store) (username id : String) : Except Err Store :=
  .ok { s with invoices := s.invoices.map fun i =>
    if refersTo username id i.senderUsername i.senderID then
      { i with senderID := none, senderUsername := none }
    else i }

/-- `NullifyTransactionRecipient`. -/
def NullifyTransactionRecipient (s : Store) (username id : String) : Except Err Store :=
  .ok { s with transactions := s.transactions.map fun t =>
    if refersTo username id t.toUsername t.toID then
      { t with toID := none, toUsername := none }
    else t }

/-- `NullifyTransactionSender`. -/
def NullifyTransactionSender (s : Store) (username id : String) : Except Err Store :=
  .ok { s with transactions := s.transactions.map fun t =>
    if refersTo username id t.fromUsername t.fromID then
      { t with fromID := none, fromUsername := none }
    else t }

/-- `DeleteUser` of the user manager with `isPostgres = false`: the error it
returns, if any, and the store it leaves. -/
def Users.DeleteUser (s : Store) (username : String) : Option Err × Store :=
  match UserExists s username with
  | (_, some err) => (some (Err.Reason "could not delete user" err), s)
  | (false, none) => (some Err.ErrUserNotFound, s)
  | (true, none) =>
    let res := dbTransaction none s fun tx =>
      match Xln.DeleteUser tx username with
      | .error err => .error (Err.Reason "error when deleting user from database" err)
      | .ok tx =>
        match DeleteUserWallets tx username with
        | .error err =>
          .error (Err.Reason "error when deleting user's wallets from database" err)
        | .ok tx => do
          let tx ← NullifyInvoiceRecipient tx username ""
          let tx ← NullifyInvoiceSender tx username ""
          let tx ← NullifyTransactionRecipient tx username ""
          let tx ← NullifyInvoiceSender tx username ""
          pure ((), tx)
    match res with
    | (.error err, s) => (some err, s)
    | (.ok _, s) => (none, s)

/-- `DeleteWalletZeroBalance`. -/
def DeleteWalletZeroBalance (s : Store) (username walletId : String) : Except Err Store :=
  let sel := fun w : Wallet => isWallet username walletId w && w.balance == 0
  if s.wallets.any sel then .ok { s with wallets := s.wallets.filter fun w => !(sel w) }
  else
    match GetWallet s username walletId with
    | .error err => .error err
    | .ok _ => .error Err.ErrNonZeroBalance

/-- `DeleteWallet` of the repository: no row affected is `ErrWalletNotFound`. -/
def DeleteWallet (s : Store) (username walletId : String) : Except Err Store :=
  if s.wallets.any (isWallet username walletId) then
    .ok { s with wallets := s.wallets.filter fun w => !(isWallet username walletId w) }
  else .error Err.ErrWalletNotFound

/-- `DeleteWallet` of the wallet manager with `isPostgres = false`. -/
def Wallets.DeleteWallet (s : Store) (username walletId : String) : Option Err × Store :=
  let res := dbTransaction none s fun tx => do
    let _ ← isUpdatable tx username walletId
    let tx ← DeleteWalletZeroBalance tx username walletId
    let tx ← NullifyInvoiceRecipient tx username walletId
    let tx ← NullifyInvoiceSender tx username walletId
    pure ((), tx)
  match res with
  | (.error err, s) => (some err, s)
  | (.ok _, s) => (none, s)

/-- `AdminDeleteWallet` of the wallet manager (it does not read `isPostgres`). -/
def Wallets.AdminDeleteWallet (s : Store) (username walletId : String) : Option Err × Store :=
  let res := dbTransaction none s fun tx => do
    let _ ← isUpdatable tx username walletId
    let tx ← Xln.DeleteWallet tx username walletId
    pure ((), tx)
  match res with
  | (.error err, s) => (some err, s)
  | (.ok _, s) => (none, s)

/-! ## LNURL-auth records (`models/auth.go`, `models/hooks.go`) -/

/-- A Go `*string` that is not nil: the address it holds and the string at
that address. -/
structure StringPtr where
  addr : Nat
  val : String
  deriving DecidableEq, Repr

/-- Go's `==` on two `*string`: both nil, or the same address. -/
def ptrEq (a b : Option StringPtr) : Bool :=
  match a, b with
  | none, none => true
  | some p, some q => p.addr == q.addr
  | _, _ => false

/-- The fields of `Auth` that the creation hook reads, and its key. -/
structure Auth where
  k1 : String
  userUsername : Option StringPtr := none
  walletUsername : Option StringPtr := none
  walletID : Option StringPtr := none
  deriving DecidableEq, Repr

/-- The `BeforeCreate` hook of `Auth`: the error that refuses the creation, if any. -/
def Auth.BeforeCreate (auth : Auth) : Option Err :=
  if ptrEq auth.userUsername auth.walletID && ptrEq auth.walletUsername auth.userUsername then
    some (Err.New "invalid auth struct")
  else none

/-- The record references a user. -/
def Auth.refersToUser (auth : Auth) : Bool := auth.userUsername.isSome

/-- The record references a wallet. -/
def Auth.refersToWallet (auth : Auth) : Bool := auth.walletUsername.isSome && auth.walletID.isSome

/-! ## Name validation (`util/validation.go`) -/

/-- The regular expressions of the source, read as patterns anchored at both
ends (`^...$`): character classes, sequence, alternation and repetition. -/
inductive Regex where
  | never
  | empty
  | cls (p : Char → Bool)
  | seq (a b : Regex)
  | alt (a b : Regex)
  | star (a : Regex)

/-- The pattern matches the empty string. -/
def Regex.nullable : Regex → Bool
  | .never => false
  | .empty => true
  | .cls _ => false
  | .seq a b => a.nullable && b.nullable
  | .alt a b => a.nullable || b.nullable
  | .star _ => true

/-- The pattern of what may follow the character `c`. -/
def Regex.deriv (c : Char) : Regex → Regex
  | .never => .never
  | .empty => .never
  | .cls p => if p c then .empty else .never
  | .seq a b =>
    if a.nullable then .alt (.seq (a.deriv c) b) (b.deriv c) else .seq (a.deriv c) b
  | .alt a b => .alt (a.deriv c) (b.deriv c)
  | .star a => .seq (a.deriv c) (.star a)

/-- `MatchString` of an anchored pattern: the whole string matches. -/
def Regex.MatchString (r : Regex) (s : String) : Bool :=
  (s.toList.foldl (fun r c => r.deriv c) r).nullable

/-- The repetition `a+`. -/
def Regex.plus (a : Regex) : Regex := .seq a (.star a)

/-- The class `[a-zA-Z\d]`. -/
def alnumClass (c : Char) : Bool :=
  (decide ('a' ≤ c) && decide (c ≤ 'z')) || (decide ('A' ≤ c) && decide (c ≤ 'Z')) ||
    (decide ('0' ≤ c) && decide (c ≤ '9'))

/-- The pattern `.`: any character but the newline. -/
def dotClass (c : Char) : Bool := c != '\n'

/-- The pattern `-`. -/
def hyphenClass (c : Char) : Bool := c == '-'

/-- The pattern `usernameRegex`, `^[a-zA-Z\d]+((.|-)[a-zA-Z\d]+)*$`. -/
def usernameRegex : Regex :=
  .seq (Regex.plus (.cls alnumClass))
    (.star (.seq (.alt (.cls dotClass) (.cls hyphenClass)) (Regex.plus (.cls alnumClass))))

/-- `ValidateUsername`: the error, if any.  `len(name)` is the length in bytes. -/
def ValidateUsername (name : String) : Option Err :=
  if name = "" then some (Err.New "username cannot be blank")
  else if name.utf8ByteSize > 64 then
    some (Err.New "username must be at most 64 characters")
  else if usernameRegex.MatchString name then none
  else
    some (Err.New ("username must be alphanumeric. " ++
      "If it contains hyphens or periods it must be surrounded by alphanumeric characters"))

/-! ## Responses of the server (`xlnserver.go`) -/

/-- The `xlnrpc.Invoice` of a response (the timestamp left out). -/
structure RpcInvoice where
  paymentHash : String
  paymentRequest : String
  pubkey : String
  memo : String
  amount : Nat
  recipientId : String := ""
  recipientUsername : String := ""
  senderId : String := ""
  senderUsername : String := ""
  deriving DecidableEq, Repr

/-- The `xlnrpc.GetWalletTransactionResponse` (the timestamps left out). -/
structure GetWalletTransactionResponse where
  id : String
  amount : Nat
  feesPaid : Nat
  From : String := ""
  To : String := ""
  label : String := ""
  invoice : Option RpcInvoice := none
  deriving DecidableEq, Repr

/-- A `models.Transaction` as the server reads it back: the row, its id and
label, and the preloaded invoice. -/
structure FullTransaction where
  id : String
  row : Transaction
  label : Option String := none
  invoice : Option Invoice := none
  deriving DecidableEq, Repr

/-- `convertFullTransaction`.  `none` is the panic of a nil pointer dereference. -/
def convertFullTransaction (tx : FullTransaction) : Option GetWalletTransactionResponse :=
  let res : GetWalletTransactionResponse :=
    { id := tx.id, amount := tx.row.amount, feesPaid := tx.row.feesPaid }
  let res := match tx.row.fromID with
    | some v => { res with From := v }
    | none => res
  let res := match tx.row.toID with
    | some v => { res with To := v }
    | none => res
  let res := match tx.label with
    | some v => { res with label := v }
    | none => res
  match tx.invoice with
  | none => some res
  | some invoice =>
    let inv : RpcInvoice :=
      { paymentHash := invoice.paymentHash, paymentRequest := invoice.paymentRequest,
        pubkey := invoice.pubkey, memo := invoice.memo, amount := invoice.amount }
    let inv := match invoice.recipientID with
      | some v => { inv with recipientId := v }
      | none => inv
    let inv := match invoice.recipientUsername with
      | some v => { inv with recipientUsername := v }
      | none => inv
    let inv := match invoice.senderID with
      | some v => { inv with senderId := v }
      | none => inv
    match invoice.senderUsername with
    | none => some { res with invoice := some inv }
    | some _ =>
      match invoice.recipientUsername with
      | none => none
      | some v => some { res with invoice := some { inv with senderUsername := v } }

/-! ## Transaction listings (`models/transaction.go`)

`uint` is the 64-bit unsigned integer, `int` the 64-bit signed one. -/

/-- A row of the transactions table with the creation time the store gave it. -/
structure TransactionRecord where
  createdAt : Nat
  row : Transaction
  deriving DecidableEq, Repr

/-- The constant `math.MaxUint32`. -/
def maxUint32 : Nat := 2 ^ 32 - 1

/-- `from_id = ? AND from_username = ? OR to_id = ? AND to_username = ?`. -/
def ofWallet (username walletId : String) (r : TransactionRecord) : Bool :=
  (r.row.fromID == some walletId && r.row.fromUsername == some username) ||
    (r.row.toID == some walletId && r.row.toUsername == some username)

/-- `from_username = ? OR to_username = ?`. -/
def ofUser (username : String) (r : TransactionRecord) : Bool :=
  r.row.fromUsername == some username || r.row.toUsername == some username

/-- The rows that satisfy `created_at >= ? AND created_at < ?` and the owner
condition `sel`. -/
def matchingRecords (sel : TransactionRecord → Bool) (table : List TransactionRecord)
    (startTime endTime : Nat) : List TransactionRecord :=
  table.filter fun r => decide (startTime ≤ r.createdAt) && decide (r.createdAt < endTime) && sel r

/-- `Order("created_at" + order)`. -/
def orderByCreatedAt (descending : Bool) (rows : List TransactionRecord) :
    List TransactionRecord :=
  if descending then rows.insertionSort (fun a b => b.createdAt ≤ a.createdAt)
  else rows.insertionSort (fun a b => a.createdAt ≤ b.createdAt)

/-- `Offset(dbOffset)` and `Limit(dbLimit)`: a value that is not positive sets
no clause. -/
def offsetLimit (rows : List TransactionRecord) (dbOffset dbLimit : Int) :
    List TransactionRecord :=
  let rows := if dbOffset > 0 then rows.drop dbOffset.toNat else rows
  if dbLimit > 0 then rows.take dbLimit.toNat else rows

/-- What a listing returns beside the error. -/
structure Listing where
  txns : List TransactionRecord
  nextOffset : Int
  total : Nat
  deriving DecidableEq, Repr

/-- The body that `ListWalletTransactions` and `ListUserTransactions` share,
`sel` being the owner condition of the query. -/
def listTransactions (sel : TransactionRecord → Bool) (table : List TransactionRecord)
    (startTime endTime : Nat) (offset limit : Nat) (descending : Bool) : Except Err Listing :=
  let dbLimit : Int := if limit = 0 then -1 else toInt64 limit
  let txns := offsetLimit (orderByCreatedAt descending
    (matchingRecords sel table startTime endTime)) (toInt64 offset) dbLimit
  if (offset + limit) % u64 ≥ maxUint32 then .error Err.ErrMaxNumResultsExceeded
  else
    let total := (matchingRecords sel table startTime endTime).length
    if limit = 0 then .ok ⟨txns, 0, total⟩
    else if (offset + limit) % u64 > total ∨ txns.length = total then .ok ⟨txns, -1, total⟩
    else .ok ⟨txns, toInt64 ((offset + limit) % u64), total⟩

/-- `ListWalletTransactions`. -/
def ListWalletTransactions (table : List TransactionRecord) (username walletId : String)
    (startTime endTime : Nat) (offset limit : Nat) (descending : Bool) : Except Err Listing :=
  listTransactions (ofWallet username walletId) table startTime endTime offset limit descending

/-- `ListUserTransactions`. -/
def ListUserTransactions (table : List TransactionRecord) (username : String)
    (startTime endTime : Nat) (offset limit : Nat) (descending : Bool) : Except Err Listing :=
  listTransactions (ofUser username) table startTime endTime offset limit descending

/-! ## Concrete states of the third part -/

/-- What the hooks draw for the first user and for the first wallet. -/
def freshUser1 : Fresh := { uuid := "uuid-1", key := "key-1" }

def freshWallet1 : Fresh := { uuid := "uuid-2", key := "key-2" }

/-- Alice with her default wallet and her wallet `w2`, both at 0.  The ledger
holds a receipt to `w2`, a payment from `w2`, a transfer from her default
wallet to `w2`; the invoices are the one she was paid on `w2` and the one she
paid from `w2`. -/
def storeHistory : Store :=
  { users := [{ username := "alice", apiKey := "alice-user-key" }],
    wallets := [{ id := "alice", username := "alice", apiKey := "k1" },
                { id := "w2", username := "alice", apiKey := "k2" }],
    transactions :=
      [{ fromID := none, fromUsername := none, toID := some "w2", toUsername := some "alice",
         amount := 100, feesPaid := 0, invoiceID := some "in1" },
       { fromID := some "w2", fromUsername := some "alice", toID := none, toUsername := none,
         amount := 60, feesPaid := 0, invoiceID := some "out1" },
       { fromID := some "alice", fromUsername := some "alice",
         toID := some "w2", toUsername := some "alice", amount := 40, feesPaid := 0 }],
    invoices :=
      [{ paymentHash := "in1", amount := 100, settled := 1700000000,
         recipientID := some "w2", recipientUsername := some "alice" },
       { paymentHash := "out1", amount := 60, settled := 1700000100,
         senderID := some "w2", senderUsername := some "alice" }] }

/-- An LNURL-auth record that names the user `alice` and the wallet
`(alice, w)`, each through a pointer of its own. -/
def authBoth : Auth :=
  { k1 := "k1",
    userUsername := some { addr := 1, val := "alice" },
    walletUsername := some { addr := 2, val := "alice" },
    walletID := some { addr := 3, val := "w" } }

/-- The payment of 60 from `(alice, w2)` as the server reads it back, with
the sender-side invoice that `payInvoice` wrote. -/
def fullPayment : FullTransaction :=
  { id := "tx-1",
    row := { fromID := some "w2", fromUsername := some "alice", toID := none, toUsername := none,
             amount := 60, feesPaid := 0, invoiceID := some "out1" },
    invoice := some { paymentHash := "out1", paymentRequest := "lnbc60", amount := 60,
                      settled := 1700000100,
                      senderID := some "w2", senderUsername := some "alice" } }

/-- The self-payment of 100 by `(alice, alice)` of an invoice of `(bob, bob)`
as the server reads it back. -/
def fullSelfPayment : FullTransaction :=
  { id := "tx-2",
    row := { fromID := some "alice", fromUsername := some "alice",
             toID := some "bob", toUsername := some "bob",
             amount := 100, feesPaid := 0, invoiceID := some "inv1" },
    invoice := some { paymentHash := "inv1", amount := 100, settled := 1700000000,
                      recipientID := some "bob", recipientUsername := some "bob",
                      senderID := some "alice", senderUsername := some "alice" } }

/-- The guard that opens `UpdateWalletOptions` of the wallet manager: the
options carry a non-empty name and the wallet is the main wallet of its user. -/
def renamesMainWallet (username walletId : String) (walletOptions : WalletOptions) : Bool :=
  match walletOptions.name with
  | some name => decide (name ≠ "") && decide (walletId = username)
  | none => false

/-- The store without the wallet rows of `(username, walletId)`. -/
def withoutWallet (s : Store) (username walletId : String) : Store :=
  { s with wallets := s.wallets.filter fun w => !(isWallet username walletId w) }

/-- A ledger of `n` transfers of Alice from her main wallet to `w2`, created
at the times `n, ..., 1`. -/
def ledgerOf : Nat → List TransactionRecord
  | 0 => []
  | n + 1 =>
    { createdAt := n + 1,
      row := { fromID := some "alice", fromUsername := some "alice",
               toID := some "w2", toUsername := some "alice", amount := 1, feesPaid := 0 } }
      :: ledgerOf n

/-- The listing `l` is the page of `rows` (the matching rows in their order)
at `offset` with the non-zero `limit`: at most `limit` rows from `offset` on,
the total, a next offset of `offset + limit` when rows remain after the page,
and of `-1` when `offset + limit` exceeds the total or the page is all rows. -/
def Listing.isPageOf (l : Listing) (rows : List TransactionRecord) (offset limit : Nat) : Prop :=
  l.txns = (rows.drop offset).take limit ∧ l.txns.length ≤ limit ∧ l.total = rows.length ∧
    (offset + limit < rows.length → l.nextOffset = ((offset + limit : Nat) : Int)) ∧
    (rows.length < offset + limit → l.nextOffset = -1) ∧
    (offset = 0 → limit = rows.length → l.nextOffset = -1)

/-! ## Ledger histories

The operations that move balances and reservations, as steps on the manager,
and the states they reach from the empty ledger. -/

/-- An operation on the ledger.  `createInvoice` issues the invoices that
`finalizeInvoice` settles and that a self-payment pays; it changes no
balance and no pending payment. -/
inductive LedgerOp where
  | createUser (freshUser freshWallet : Fresh) (username : String)
  | createWallet (fresh : Fresh) (username id name : String)
  | createInvoice (username walletId memo : String) (value expiry : Int)
  | transfer (username walletId toWalletId : String) (amount : Nat)
  | payInvoice (username walletId pr : String)
  | payInvoiceAmount (username walletId pr : String) (amount : Int)
  | finalizePayment (paymentHash : String) (success : Bool) (feesPaid : Int)
  | finalizeInvoice (invoice : LnInvoice)
  deriving DecidableEq, Repr

/-- The manager an operation leaves, whether it returned an error or not;
`none` is the halt of `log.Fatal`.  Payments are made asynchronously: the
dispatch (or the self-payment) is one step, the finalization another. -/
def LedgerOp.apply (env : Env) (m : Manager) : LedgerOp → Option Manager
  | .createUser freshUser freshWallet username =>
    some { m with db := (Users.CreateUser m.db freshUser freshWallet username).2 }
  | .createWallet fresh username id name =>
    some { m with db := (Wallets.CreateWallet m.db fresh username id name).2 }
  | .createInvoice username walletId memo value expiry =>
    some (Invoices.CreateInvoice {} env m username walletId memo value expiry).2
  | .transfer username walletId toWalletId amount =>
    some { m with db := (Transfer {} m.db username walletId toWalletId amount).db }
  | .payInvoice username walletId pr =>
    (PayInvoice env m username walletId pr false).map (·.2)
  | .payInvoiceAmount username walletId pr amount =>
    (PayInvoiceAmount env m username walletId pr false amount).map (·.2)
  | .finalizePayment paymentHash success feesPaid =>
    Xln.finalizePayment env m paymentHash success feesPaid
  | .finalizeInvoice invoice => Xln.finalizeInvoice m invoice

/-- The manager that a history of operations leaves. -/
def runLedger (env : Env) (ops : List LedgerOp) (m : Manager) : Option Manager :=
  ops.foldl (fun acc op => acc.bind fun m => op.apply env m) (some m)

/-- The reservation invariant: every wallet holds at least the sum of the
amounts of its own pending payments. -/
def Store.reservationHolds (s : Store) : Prop :=
  ∀ w ∈ s.wallets, (pendingTotal s w.username w.id : Int) ≤ w.balance

instance (s : Store) : Decidable s.reservationHolds :=
  inferInstanceAs (Decidable (∀ w ∈ s.wallets, _))

/-- The empty ledger, with the payment ceiling at the top of `int64`. -/
def managerEmpty : Manager := { db := {}, maxPayment := 2 ^ 63 - 1 }

/-- As `envPlain`, with a payment network that mints for the memo `memo` the
invoice `lnbc-memo` of payment hash `hash-memo`, and decodes the payment
request `pay-alice` as one for `6 * 10 ^ 18` and every other as one for
`7 * 10 ^ 18`, its own text being its payment hash. -/
def envLedger : Env :=
  { envPlain with
    addInvoice := fun memo _ _ => .ok ("lnbc-" ++ memo, "hash-" ++ memo),
    decodePayReq := fun pr =>
      .ok { numMsat := if pr == "pay-alice" then 6 * 10 ^ 18 else 7 * 10 ^ 18,
            paymentHash := pr, destination := "node" } }

/-- Alice, Bob and Carol each open a wallet with the id `x`, are paid
`7 * 10 ^ 18` on an invoice of that wallet, and dispatch a payment from it:
Bob and Carol of `7 * 10 ^ 18`, Alice of `6 * 10 ^ 18`. -/
def historyFunded : List LedgerOp :=
  [.createUser ⟨"u1", "k1"⟩ ⟨"u2", "k2"⟩ "alice",
   .createUser ⟨"u3", "k3"⟩ ⟨"u4", "k4"⟩ "bob",
   .createUser ⟨"u5", "k5"⟩ ⟨"u6", "k6"⟩ "carol",
   .createWallet ⟨"u7", "k7"⟩ "alice" "x" "",
   .createWallet ⟨"u8", "k8"⟩ "bob" "x" "",
   .createWallet ⟨"u9", "k9"⟩ "carol" "x" "",
   .createInvoice "alice" "x" "alice" (7 * 10 ^ 18) 3600,
   .createInvoice "bob" "x" "bob" (7 * 10 ^ 18) 3600,
   .createInvoice "carol" "x" "carol" (7 * 10 ^ 18) 3600,
   .finalizeInvoice
     { rHash := "hash-alice", state := InvoiceState.SETTLED, amtPaidMsat := 7 * 10 ^ 18 },
   .finalizeInvoice
     { rHash := "hash-bob", state := InvoiceState.SETTLED, amtPaidMsat := 7 * 10 ^ 18 },
   .finalizeInvoice
     { rHash := "hash-carol", state := InvoiceState.SETTLED, amtPaidMsat := 7 * 10 ^ 18 },
   .payInvoice "bob" "x" "pay-bob",
   .payInvoice "carol" "x" "pay-carol",
   .payInvoice "alice" "x" "pay-alice"]

/-- The history `historyFunded`, then a transfer of `5 * 10 ^ 18` by Alice
from her wallet `x` to her main wallet. -/
def historyOverdrawn : List LedgerOp :=
  historyFunded ++ [.transfer "alice" "x" "alice" (5 * 10 ^ 18)]

/-- The user row that `CreateUser` writes for a non-empty `username`. -/
def createdUser (freshUser : Fresh) (username : String) : User :=
  { username := username, apiKey := freshUser.key }

/-- The default wallet that `CreateUser` writes for a non-empty `username`. -/
def defaultWallet (freshWallet : Fresh) (username : String) : Wallet :=
  { id := username, username := username, name := some username, apiKey := freshWallet.key }

/-- The users table holds a row with the username or with the key of `user`. -/
def Store.userClash (s : Store) (user : User) : Bool :=
  s.users.any fun u => u.username == user.username || u.apiKey == user.apiKey

/-- The wallets table holds a row with the primary key or with the key of `wallet`. -/
def Store.walletClash (s : Store) (wallet : Wallet) : Bool :=
  s.wallets.any fun w =>
    (w.id == wallet.id && w.username == wallet.username) || w.apiKey == wallet.apiKey

/-- The key that `userKeyMatchesUser` compares a presented key with: the entry
of the user-key cache for the username if there is one, otherwise the key of
the stored user. -/
def Service.userKeyOnRecord (s : Service) (username : String) : Option String :=
  match s.userKeys.get username with
  | some apiKey => some apiKey
  | none => storedUserKey s.db username

/-- The service of `serviceWarm` after `DeleteUser` of Alice: her key is still
in the user-key cache. -/
def serviceStale : Service :=
  { serviceWarm with db := (Users.DeleteUser serviceWarm.db "alice").2 }

/-- The wallet row with the `Locked` flag that `locks` gives to its key. -/
def Wallet.relock (locks : String → String → Bool) (w : Wallet) : Wallet :=
  { w with locked := locks w.username w.id }

/-- The store with the `Locked` flags of its wallets set as `locks` says. -/
def Store.withLocks (locks : String → String → Bool) (s : Store) : Store :=
  { s with wallets := s.wallets.map (Wallet.relock locks) }

/-- The manager over the store with the `Locked` flags set as `locks` says. -/
def Manager.withLocks (locks : String → String → Bool) (m : Manager) : Manager :=
  { m with db := m.db.withLocks locks }

/-- The first half of `finalizeInvoice`: the pending invoice of the payment
hash, taken from the cache (its entry is then dropped) or else from the store. -/
def lookupPendingInvoice (m : Manager) (paymentHash : String) :
    Option (PendingInvoice × Manager) :=
  match m.pendingInvoiceCache.find? (fun pi => pi.paymentHash == paymentHash) with
  | some pi =>
    some (pi, { m with pendingInvoiceCache :=
      m.pendingInvoiceCache.filter fun c => !(c.paymentHash == pi.paymentHash) })
  | none =>
    match GetPendingInvoice m.db paymentHash with
    | .ok pi => some (pi, m)
    | .error _ => none

/-- The second half of `finalizeInvoice`: the store transaction on the pending
invoice found. -/
def settlePendingInvoice (m : Manager) (pendingInvoice : PendingInvoice) (invoice : LnInvoice) :
    Option Manager :=
  let paymentHash := invoice.rHash
  let res := dbTransaction none m.db fun tx =>
    let tx := { tx with pendingInvoices :=
      tx.pendingInvoices.filter fun pi => !(pi.paymentHash == pendingInvoice.paymentHash) }
    if invoice.state ≠ InvoiceState.SETTLED then .ok ((), tx)
    else
      match GetWallet m.db pendingInvoice.walletUsername pendingInvoice.walletID with
      | .error err => .error err
      | .ok wal =>
        let wal := { wal with
          balance := ((toUint64 wal.balance + toUint64 invoice.amtPaidMsat) % u64 : Nat) }
        let save := fun w : Wallet => if isWallet wal.username wal.id w then wal else w
        let tx := { tx with wallets := tx.wallets.map save }
        let walTx : Transaction :=
          { fromID := none, fromUsername := none,
            toID := some wal.id, toUsername := some wal.username,
            amount := toUint64 invoice.amtPaidMsat, feesPaid := 0,
            invoiceID := some paymentHash }
        match CreateTransaction tx walTx with
        | .error err => .error err
        | .ok tx => .ok ((), tx)
  match res with
  | (.error _, _) => none
  | (.ok _, db) => some { m with db := db }

/-- The first half of `finalizePayment`: the pending payment of the payment
hash, taken from the cache (its entry is then dropped) or else from the store. -/
def lookupPendingPayment (m : Manager) (paymentHash : String) :
    Option (PendingPayment × Manager) :=
  match m.pendingPaymentCache.find? (fun pp => pp.paymentHash == paymentHash) with
  | some pp =>
    some (pp, { m with pendingPaymentCache :=
      m.pendingPaymentCache.filter fun c => !(c.paymentHash == paymentHash) })
  | none =>
    match GetPendingPayment m.db paymentHash with
    | .ok pp => some (pp, m)
    | .error _ => none

/-- The function that the second half of `finalizePayment` passes to
`db.Transaction`. -/
def settlePendingPaymentTx (env : Env) (pendingPayment : PendingPayment) (paymentHash : String)
    (success : Bool) (feesPaid : Int) (tx : Store) : Except Err (Unit × Store) := do
  let tx ← DeletePendingPayment tx pendingPayment
  if !success then pure ((), tx)
  else
    let tx ← DecrementWalletBalance tx pendingPayment.walletUsername
      pendingPayment.walletID (subU64 pendingPayment.amount (toUint64 feesPaid))
    let paymentTime := env.now
    let walTx : Transaction :=
      { fromID := some pendingPayment.walletID,
        fromUsername := some pendingPayment.walletUsername,
        toID := none, toUsername := none,
        amount := pendingPayment.amount, feesPaid := toUint64 feesPaid,
        invoiceID := some paymentHash }
    let tx ← CreateTransaction tx walTx
    let tx ← UpdateInvoiceSettleTime tx paymentHash paymentTime
    pure ((), tx)

/-- The second half of `finalizePayment`: the store transaction on the pending
payment found. -/
def settlePendingPayment (env : Env) (m : Manager) (pendingPayment : PendingPayment)
    (paymentHash : String) (success : Bool) (feesPaid : Int) : Option Manager :=
  match dbTransaction none m.db
      (settlePendingPaymentTx env pendingPayment paymentHash success feesPaid) with
  | (.error _, _) => none
  | (.ok _, db) => some { m with db := db }

/-! # Properties -/

/-! ## Wallet rows and keys -/

theorem isWallet_iff (u i : String) (w : Wallet) :
    isWallet u i w = true ↔ w.username = u ∧ w.id = i := by
  simp [isWallet]

theorem isWallet_key (u i : String) (w : Wallet) :
    isWallet u i w = true ↔ w.key = (u, i) := by
  simp [isWallet, Wallet.key]

theorem wallet_eq_of_key {l : List Wallet} (h : (l.map Wallet.key).Nodup) {x y : Wallet}
    (hx : x ∈ l) (hy : y ∈ l) (hxy : x.key = y.key) : x = y :=
  List.inj_on_of_nodup_map h hx hy hxy

theorem countP_isWallet_le_one {l : List Wallet} (h : (l.map Wallet.key).Nodup) (u i : String) :
    l.countP (isWallet u i) ≤ 1 := by
  induction l with
  | nil => simp
  | cons x xs ih =>
    simp only [List.map_cons, List.nodup_cons] at h
    by_cases hx : isWallet u i x = true
    · have hnone : xs.countP (isWallet u i) = 0 := by
        rw [List.countP_eq_zero]
        intro y hy hyw
        apply h.1
        rw [List.mem_map]
        exact ⟨y, hy, by rw [(isWallet_key u i y).1 hyw, (isWallet_key u i x).1 hx]⟩
      simp [List.countP_cons, hx, hnone]
    · simp only [List.countP_cons, hx]
      simpa using ih h.2

theorem find?_isWallet_some {l : List Wallet} {u i : String} {w : Wallet}
    (h : l.find? (isWallet u i) = some w) : w ∈ l ∧ isWallet u i w = true :=
  ⟨List.mem_of_find?_eq_some h, List.find?_some h⟩

/-! ## C1 -/

set_option maxRecDepth 100000 in
/-- C1, evaluated on the ledger that `historyFunded` reaches from the empty
ledger, where every stored value is below `2 ^ 63`.  Alice's wallet `x`
holds `7 * 10 ^ 18` against her own pending payment of `6 * 10 ^ 18`; the
wallets `x` of Bob and of Carol have `7 * 10 ^ 18` pending each.  For a
decrement of `5 * 10 ^ 18` from Alice's wallet the loop of
`DecrementWalletBalance` adds the three pending amounts to
`20 * 10 ^ 18`, which wraps to `1553255926290448384`, so that `minBalance` is
`6553255926290448384`, below the balance: the call succeeds and leaves
`2 * 10 ^ 18`, although `7 * 10 ^ 18 < 5 * 10 ^ 18 + 6 * 10 ^ 18`.  The claim
asks for the insufficient-balance error and an unchanged balance. -/
theorem C1_decrement_guard_wraps :
    (runLedger envLedger historyFunded managerEmpty).map
        (fun m => (GetWallet m.db "alice" "x").toOption.map (·.balance)) =
      some (some (7 * 10 ^ 18)) ∧
    (runLedger envLedger historyFunded managerEmpty).map
        (fun m => pendingTotal m.db "alice" "x") = some (6 * 10 ^ 18) ∧
    (runLedger envLedger historyFunded managerEmpty).map
        (fun m => sumPendingAmounts (m.db.pendingPayments.filter fun pp => pp.walletID == "x")) =
      some 1553255926290448384 ∧
    (runLedger envLedger historyFunded managerEmpty).map
        (fun m => minBalance m.db "x" (5 * 10 ^ 18)) = some 6553255926290448384 ∧
    (runLedger envLedger historyFunded managerEmpty).map
        (fun m => (DecrementWalletBalance m.db "alice" "x" (5 * 10 ^ 18)).toOption.map
          (fun s => (GetWallet s "alice" "x").toOption.map (·.balance))) =
      some (some (some (2 * 10 ^ 18))) ∧
    ¬ ((5 * 10 ^ 18 : Int) + 6 * 10 ^ 18 ≤ 7 * 10 ^ 18) := by
  refine ⟨by decide, by decide, by decide, by decide, by decide, by decide⟩

/-! ## C2 -/

/-- C2, evaluated where the subtraction of `GetConfirmedBalance` wraps: for
an unlocked wallet with balance 0 and a pending payment of 5 the confirmed
balance returned is `2 ^ 64 - 5`, which is not `0 - 5` and exceeds the balance. -/
theorem C2_confirmed_balance_wraps :
    GetConfirmedBalance storeOverdrawn "alice" "w" = .ok (2 ^ 64 - 5) ∧
      GetWallet storeOverdrawn "alice" "w" =
        .ok { id := "w", username := "alice", balance := 0 } ∧
      ((0 : Int) < (2 ^ 64 - 5 : Nat)) := by
  refine ⟨by decide, by decide, by decide⟩

/-! ## C3 -/

/-- A store transaction that ends in an error leaves the store it started from. -/
theorem dbTransaction_error {α : Type} (commit : Option Err) (s : Store)
    (fc : Store → Except Err (α × Store)) (e : Err) (db : Store)
    (h : dbTransaction commit s fc = (.error e, db)) : db = s := by
  unfold dbTransaction at h
  split at h
  · simp only [Prod.mk.injEq] at h
    exact h.2.symm
  · split at h
    · simp only [Prod.mk.injEq] at h
      exact h.2.symm
    · simp at h

/-- C3: whenever `Transfer` returns an error, whichever repository call or
commit failed and whatever had been written before, the store is the one the
call started from (no balance changed, no Transaction row) and no transaction
is returned. -/
theorem C3_transfer_all_or_nothing (f : TransferFaults) (s : Store)
    (username walletId toWalletId : String) (amount : Nat)
    (herr : (Transfer f s username walletId toWalletId amount).err ≠ none) :
    (Transfer f s username walletId toWalletId amount).db = s ∧
      (Transfer f s username walletId toWalletId amount).transaction = none := by
  unfold Transfer at herr ⊢
  split
  · exact ⟨rfl, rfl⟩
  · split
    · exact ⟨rfl, rfl⟩
    · split
      · exact ⟨rfl, rfl⟩
      · split
        · exact ⟨rfl, rfl⟩
        · split
          · next err db hdb =>
            have hs := dbTransaction_error _ _ _ _ _ hdb
            split <;> exact ⟨hs, rfl⟩
          · next transaction db hdb heq =>
            simp_all

/-- Witness for C3: the increment of the destination fails after the source
was decremented; both balances and the transaction table are as before. -/
theorem C3_transfer_all_or_nothing_witness :
    (Transfer { increment := some Err.ErrInternal }
        { wallets := [{ id := "a", username := "u", balance := 50 },
                      { id := "b", username := "u", balance := 0 }] }
        "u" "a" "b" 10).err ≠ none ∧
      ((Transfer { increment := some Err.ErrInternal }
        { wallets := [{ id := "a", username := "u", balance := 50 },
                      { id := "b", username := "u", balance := 0 }] }
        "u" "a" "b" 10).db =
          { wallets := [{ id := "a", username := "u", balance := 50 },
                        { id := "b", username := "u", balance := 0 }] } ∧
       (Transfer { increment := some Err.ErrInternal }
        { wallets := [{ id := "a", username := "u", balance := 50 },
                      { id := "b", username := "u", balance := 0 }] }
        "u" "a" "b" 10).transaction = none) :=
  ⟨by decide, C3_transfer_all_or_nothing _ _ _ _ _ _ (by decide)⟩

/-! ## Repository calls that succeed -/

theorem orFault_ok {α : Type} {fault : Option Err} {r : Except Err α} {a : α}
    (h : orFault fault r = .ok a) : fault = none ∧ r = .ok a := by
  cases fault <;> simp_all [orFault]

theorem dbTransaction_ok {α : Type} {commit : Option Err} {s : Store}
    {fc : Store → Except Err (α × Store)} {a : α} {db : Store}
    (h : dbTransaction commit s fc = (.ok a, db)) : fc s = .ok (a, db) ∧ commit = none := by
  unfold dbTransaction at h
  split at h
  · simp at h
  · next a' s' hfc =>
    split at h
    · simp at h
    · simp only [Prod.mk.injEq, Except.ok.injEq] at h
      rw [hfc, h.1, h.2]
      exact ⟨rfl, rfl⟩

theorem transferTx_ok {f : TransferFaults} {u a b : String} {amount : Nat} {s db : Store}
    {t : Transaction} (h : transferTx f u a b amount s = .ok (t, db)) :
    ∃ wf wt s1 s2, LockWalletRecordForUpdate s u a = .ok wf ∧
      LockWalletRecordForUpdate s u b = .ok wt ∧
      DecrementWalletBalance s u a amount = .ok s1 ∧
      IncrementWalletBalance s1 u b amount = .ok s2 ∧
      t = transferTransaction u a b amount ∧
      db = { s2 with transactions := s2.transactions ++ [t] } := by
  unfold transferTx at h
  simp only [bind, Except.bind, isUpdatable, pure, Except.pure] at h
  split at h
  · simp at h
  · next wf h1 =>
    split at h
    · simp at h
    · next wt h2 =>
      split at h
      · simp at h
      · next s1 h3 =>
        split at h
        · simp at h
        · next s2 h4 =>
          split at h
          · simp at h
          · next s3 h5 =>
            have h5' := (orFault_ok h5).2
            simp only [CreateTransaction, Except.ok.injEq] at h5'
            simp only [Except.ok.injEq, Prod.mk.injEq] at h
            refine ⟨wf, wt, s1, s2, (orFault_ok h1).2, (orFault_ok h2).2, (orFault_ok h3).2,
              (orFault_ok h4).2, ?_, ?_⟩
            · rw [← h.1]; rfl
            · rw [← h.2, ← h5', ← h.1]
theorem LockWalletRecordForUpdate_ok {s : Store} {u i : String} {w : Wallet}
    (h : LockWalletRecordForUpdate s u i = .ok w) :
    s.wallets.find? (isWallet u i) = some w ∧ w.locked = false := by
  unfold LockWalletRecordForUpdate at h
  split at h
  · simp at h
  · next w' hw =>
    split at h
    · simp at h
    · next hl =>
      simp only [Except.ok.injEq] at h
      subst h
      exact ⟨hw, by simpa using hl⟩

theorem IncrementWalletBalance_ok {s s' : Store} {u i : String} {d : Nat}
    (h : IncrementWalletBalance s u i d = .ok s') :
    (∃ w ∈ s.wallets, isWallet u i w = true) ∧
      s' = { s with wallets := s.wallets.map (creditRow u i d) } := by
  unfold IncrementWalletBalance at h
  split at h
  · next hany =>
    simp only [Except.ok.injEq] at h
    exact ⟨by simpa using hany, h.symm⟩
  · simp at h

theorem DecrementWalletBalance_ok {s s' : Store} {u i : String} {d : Nat}
    (h : DecrementWalletBalance s u i d = .ok s') :
    (∃ w ∈ s.wallets, isWallet u i w = true ∧ (minBalance s i d : Int) ≤ w.balance) ∧
      s' = { s with wallets := s.wallets.map (debitRow u i (minBalance s i d) d) } := by
  unfold DecrementWalletBalance at h
  simp only at h
  split at h
  · next hany =>
    simp only [Except.ok.injEq] at h
    refine ⟨?_, h.symm⟩
    simpa [minBalance] using hany
  · simp at h

theorem DecrementWalletBalance_error {s : Store} {u i : String} {d : Nat} {e : Err}
    (h : DecrementWalletBalance s u i d = .error e) :
    e = Err.Reason MsgDecrementWalletFailed Err.ErrInsufficientBalance := by
  unfold DecrementWalletBalance at h
  simp only at h
  split at h
  · simp at h
  · simpa using h.symm

/-! ## What `Transfer` does to the wallet rows -/

theorem isWallet_debit (u i : String) (w : Wallet) (d : Int) :
    isWallet u i (w.debit d) = isWallet u i w := rfl

theorem isWallet_credit (u i : String) (w : Wallet) (d : Int) :
    isWallet u i (w.credit d) = isWallet u i w := rfl

theorem isWallet_disjoint {u a b : String} (hab : a ≠ b) {w : Wallet}
    (ha : isWallet u a w = true) : isWallet u b w = false := by
  rw [isWallet_iff] at ha
  cases hb : isWallet u b w
  · rfl
  · rw [isWallet_iff] at hb
    exact absurd (ha.2.symm.trans hb.2) hab

/-- Under the primary key, every row of the wallet found by `find?` is that wallet. -/
theorem eq_of_isWallet {s : Store} (hpk : s.walletKeysUnique) {u i : String} {w x : Wallet}
    (hw : s.wallets.find? (isWallet u i) = some w) (hx : x ∈ s.wallets)
    (hxi : isWallet u i x = true) : x = w := by
  have hf := find?_isWallet_some hw
  exact wallet_eq_of_key hpk hx hf.1
    (((isWallet_key u i x).1 hxi).trans ((isWallet_key u i w).1 hf.2).symm)

theorem map_transferRow {s : Store} (hpk : s.walletKeysUnique) {u a b : String} (hab : a ≠ b)
    {amount : Nat} {wf : Wallet} (hwf : s.wallets.find? (isWallet u a) = some wf)
    (hmin : (minBalance s a amount : Int) ≤ wf.balance) :
    (s.wallets.map (debitRow u a (minBalance s a amount) amount)).map (creditRow u b amount) =
      s.wallets.map (transferRow u a b amount) := by
  rw [List.map_map]
  apply List.map_congr_left
  intro w hw
  simp only [Function.comp, debitRow, creditRow, transferRow]
  by_cases ha : isWallet u a w = true
  · have hwe := eq_of_isWallet hpk hwf hw ha
    subst hwe
    simp [ha, hmin, isWallet_debit, isWallet_disjoint hab ha]
  · simp [ha]

theorem sum_balance_transferRow (l : List Wallet) {u a b : String} (hab : a ≠ b) (amount : Nat) :
    ((l.map (transferRow u a b amount)).map (·.balance)).sum =
      (l.map (·.balance)).sum - amount * (l.countP (isWallet u a) : Int)
        + amount * (l.countP (isWallet u b) : Int) := by
  induction l with
  | nil => simp
  | cons x xs ih =>
    simp only [List.map_cons, List.sum_cons, ih, List.countP_cons]
    by_cases ha : isWallet u a x = true
    · have hb := isWallet_disjoint hab ha
      simp only [transferRow, ha, hb, Wallet.debit]
      push_cast
      simp
      ring
    · by_cases hb : isWallet u b x = true
      · simp only [transferRow, ha, hb, Wallet.credit]
        push_cast
        simp
        ring
      · simp only [transferRow, ha, hb]
        push_cast
        simp
        ring

theorem countP_isWallet_eq_one {l : List Wallet} (h : (l.map Wallet.key).Nodup) {u i : String}
    {w : Wallet} (hw : l.find? (isWallet u i) = some w) : l.countP (isWallet u i) = 1 := by
  have h1 := countP_isWallet_le_one h u i
  have hf := find?_isWallet_some hw
  have h2 : 0 < l.countP (isWallet u i) := List.countP_pos_iff.2 ⟨w, hf.1, hf.2⟩
  omega

/-! ## C4 -/

theorem GetWallet_of_find {s : Store} {u i : String} {w : Wallet}
    (h : s.wallets.find? (isWallet u i) = some w) : GetWallet s u i = .ok w := by
  simp [GetWallet, h]

/-- A row update that keeps the primary key moves with `find?`. -/
theorem find?_isWallet_map (l : List Wallet) (g : Wallet → Wallet)
    (hg : ∀ w, (g w).key = w.key) (u i : String) :
    (l.map g).find? (isWallet u i) = (l.find? (isWallet u i)).map g := by
  rw [List.find?_map]
  congr 1
  apply congrArg (fun p => List.find? p l)
  funext w
  have := hg w
  simp only [Wallet.key, Prod.mk.injEq] at this
  simp [Function.comp, isWallet, this.1, this.2]

theorem transferRow_key (u a b : String) (amount : Nat) (w : Wallet) :
    (transferRow u a b amount w).key = w.key := by
  unfold transferRow
  split
  · rfl
  · split <;> rfl

theorem Transfer_ok {f : TransferFaults} {s : Store} {u a b : String} {amount : Nat}
    (hok : (Transfer f s u a b amount).err = none) :
    ∃ t db, Transfer f s u a b amount = ⟨some t, none, db⟩ ∧ amount ≠ 0 ∧ a ≠ b ∧
      dbTransaction f.commit s (transferTx f u a b amount) = (.ok t, db) := by
  unfold Transfer at hok ⊢
  split at hok
  · simp at hok
  · next hamt =>
    split at hok
    · simp at hok
    · next hne =>
      rw [if_neg hamt, if_neg hne]
      split at hok
      · simp at hok
      · next same ws hwfu =>
        split at hok
        · simp at hok
        · next hsame =>
          rw [if_neg hsame]
          split at hok
          · split at hok <;> simp at hok
          · next t db hdb =>
            exact ⟨t, db, rfl, by simpa using hamt, by simpa using hne, hdb⟩

/-- C4: whenever `Transfer` succeeds (on a wallets table that respects its
primary key), the amount is positive, the two wallet ids differ, both wallets
exist under the user and are unlocked, the source row has lost exactly
`amount`, the destination row has gained exactly `amount`, every other row
is as before, the sum of all balances is the same, and exactly one
Transaction, from the source to the destination, of that amount and with no
fee, has been appended and is the one returned. -/
theorem C4_transfer_success (f : TransferFaults) (s : Store)
    (username walletId toWalletId : String) (amount : Nat)
    (hpk : s.walletKeysUnique)
    (hok : (Transfer f s username walletId toWalletId amount).err = none) :
    0 < amount ∧ walletId ≠ toWalletId ∧
    (∃ wf wt, GetWallet s username walletId = .ok wf ∧
      GetWallet s username toWalletId = .ok wt ∧
      wf.locked = false ∧ wt.locked = false ∧
      GetWallet (Transfer f s username walletId toWalletId amount).db username walletId =
        .ok (wf.debit amount) ∧
      GetWallet (Transfer f s username walletId toWalletId amount).db username toWalletId =
        .ok (wt.credit amount)) ∧
    (Transfer f s username walletId toWalletId amount).db =
      { s with
        wallets := s.wallets.map (transferRow username walletId toWalletId amount),
        transactions :=
          s.transactions ++ [transferTransaction username walletId toWalletId amount] } ∧
    (Transfer f s username walletId toWalletId amount).db.totalBalance = s.totalBalance ∧
    (Transfer f s username walletId toWalletId amount).transaction =
      some (transferTransaction username walletId toWalletId amount) := by
  obtain ⟨t, db, hT, hamt, hab, hdb⟩ := Transfer_ok hok
  rw [hT]
  simp only
  have hpos : 0 < amount := by omega
  obtain ⟨wf, wt, s1, s2, hl1, hl2, hd, hi, ht, hdbeq⟩ :=
    transferTx_ok (dbTransaction_ok hdb).1
  have hf1 := LockWalletRecordForUpdate_ok hl1
  have hf2 := LockWalletRecordForUpdate_ok hl2
  obtain ⟨⟨x, hx, hxa, hxmin⟩, hs1⟩ := DecrementWalletBalance_ok hd
  have hxe := eq_of_isWallet hpk hf1.1 hx hxa
  subst hxe
  have hs2 := (IncrementWalletBalance_ok hi).2
  have hdb' : db = { s with
      wallets := s.wallets.map (transferRow username walletId toWalletId amount),
      transactions :=
        s.transactions ++ [transferTransaction username walletId toWalletId amount] } := by
    rw [hdbeq, hs2, hs1, ht]
    simp only [Store.mk.injEq, and_true, true_and]
    exact map_transferRow hpk hab hf1.1 hxmin
  have hwal : db.wallets =
      s.wallets.map (transferRow username walletId toWalletId amount) := by
    rw [hdb']
  refine ⟨hpos, hab, ⟨x, wt, GetWallet_of_find hf1.1, GetWallet_of_find hf2.1,
    hf1.2, hf2.2, ?_, ?_⟩, hdb', ?_, by rw [ht]⟩
  · apply GetWallet_of_find
    rw [hwal, find?_isWallet_map _ _ (transferRow_key _ _ _ _), hf1.1]
    simp [transferRow, (find?_isWallet_some hf1.1).2]
  · apply GetWallet_of_find
    rw [hwal, find?_isWallet_map _ _ (transferRow_key _ _ _ _), hf2.1]
    have hb := (find?_isWallet_some hf2.1).2
    have hna : isWallet username walletId wt = false :=
      isWallet_disjoint (Ne.symm hab) hb
    simp [transferRow, hb, hna]
  · unfold Store.totalBalance
    rw [hwal, sum_balance_transferRow _ hab,
      countP_isWallet_eq_one hpk hf1.1, countP_isWallet_eq_one hpk hf2.1]
    simp

/-- Witness for C4: a transfer of 10 from `a` (50) to `b` (0). -/
theorem C4_transfer_success_witness :
    storeTwoWallets.walletKeysUnique ∧
    (Transfer {} storeTwoWallets "u" "a" "b" 10).err = none ∧
    (Transfer {} storeTwoWallets "u" "a" "b" 10).db =
      { storeTwoWallets with
        wallets := storeTwoWallets.wallets.map (transferRow "u" "a" "b" 10),
        transactions := storeTwoWallets.transactions ++ [transferTransaction "u" "a" "b" 10] } ∧
    (Transfer {} storeTwoWallets "u" "a" "b" 10).db.totalBalance = storeTwoWallets.totalBalance :=
  ⟨by decide, by decide,
    (C4_transfer_success {} storeTwoWallets "u" "a" "b" 10 (by decide) (by decide)).2.2.2.1,
    (C4_transfer_success {} storeTwoWallets "u" "a" "b" 10 (by decide) (by decide)).2.2.2.2.1⟩

/-! ## Arithmetic of the pending totals -/

theorem u64_eq : u64 = 18446744073709551616 := by decide

theorem toUint64_of_range {x : Int} (h0 : 0 ≤ x) (h1 : x < u64) : toUint64 x = x.toNat := by
  unfold toUint64
  rw [Int.emod_eq_of_lt h0 h1]

theorem toUint64_lt (x : Int) : toUint64 x < u64 := by
  unfold toUint64
  have h : (0 : Int) < (u64 : Int) := by rw [u64_eq]; decide
  have h2 := Int.emod_lt_of_pos x h
  have h3 := Int.emod_nonneg x (Int.ne_of_gt h)
  omega

theorem subU64_exact {c x : Nat} (hx : x ≤ c) (hc : c < u64) : subU64 c x = c - x := by
  unfold subU64
  rw [u64_eq] at *
  omega

theorem foldl_subU64_exact (l : List PendingPayment) (c : Nat) (hc : c < u64)
    (hl : (l.map (·.amount)).sum ≤ c) :
    l.foldl (fun confirmedBalance pp => subU64 confirmedBalance pp.amount) c =
      c - (l.map (·.amount)).sum := by
  induction l generalizing c with
  | nil => simp
  | cons p ps ih =>
    simp only [List.map_cons, List.sum_cons] at hl
    simp only [List.foldl_cons, List.map_cons, List.sum_cons]
    rw [subU64_exact (by omega) hc, ih _ (by omega) (by omega)]
    omega

theorem foldl_sumPending (l : List PendingPayment) (a : Nat) :
    l.foldl (fun total pp => (total + pp.amount) % u64) (a % u64) =
      (a + (l.map (·.amount)).sum) % u64 := by
  induction l generalizing a with
  | nil => simp
  | cons p ps ih =>
    simp only [List.foldl_cons, List.map_cons, List.sum_cons]
    have h : (a % u64 + p.amount) % u64 = (a + p.amount) % u64 := by
      rw [u64_eq]; omega
    rw [h, ih, Nat.add_assoc]

theorem sumPendingAmounts_eq (l : List PendingPayment) :
    sumPendingAmounts l = (l.map (·.amount)).sum % u64 := by
  have h := foldl_sumPending l 0
  simpa [sumPendingAmounts] using h

theorem filter_walletID_eq {s : Store} {u i : String} (h : s.noForeignPending u i) :
    (s.pendingPayments.filter fun pp => pp.walletID == i) = ListWalletPendingPayments s u i := by
  unfold ListWalletPendingPayments
  apply List.filter_congr
  intro pp hpp
  by_cases hi : pp.walletID = i
  · simp [hi, h pp hpp hi]
  · simp [hi]

theorem minBalance_exact {s : Store} {u i : String} {d : Nat} (h : s.noForeignPending u i)
    (hlt : d + pendingTotal s u i < u64) : minBalance s i d = d + pendingTotal s u i := by
  unfold minBalance
  rw [filter_walletID_eq h, sumPendingAmounts_eq]
  unfold pendingTotal at hlt ⊢
  rw [u64_eq] at *
  omega

theorem GetConfirmedBalance_exact {s : Store} {u i : String} {w : Wallet}
    (hw : LockWalletRecordForUpdate s u i = .ok w) (h0 : 0 ≤ w.balance) (h1 : w.balance < u64)
    (hp : (pendingTotal s u i : Int) ≤ w.balance) :
    GetConfirmedBalance s u i = .ok (w.balance.toNat - pendingTotal s u i) := by
  have hu : w.username = u :=
    ((isWallet_iff u i w).1 (find?_isWallet_some (LockWalletRecordForUpdate_ok hw).1).2).1
  unfold GetConfirmedBalance
  rw [hw]
  simp only [hu]
  rw [toUint64_of_range h0 h1, foldl_subU64_exact]
  · rfl
  · omega
  · unfold pendingTotal at hp
    omega

/-! ## Pending records found -/

theorem GetPendingInvoice_ok {s : Store} {h : String} {pi : PendingInvoice}
    (hp : GetPendingInvoice s h = .ok pi) : pi ∈ s.pendingInvoices ∧ pi.paymentHash = h := by
  unfold GetPendingInvoice at hp
  split at hp
  · next p hfind =>
    simp only [Except.ok.injEq] at hp
    subst hp
    exact ⟨List.mem_of_find?_eq_some hfind, by simpa using List.find?_some hfind⟩
  · simp at hp

/-! ## C5: self-payment -/

theorem DecrementWalletBalance_exact {s : Store} (hpk : s.walletKeysUnique) {u i : String}
    {d : Nat} {w : Wallet} (hw : s.wallets.find? (isWallet u i) = some w)
    (hmin : (minBalance s i d : Int) ≤ w.balance) :
    DecrementWalletBalance s u i d =
      .ok { s with wallets := s.wallets.map (debitPayerRow u i d) } := by
  have hf := find?_isWallet_some hw
  have hany : (s.wallets.any fun x =>
      isWallet u i x && decide ((minBalance s i d : Int) ≤ x.balance)) = true := by
    rw [List.any_eq_true]
    exact ⟨w, hf.1, by simp [hf.2, hmin]⟩
  have hmap : s.wallets.map (debitRow u i (minBalance s i d) d) =
      s.wallets.map (debitPayerRow u i d) := by
    apply List.map_congr_left
    intro x hx
    unfold debitRow debitPayerRow
    by_cases hxi : isWallet u i x = true
    · have hxe := eq_of_isWallet hpk hw hx hxi
      subst hxe
      simp [hxi, hmin]
    · simp [hxi]
  have h : DecrementWalletBalance s u i d =
      .ok { s with wallets := s.wallets.map (debitRow u i (minBalance s i d) d) } := by
    unfold DecrementWalletBalance
    simp only
    rw [if_pos (by simpa [minBalance] using hany)]
    rfl
  rw [h, hmap]

theorem IncrementWalletBalance_exact {s : Store} {u i : String} {d : Nat}
    (h : ∃ w ∈ s.wallets, isWallet u i w = true) :
    IncrementWalletBalance s u i d =
      .ok { s with wallets := s.wallets.map (creditRow u i d) } := by
  unfold IncrementWalletBalance
  rw [if_pos (by simpa using h)]
  rfl

theorem creditRow_key (u i : String) (d : Nat) (w : Wallet) : (creditRow u i d w).key = w.key := by
  unfold creditRow
  split <;> rfl

theorem keys_map_creditRow (l : List Wallet) (u i : String) (d : Nat) :
    (l.map (creditRow u i d)).map Wallet.key = l.map Wallet.key := by
  rw [List.map_map]
  apply List.map_congr_left
  intro w _
  exact creditRow_key u i d w

theorem creditRow_balance_ge (u i : String) (d : Nat) (w : Wallet) :
    w.balance ≤ (creditRow u i d w).balance := by
  unfold creditRow Wallet.credit
  split
  · simp
  · exact le_refl _
theorem DeletePendingInvoice_exact {s : Store} {payHash : String}
    (h : ∃ pi ∈ s.pendingInvoices, pi.paymentHash = payHash) :
    DeletePendingInvoice s payHash =
      .ok { s with pendingInvoices :=
        s.pendingInvoices.filter fun pi => !(pi.paymentHash == payHash) } := by
  unfold DeletePendingInvoice
  rw [if_pos (by simpa using h)]

theorem handleSelfPayments_ok (env : Env) (m : Manager) {su si ru ri payHash : String}
    {amount : Int} {wp : Wallet}
    (hpk : m.db.walletKeysUnique)
    (hpayer : LockWalletRecordForUpdate m.db su si = .ok wp)
    (h1 : wp.balance < u64) (hamt : 0 ≤ amount)
    (hsuff : amount + pendingTotal m.db su si ≤ wp.balance)
    (hclash : m.db.noForeignPending su si)
    (hpi : ∃ pi ∈ m.db.pendingInvoices, pi.paymentHash = payHash)
    (hrecip : ∃ w ∈ m.db.wallets, isWallet ru ri w = true) :
    handleSelfPayments env m su si ru ri payHash amount =
      (none, { m with
        db := selfPaymentStore m.db su si ru ri payHash amount env.now,
        pendingInvoiceCache :=
          m.pendingInvoiceCache.filter fun c => !(c.paymentHash == payHash) }) := by
  have h0 : 0 ≤ wp.balance := by omega
  have hau : amount < u64 := by omega
  have hta : toUint64 amount = amount.toNat := toUint64_of_range hamt hau
  have hc := GetConfirmedBalance_exact hpayer h0 h1 (by omega)
  have hfind := (LockWalletRecordForUpdate_ok hpayer).1
  have hpk4 : ((m.db.wallets.map (creditRow ru ri (toUint64 amount))).map Wallet.key).Nodup := by
    rw [keys_map_creditRow]
    exact hpk
  have hfind4 : (m.db.wallets.map (creditRow ru ri (toUint64 amount))).find? (isWallet su si) =
      some (creditRow ru ri (toUint64 amount) wp) := by
    rw [find?_isWallet_map _ _ (creditRow_key _ _ _), hfind]
    rfl
  have hmin : (minBalance m.db si (toUint64 amount) : Int) ≤
      (creditRow ru ri (toUint64 amount) wp).balance := by
    rw [minBalance_exact hclash (by rw [hta]; omega), hta]
    have := creditRow_balance_ge ru ri amount.toNat wp
    omega
  have hnot : ¬ (wp.balance.toNat - pendingTotal m.db su si < toUint64 amount) := by
    rw [hta]; omega
  unfold handleSelfPayments dbTransaction
  simp only [bind, Except.bind, hc, pure, Except.pure, SetInvoiceSenderAmount, CreateTransaction]
  rw [if_neg hnot, DeletePendingInvoice_exact]
  · simp only
    rw [IncrementWalletBalance_exact]
    · simp only
      rw [DecrementWalletBalance_exact (w := creditRow ru ri (toUint64 amount) wp)]
      · rfl
      · exact hpk4
      · exact hfind4
      · exact hmin
    · exact hrecip
  · exact hpi
theorem handleSelfPayments_insufficient (env : Env) (m : Manager) {su si ru ri payHash : String}
    {amount : Int} {c : Nat} (hc : GetConfirmedBalance m.db su si = .ok c)
    (hlt : c < toUint64 amount) :
    handleSelfPayments env m su si ru ri payHash amount =
      (some (Err.New "insufficient funds"), m) := by
  unfold handleSelfPayments dbTransaction
  simp only [bind, Except.bind, hc, if_pos hlt]

theorem handleSelfPayments_no_recipient (env : Env) (m : Manager)
    {su si ru ri payHash : String} {amount : Int} {c : Nat}
    (hc : GetConfirmedBalance m.db su si = .ok c) (hge : ¬ c < toUint64 amount)
    (hpi : ∃ pi ∈ m.db.pendingInvoices, pi.paymentHash = payHash)
    (hrecip : ¬ ∃ w ∈ m.db.wallets, isWallet ru ri w = true) :
    handleSelfPayments env m su si ru ri payHash amount = (some Err.ErrWalletNotFound, m) := by
  have hinc : ∀ s : Store, s.wallets = m.db.wallets →
      IncrementWalletBalance s ru ri (toUint64 amount) = .error Err.ErrWalletNotFound := by
    intro s hs
    unfold IncrementWalletBalance
    rw [if_neg (by rw [hs]; simpa using hrecip)]
  unfold handleSelfPayments dbTransaction
  simp only [bind, Except.bind, hc, pure, Except.pure, SetInvoiceSenderAmount, CreateTransaction]
  rw [if_neg hge, DeletePendingInvoice_exact]
  · simp only
    rw [hinc]
    rfl
  · exact hpi

theorem selfPaymentStore_invoice {s : Store} {su si ru ri payHash : String} {amount : Int}
    {now : Nat} {i : Invoice}
    (hi : i ∈ (selfPaymentStore s su si ru ri payHash amount now).invoices)
    (hh : i.paymentHash = payHash) :
    i.senderID = some si ∧ i.senderUsername = some su ∧ i.settled = now := by
  simp only [selfPaymentStore, List.mem_map] at hi
  obtain ⟨j, _, hj⟩ := hi
  unfold paidInvoiceRow at hj
  split at hj
  · subst hj
    exact ⟨rfl, rfl, rfl⟩
  · next hne =>
    subst hj
    simp [hh] at hne

/-- C5 (amended): a payment whose request passes the size check of
`payInvoice` and whose hash matches a PendingInvoice `pending`.
(1) If the payer is an existing unlocked wallet with `Balance - P >= amount >= 0`
(`P` its own pending total, the balance in the `uint64` range), the recipient
wallet exists, the wallets table respects its primary key and no other
user's pending payment is recorded under the payer's wallet id, then
`payInvoice` hands nothing to the payment network, returns the Payment
`Success = true, AmountMsat = amount, FeeMsat = 0` without error, and leaves
the store of `selfPaymentStore`: sender and settlement time set on the
Invoice, one Transaction from payer to recipient of `amount` without fee,
the PendingInvoice deleted, the recipient credited and the payer debited by
`amount`; the cache entry of the hash is dropped; the settlement time is
the reading of the clock, non-zero whenever the clock is.
(2) If the confirmed balance computed by `GetConfirmedBalance` is below the
amount, `payInvoice` returns the error and the manager is unchanged.
(3) If that confirmed balance covers the amount but the recipient wallet is
not found, `payInvoice` returns `ErrWalletNotFound` and the manager is
unchanged. -/
theorem C5_self_payment (env : Env) (m : Manager) (wal : Wallet) (pr : String)
    (payreq : PayReq) (amount : Int) (sync : Bool) (payH : String) (pending : PendingInvoice)
    (hmax : payreq.numMsat ≤ m.maxPayment)
    (hhex : env.base64OfHex payreq.paymentHash = some payH)
    (hpend : GetPendingInvoice m.db payH = .ok pending) :
    (∀ wp : Wallet, m.db.walletKeysUnique →
      LockWalletRecordForUpdate m.db wal.username wal.id = .ok wp →
      wp.balance < u64 → 0 ≤ amount →
      amount + pendingTotal m.db wal.username wal.id ≤ wp.balance →
      m.db.noForeignPending wal.username wal.id →
      (∃ w ∈ m.db.wallets, isWallet pending.walletUsername pending.walletID w = true) →
      payInvoice env m wal pr payreq amount sync =
        some (⟨some { success := true, amountMsat := toUint64 amount, feeMsat := 0 }, none⟩,
          { m with
            db := selfPaymentStore m.db wal.username wal.id pending.walletUsername
              pending.walletID payH amount env.now,
            pendingInvoiceCache :=
              m.pendingInvoiceCache.filter fun c => !(c.paymentHash == payH) }) ∧
      toUint64 amount = amount.toNat ∧
      ∀ i ∈ (selfPaymentStore m.db wal.username wal.id pending.walletUsername
          pending.walletID payH amount env.now).invoices, i.paymentHash = payH →
        i.senderID = some wal.id ∧ i.senderUsername = some wal.username ∧
        i.settled = env.now) ∧
    (∀ c : Nat, GetConfirmedBalance m.db wal.username wal.id = .ok c → c < toUint64 amount →
      payInvoice env m wal pr payreq amount sync =
        some (⟨none, some (Err.New "insufficient funds")⟩, m)) ∧
    (∀ c : Nat, GetConfirmedBalance m.db wal.username wal.id = .ok c → ¬ c < toUint64 amount →
      (¬ ∃ w ∈ m.db.wallets, isWallet pending.walletUsername pending.walletID w = true) →
      payInvoice env m wal pr payreq amount sync =
        some (⟨none, some Err.ErrWalletNotFound⟩, m)) := by
  have hnot : ¬ (payreq.numMsat > m.maxPayment) := by omega
  have hpi : ∃ pi ∈ m.db.pendingInvoices, pi.paymentHash = payH :=
    ⟨pending, (GetPendingInvoice_ok hpend).1, (GetPendingInvoice_ok hpend).2⟩
  refine ⟨?_, ?_, ?_⟩
  · intro wp hpk hpayer h1 hamt hsuff hclash hrecip
    refine ⟨?_, toUint64_of_range hamt (by omega),
      fun i hi hh => selfPaymentStore_invoice hi hh⟩
    unfold payInvoice
    rw [if_neg hnot]
    simp only [hhex, hpend]
    rw [handleSelfPayments_ok env m hpk hpayer h1 hamt hsuff hclash hpi hrecip]
  · intro c hc hlt
    unfold payInvoice
    rw [if_neg hnot]
    simp only [hhex, hpend]
    rw [handleSelfPayments_insufficient env m hc hlt]
  · intro c hc hge hrecip
    unfold payInvoice
    rw [if_neg hnot]
    simp only [hhex, hpend]
    rw [handleSelfPayments_no_recipient env m hc hge hpi hrecip]

/-- Witness for C5: Alice (1000, nothing pending) pays Bob's pending invoice
`inv1` of 100: no request is sent, Alice holds 900, Bob 100, the PendingInvoice
is gone and one Transaction is written; asked to pay 5000 for it, she gets
the error and nothing changes. -/
theorem C5_self_payment_witness :
    payInvoice envPlain managerSelfPay walletAlice "pr" { numMsat := 100, paymentHash := "inv1" }
        100 false =
      some (⟨some { success := true, amountMsat := 100, feeMsat := 0 }, none⟩,
        { managerSelfPay with
          db := selfPaymentStore managerSelfPay.db "alice" "alice" "bob" "bob" "inv1" 100
            1700000000,
          pendingInvoiceCache := [] }) ∧
    (selfPaymentStore managerSelfPay.db "alice" "alice" "bob" "bob" "inv1" 100 1700000000).wallets =
      [{ id := "alice", username := "alice", balance := 900 },
       { id := "bob", username := "bob", balance := 100 }] ∧
    payInvoice envPlain managerSelfPay walletAlice "pr" { numMsat := 5000, paymentHash := "inv1" }
        5000 false =
      some (⟨none, some (Err.New "insufficient funds")⟩, managerSelfPay) :=
  ⟨((C5_self_payment envPlain managerSelfPay walletAlice "pr"
      { numMsat := 100, paymentHash := "inv1" } 100 false "inv1"
      { paymentHash := "inv1", walletID := "bob", walletUsername := "bob", amount := 100 }
      (by decide) rfl (by decide)).1
      { id := "alice", username := "alice", balance := 1000 }
      (by decide) (by decide) (by decide) (by decide) (by decide) (by decide) (by decide)).1,
    by decide,
    (C5_self_payment envPlain managerSelfPay walletAlice "pr"
      { numMsat := 5000, paymentHash := "inv1" } 5000 false "inv1"
      { paymentHash := "inv1", walletID := "bob", walletUsername := "bob", amount := 100 }
      (by decide) rfl (by decide)).2.1 1000 (by decide) (by decide)⟩

/-- C5 as stated fails: with the hash matching a PendingInvoice and a
confirmed balance of 1000 for an amount of 100, `payInvoice` returns an error
and changes nothing (a) when the recipient wallet of the PendingInvoice no
longer exists, and (b) when another user's wallet with the same id has a
payment in flight. -/
theorem C5_self_payment_counterexample :
    (GetPendingInvoice managerNoRecipient.db "inv1" =
        .ok { paymentHash := "inv1", walletID := "bob", walletUsername := "bob", amount := 100 } ∧
      GetConfirmedBalance managerNoRecipient.db "alice" "alice" = .ok 1000 ∧
      payInvoice envPlain managerNoRecipient walletAlice "pr"
          { numMsat := 100, paymentHash := "inv1" } 100 false =
        some (⟨none, some Err.ErrWalletNotFound⟩, managerNoRecipient)) ∧
    (GetPendingInvoice managerForeignPending.db "inv1" =
        .ok { paymentHash := "inv1", walletID := "bob", walletUsername := "bob", amount := 100 } ∧
      GetConfirmedBalance managerForeignPending.db "alice" "alice" = .ok 1000 ∧
      payInvoice envPlain managerForeignPending walletAlice "pr"
          { numMsat := 100, paymentHash := "inv1" } 100 false =
        some (⟨none, some (Err.Reason MsgDecrementWalletFailed Err.ErrInsufficientBalance)⟩,
          managerForeignPending)) := by
  refine ⟨⟨by decide, by decide, by decide⟩, ⟨by decide, by decide, by decide⟩⟩

/-! ## C6: finalization of an invoice -/

/-- The pending record `finalizeInvoice` works on, and the manager after the
cache has been consulted. -/
theorem finalizeInvoice_found {m : Manager} {h : String} {pi : PendingInvoice}
    (hpend : GetPendingInvoice m.db h = .ok pi)
    (hcache : ∀ c ∈ m.pendingInvoiceCache, c.paymentHash = h → c = pi) :
    (match m.pendingInvoiceCache.find? (fun pi => pi.paymentHash == h) with
      | some pi =>
        some (pi, { m with pendingInvoiceCache :=
          m.pendingInvoiceCache.filter fun c => !(c.paymentHash == pi.paymentHash) })
      | none =>
        match GetPendingInvoice m.db h with
        | .ok pi => some (pi, m)
        | .error _ => none) = some (pi, m.evictInvoice h) := by
  have hph := (GetPendingInvoice_ok hpend).2
  split
  · next c hfind =>
    have hc := hcache c (List.mem_of_find?_eq_some hfind) (by simpa using List.find?_some hfind)
    subst hc
    rw [hph]
    rfl
  · next hnone =>
    rw [hpend]
    simp only [Option.some.injEq, Prod.mk.injEq, true_and]
    have hall : ∀ c ∈ m.pendingInvoiceCache, (!(c.paymentHash == h)) = true := by
      intro c hc
      have := List.find?_eq_none.1 hnone c hc
      simpa using this
    unfold Manager.evictInvoice
    rw [List.filter_eq_self.2 hall]

theorem GetWallet_ok {s : Store} {u i : String} {w : Wallet} (h : GetWallet s u i = .ok w) :
    s.wallets.find? (isWallet u i) = some w := by
  unfold GetWallet at h
  split at h
  · next w' hw =>
    simp only [Except.ok.injEq] at h
    rw [hw, h]
  · simp at h

theorem map_save_eq_credit {s : Store} (hpk : s.walletKeysUnique) {u i : String} {wal : Wallet}
    (hw : s.wallets.find? (isWallet u i) = some wal) (amt : Nat) (b : Int)
    (hb : b = wal.balance + amt) :
    s.wallets.map (fun w => if isWallet wal.username wal.id w then { wal with balance := b } else w)
      = s.wallets.map (creditRow u i amt) := by
  have hf := find?_isWallet_some hw
  have hk := (isWallet_iff u i wal).1 hf.2
  apply List.map_congr_left
  intro w hwm
  unfold creditRow
  rw [hk.1, hk.2]
  by_cases hwi : isWallet u i w = true
  · have hwe := eq_of_isWallet hpk hw hwm hwi
    subst hwe
    simp [hwi, Wallet.credit, hb]
    exact ⟨hk.2.symm, hk.1.symm⟩
  · simp [hwi]

/-- C6 (amended): `finalizeInvoice` on an event whose payment hash has the
PendingInvoice `pending` (the cache holding, if anything, that record).
(1) Settled, the recipient wallet existing with `0 <= Balance`, a settled
amount `>= 0` and `Balance + amount < 2 ^ 64`: the PendingInvoice is deleted,
the recipient row gains exactly the settled amount, no other row changes, and
exactly one receipt Transaction (`To` the recipient, `From` nil, the settled
amount, no fee, referencing the invoice) is appended.
(2) Canceled: the PendingInvoice is deleted, no wallet row and no
Transaction changes.
In both cases the cache entry of the hash is dropped and the call returns.
(3) Settled, the recipient wallet not found: the call ends in the halt of
`log.Fatal`, the store transaction rolled back. -/
theorem C6_finalize_invoice (m : Manager) (invoice : LnInvoice) (pending : PendingInvoice)
    (hpend : GetPendingInvoice m.db invoice.rHash = .ok pending)
    (hcache : ∀ c ∈ m.pendingInvoiceCache, c.paymentHash = invoice.rHash → c = pending) :
    (∀ wal : Wallet, invoice.state = InvoiceState.SETTLED → m.db.walletKeysUnique →
      GetWallet m.db pending.walletUsername pending.walletID = .ok wal →
      0 ≤ wal.balance → 0 ≤ invoice.amtPaidMsat → wal.balance + invoice.amtPaidMsat < u64 →
      finalizeInvoice m invoice =
        some { m.evictInvoice invoice.rHash with
          db := settledStore m.db pending invoice.rHash invoice.amtPaidMsat.toNat }) ∧
    (invoice.state = InvoiceState.CANCELED →
      finalizeInvoice m invoice =
        some { m.evictInvoice invoice.rHash with
          db := withoutPendingInvoice m.db invoice.rHash }) ∧
    (∀ e : Err, invoice.state = InvoiceState.SETTLED →
      GetWallet m.db pending.walletUsername pending.walletID = .error e →
      finalizeInvoice m invoice = none) := by
  have hph := (GetPendingInvoice_ok hpend).2
  have hfound := finalizeInvoice_found hpend hcache
  refine ⟨?_, ?_, ?_⟩
  · intro wal hst hpk hwal h0 ha hlt
    have hw := GetWallet_ok hwal
    have hk := (isWallet_iff _ _ wal).1 (find?_isWallet_some hw).2
    have hta : toUint64 invoice.amtPaidMsat = invoice.amtPaidMsat.toNat :=
      toUint64_of_range ha (by omega)
    have htb : toUint64 wal.balance = wal.balance.toNat := toUint64_of_range h0 (by omega)
    have hbal : (((toUint64 wal.balance + toUint64 invoice.amtPaidMsat) % u64 : Nat) : Int) =
        wal.balance + (invoice.amtPaidMsat.toNat : Nat) := by
      rw [hta, htb]
      rw [u64_eq] at hlt ⊢
      omega
    unfold finalizeInvoice
    simp only [hfound, dbTransaction, hst, ne_eq, not_true_eq_false, if_false,
      Manager.evictInvoice, hwal, CreateTransaction, hph]
    rw [map_save_eq_credit hpk hw invoice.amtPaidMsat.toNat _ hbal]
    simp only [settledStore, withoutPendingInvoice, receiptTransaction, hk.1, hk.2, hta]
  · intro hst
    unfold finalizeInvoice
    simp only [hfound, dbTransaction, hst, ne_eq, Manager.evictInvoice, hph]
    simp [withoutPendingInvoice]
  · intro e hst hwal
    unfold finalizeInvoice
    simp only [hfound, dbTransaction, hst, ne_eq, not_true_eq_false, if_false,
      Manager.evictInvoice, hwal]

/-- Witness for C6, the scenario of the spec: Alice's wallet at 0, her invoice
of 5000 settled for 5000; the balance is 5000, the PendingInvoice is gone and
one receipt Transaction to `(alice, alice)` from nobody is written.  Had the
invoice been canceled, the PendingInvoice alone would be gone. -/
theorem C6_finalize_invoice_witness :
    finalizeInvoice managerAliceInvoice
        { rHash := "inv5000", state := InvoiceState.SETTLED, amtPaidMsat := 5000 } =
      some { managerAliceInvoice with
        pendingInvoiceCache := [],
        db := { managerAliceInvoice.db with
          pendingInvoices := [],
          wallets := [{ id := "alice", username := "alice", balance := 5000 }],
          transactions :=
            [{ fromID := none, fromUsername := none, toID := some "alice",
               toUsername := some "alice", amount := 5000, feesPaid := 0,
               invoiceID := some "inv5000" }] } } ∧
    finalizeInvoice managerAliceInvoice
        { rHash := "inv5000", state := InvoiceState.CANCELED, amtPaidMsat := 0 } =
      some { managerAliceInvoice with
        pendingInvoiceCache := [],
        db := { managerAliceInvoice.db with pendingInvoices := [] } } :=
  ⟨(C6_finalize_invoice managerAliceInvoice
      { rHash := "inv5000", state := InvoiceState.SETTLED, amtPaidMsat := 5000 }
      { paymentHash := "inv5000", walletID := "alice", walletUsername := "alice", amount := 5000 }
      (by decide) (by decide)).1
    { id := "alice", username := "alice", balance := 0 }
    rfl (by decide) (by decide) (by decide) (by decide) (by decide),
   (C6_finalize_invoice managerAliceInvoice
      { rHash := "inv5000", state := InvoiceState.CANCELED, amtPaidMsat := 0 }
      { paymentHash := "inv5000", walletID := "alice", walletUsername := "alice", amount := 5000 }
      (by decide) (by decide)).2.1 rfl⟩

/-- C6 as stated fails: (a) when the recipient wallet of the PendingInvoice no
longer exists, a settled event ends in the halt of `log.Fatal` with the
transaction rolled back, so the PendingInvoice is not deleted; (b) with the
balance at `2 ^ 64 - 1`, a settlement of 1 leaves the balance 0. -/
theorem C6_finalize_invoice_counterexample :
    (GetPendingInvoice managerInvoiceNoWallet.db "inv5000" =
        .ok { paymentHash := "inv5000", walletID := "alice", walletUsername := "alice",
              amount := 5000 } ∧
      finalizeInvoice managerInvoiceNoWallet
        { rHash := "inv5000", state := InvoiceState.SETTLED, amtPaidMsat := 5000 } = none) ∧
    (finalizeInvoice managerInvoiceFull
        { rHash := "inv5000", state := InvoiceState.SETTLED, amtPaidMsat := 1 }).map
        (fun m => m.db.wallets) =
      some [{ id := "alice", username := "alice", balance := 0 }] := by
  refine ⟨⟨by decide, by decide⟩, by decide⟩

/-! ## C7: finalization of a payment -/

theorem GetPendingPayment_ok {s : Store} {h : String} {pp : PendingPayment}
    (hp : GetPendingPayment s h = .ok pp) : pp ∈ s.pendingPayments ∧ pp.paymentHash = h := by
  unfold GetPendingPayment at hp
  split at hp
  · next p hfind =>
    simp only [Except.ok.injEq] at hp
    subst hp
    exact ⟨List.mem_of_find?_eq_some hfind, by simpa using List.find?_some hfind⟩
  · simp at hp

theorem DeletePendingPayment_exact {s : Store} {pp : PendingPayment}
    (h : pp ∈ s.pendingPayments) :
    DeletePendingPayment s pp = .ok (withoutPendingPayment s pp) := by
  unfold DeletePendingPayment
  rw [if_pos (by rw [List.any_eq_true]; exact ⟨pp, h, by simp⟩)]
  rfl

/-- The pending record `finalizePayment` works on, and the manager after the
cache has been consulted. -/
theorem finalizePayment_found {m : Manager} {h : String} {pp : PendingPayment}
    (hpend : GetPendingPayment m.db h = .ok pp)
    (hcache : ∀ c ∈ m.pendingPaymentCache, c.paymentHash = h → c = pp) :
    (match m.pendingPaymentCache.find? (fun pp => pp.paymentHash == h) with
      | some pp =>
        some (pp, { m with pendingPaymentCache :=
          m.pendingPaymentCache.filter fun c => !(c.paymentHash == h) })
      | none =>
        match GetPendingPayment m.db h with
        | .ok pp => some (pp, m)
        | .error _ => none) = some (pp, m.evictPayment h) := by
  split
  · next c hfind =>
    have hc := hcache c (List.mem_of_find?_eq_some hfind) (by simpa using List.find?_some hfind)
    subst hc
    rfl
  · next hnone =>
    rw [hpend]
    simp only [Option.some.injEq, Prod.mk.injEq, true_and]
    have hall : ∀ c ∈ m.pendingPaymentCache, (!(c.paymentHash == h)) = true := by
      intro c hc
      have := List.find?_eq_none.1 hnone c hc
      simpa using this
    unfold Manager.evictPayment
    rw [List.filter_eq_self.2 hall]

/-- C7 (amended): `finalizePayment` on a payment hash that has the
PendingPayment `pending` of amount `a` (the cache holding, if anything, that
record), with reported fee `f`.
(1) Succeeded, with `0 <= f <= a < 2 ^ 64`, the payer wallet existing with
`Balance < 2 ^ 64` and `Balance >= (a - f) + P'` (`P'` the sum of its other
pending payments), no other user's pending payment being recorded under its
wallet id: the PendingPayment is deleted, the payer row loses exactly `a - f`,
no other row changes, exactly one payment Transaction (`From` the payer, `To`
nil, `Amount = a`, `FeesPaid = f`, referencing the invoice) is appended, and the
settlement time of the Invoice rows of the hash is set to the current time.
(2) Failed: the PendingPayment is deleted; wallets, Transactions and Invoices
are as before.
In both cases the cache entry of the hash is dropped and the call returns.
(3) Succeeded, the decrement by `a - f` refused by `DecrementWalletBalance`:
the call ends in the halt of `log.Fatal`, the store transaction rolled back. -/
theorem C7_finalize_payment (env : Env) (m : Manager) (paymentHash : String) (feesPaid : Int)
    (pending : PendingPayment)
    (hpend : GetPendingPayment m.db paymentHash = .ok pending)
    (hcache : ∀ c ∈ m.pendingPaymentCache, c.paymentHash = paymentHash → c = pending) :
    (∀ wal : Wallet, m.db.walletKeysUnique →
      GetWallet m.db pending.walletUsername pending.walletID = .ok wal →
      0 ≤ feesPaid → feesPaid ≤ pending.amount → pending.amount < u64 → wal.balance < u64 →
      (pending.amount - feesPaid.toNat : Nat) +
          pendingTotal (withoutPendingPayment m.db pending)
            pending.walletUsername pending.walletID ≤ wal.balance →
      (withoutPendingPayment m.db pending).noForeignPending
        pending.walletUsername pending.walletID →
      finalizePayment env m paymentHash true feesPaid =
        some { m.evictPayment paymentHash with
          db := paidStore m.db pending paymentHash feesPaid.toNat env.now }) ∧
    (finalizePayment env m paymentHash false feesPaid =
      some { m.evictPayment paymentHash with db := withoutPendingPayment m.db pending }) ∧
    (∀ e : Err,
      DecrementWalletBalance (withoutPendingPayment m.db pending) pending.walletUsername
        pending.walletID (subU64 pending.amount (toUint64 feesPaid)) = .error e →
      finalizePayment env m paymentHash true feesPaid = none) := by
  have hmem := (GetPendingPayment_ok hpend).1
  have hfound := finalizePayment_found hpend hcache
  refine ⟨?_, ?_, ?_⟩
  · intro wal hpk hwal hf0 hfa ha hb hsuff hclash
    have hw := GetWallet_ok hwal
    have htf : toUint64 feesPaid = feesPaid.toNat := toUint64_of_range hf0 (by omega)
    have hsub : subU64 pending.amount feesPaid.toNat = pending.amount - feesPaid.toNat :=
      subU64_exact (by omega) ha
    have hmin : (minBalance (withoutPendingPayment m.db pending) pending.walletID
        (pending.amount - feesPaid.toNat) : Int) ≤ wal.balance := by
      rw [minBalance_exact hclash (by omega)]
      exact_mod_cast hsuff
    have hdec := DecrementWalletBalance_exact (s := withoutPendingPayment m.db pending)
      (d := pending.amount - feesPaid.toNat) hpk hw hmin
    unfold finalizePayment
    simp only [hfound, dbTransaction, bind, Except.bind, Manager.evictPayment,
      DeletePendingPayment_exact hmem, Bool.not_true, Bool.false_eq_true, if_false, htf, hsub,
      hdec, CreateTransaction, UpdateInvoiceSettleTime, pure, Except.pure]
    rfl
  · unfold finalizePayment
    simp only [hfound, dbTransaction, bind, Except.bind, Manager.evictPayment,
      DeletePendingPayment_exact hmem, Bool.not_false, if_true, pure, Except.pure]
  · intro e hdec
    unfold finalizePayment
    simp only [hfound, dbTransaction, bind, Except.bind, Manager.evictPayment,
      DeletePendingPayment_exact hmem, Bool.not_true, Bool.false_eq_true, if_false, hdec]

/-- Witness for C7: Alice (1000) has the payment `out1` of 50 in flight; it
succeeds with fee 2: the balance is 952, the PendingPayment is gone, one
Transaction of amount 50 and fee 2 is written and the Invoice is settled.
Had it failed, the PendingPayment alone would be gone. -/
theorem C7_finalize_payment_witness :
    finalizePayment envPlain managerPayment "out1" true 2 =
      some { managerPayment with
        pendingPaymentCache := [],
        db := { managerPayment.db with
          pendingPayments := [],
          wallets := [{ id := "alice", username := "alice", balance := 952 }],
          transactions :=
            [{ fromID := some "alice", fromUsername := some "alice", toID := none,
               toUsername := none, amount := 50, feesPaid := 2, invoiceID := some "out1" }],
          invoices :=
            [{ paymentHash := "out1", amount := 50, settled := 1700000000,
               senderID := some "alice", senderUsername := some "alice" }] } } ∧
    finalizePayment envPlain managerPayment "out1" false 0 =
      some { managerPayment with
        pendingPaymentCache := [],
        db := { managerPayment.db with pendingPayments := [] } } :=
  ⟨(C7_finalize_payment envPlain managerPayment "out1" 2
      { id := 1, walletID := "alice", walletUsername := "alice", paymentHash := "out1",
        amount := 50 }
      (by decide) (by decide)).1
    { id := "alice", username := "alice", balance := 1000 }
    (by decide) (by decide) (by decide) (by decide) (by decide) (by decide) (by decide)
    (by decide),
   (C7_finalize_payment envPlain managerPayment "out1" 0
      { id := 1, walletID := "alice", walletUsername := "alice", paymentHash := "out1",
        amount := 50 }
      (by decide) (by decide)).2.1⟩

/-- C7 as stated fails: with the balance at 10 when the payment of 50
succeeds (fee 0), the decrement is refused, the store transaction is rolled
back and the call ends in the halt of `log.Fatal`; the PendingPayment is not
deleted and nothing is written. -/
theorem C7_finalize_payment_counterexample :
    GetPendingPayment managerPaymentShort.db "out1" =
        .ok { id := 1, walletID := "alice", walletUsername := "alice", paymentHash := "out1",
              amount := 50 } ∧
      finalizePayment envPlain managerPaymentShort "out1" true 0 = none := by
  refine ⟨by decide, by decide⟩

/-! ## C8: start-up recovery and open invoices -/

/-- C8, evaluated on a restart with one pending invoice that the payment
network still reports as open: `handleStaleInvoices` hands it to
`finalizeInvoice`, which deletes the PendingInvoice; the settlement that
arrives later finds no pending record and credits nothing (the balance stays
0), whereas the live subscription leaves an open invoice alone. -/
theorem C8_stale_open_invoice_dropped :
    envPlain.lookupInvoice "inv5000" =
        some { rHash := "inv5000", state := InvoiceState.OPEN, amtPaidMsat := 0 } ∧
      handleStaleInvoices envPlain managerRestart =
        some { managerRestart with db := { managerRestart.db with pendingInvoices := [] } } ∧
      trackPendingInvoices
          { managerRestart with db := { managerRestart.db with pendingInvoices := [] } }
          { rHash := "inv5000", state := InvoiceState.SETTLED, amtPaidMsat := 5000 } =
        some { managerRestart with db := { managerRestart.db with pendingInvoices := [] } } ∧
      trackPendingInvoices managerRestart
          { rHash := "inv5000", state := InvoiceState.OPEN, amtPaidMsat := 0 } =
        some managerRestart := by
  refine ⟨by decide, by decide, by decide, by decide⟩

/-! ## C9: finalization is idempotent -/

/-- Whatever `finalizeInvoice` does when it returns, the pending invoices of
the store and the cache are the former ones without those of the hash. -/
theorem finalizeInvoice_tables {m m1 : Manager} {invoice : LnInvoice}
    (h : finalizeInvoice m invoice = some m1) :
    m1.db.pendingInvoices =
        m.db.pendingInvoices.filter (fun p => !(p.paymentHash == invoice.rHash)) ∧
      m1.pendingInvoiceCache =
        m.pendingInvoiceCache.filter (fun c => !(c.paymentHash == invoice.rHash)) := by
  unfold finalizeInvoice at h
  simp only at h
  split at h
  · next hfound =>
    -- neither the cache nor the store knows the hash
    simp only [Option.some.injEq] at h
    subst h
    split at hfound
    · simp at hfound
    · next hnone =>
      split at hfound
      · simp at hfound
      · next e hget =>
        have hdb : ∀ p ∈ m.db.pendingInvoices, (!(p.paymentHash == invoice.rHash)) = true := by
          intro p hp
          unfold GetPendingInvoice at hget
          split at hget
          · simp at hget
          · next hn =>
            simpa using List.find?_eq_none.1 hn p hp
        have hc : ∀ c ∈ m.pendingInvoiceCache, (!(c.paymentHash == invoice.rHash)) = true := by
          intro c hc
          simpa using List.find?_eq_none.1 hnone c hc
        exact ⟨(List.filter_eq_self.2 hdb).symm, (List.filter_eq_self.2 hc).symm⟩
  · next pi m0 hfound =>
    have hm0 : pi.paymentHash = invoice.rHash ∧ m0.db = m.db ∧
        m0.pendingInvoiceCache =
          m.pendingInvoiceCache.filter (fun c => !(c.paymentHash == invoice.rHash)) := by
      split at hfound
      · next c hfind =>
        simp only [Option.some.injEq, Prod.mk.injEq] at hfound
        have hch : c.paymentHash = invoice.rHash := by simpa using List.find?_some hfind
        rw [← hfound.1, ← hfound.2, hch]
        exact ⟨rfl, rfl, rfl⟩
      · next hnone =>
        split at hfound
        · next p hget =>
          simp only [Option.some.injEq, Prod.mk.injEq] at hfound
          have hc : ∀ c ∈ m.pendingInvoiceCache, (!(c.paymentHash == invoice.rHash)) = true := by
            intro c hc
            simpa using List.find?_eq_none.1 hnone c hc
          rw [← hfound.1, ← hfound.2]
          exact ⟨(GetPendingInvoice_ok hget).2, rfl, (List.filter_eq_self.2 hc).symm⟩
        · simp at hfound
    obtain ⟨hph, hdb, hcache⟩ := hm0
    unfold dbTransaction at h
    simp only [hph, hdb] at h
    split at h
    · simp at h
    · next u db hres =>
      simp only [Option.some.injEq] at h
      subst h
      refine ⟨?_, hcache⟩
      simp only
      split at hres
      · simp at hres
      · next a s' hbody =>
        simp only [Prod.mk.injEq, Except.ok.injEq] at hres
        rw [← hres.2]
        split at hbody
        · simp only [Except.ok.injEq, Prod.mk.injEq] at hbody
          rw [← hbody.2]
        · split at hbody
          · simp at hbody
          · simp only [CreateTransaction, Except.ok.injEq, Prod.mk.injEq] at hbody
            rw [← hbody.2]

/-- A manager that knows no pending invoice of the hash is left as it is. -/
theorem finalizeInvoice_of_absent {m : Manager} {invoice : LnInvoice}
    (hc : ∀ c ∈ m.pendingInvoiceCache, (!(c.paymentHash == invoice.rHash)) = true)
    (hdb : ∀ p ∈ m.db.pendingInvoices, (!(p.paymentHash == invoice.rHash)) = true) :
    finalizeInvoice m invoice = some m := by
  have h1 : m.pendingInvoiceCache.find? (fun pi => pi.paymentHash == invoice.rHash) = none := by
    rw [List.find?_eq_none]
    intro c hcm
    simpa using hc c hcm
  have h2 : GetPendingInvoice m.db invoice.rHash = .error Err.ErrPendingInvoiceNotFound := by
    unfold GetPendingInvoice
    have : m.db.pendingInvoices.find? (fun pi => pi.paymentHash == invoice.rHash) = none := by
      rw [List.find?_eq_none]
      intro p hp
      simpa using hdb p hp
    rw [this]
  unfold finalizeInvoice
  simp only [h1, h2]

theorem finalizeInvoice_twice (m : Manager) (invoice : LnInvoice) :
    (finalizeInvoice m invoice).bind (fun m' => finalizeInvoice m' invoice) =
      finalizeInvoice m invoice := by
  cases h : finalizeInvoice m invoice with
  | none => rfl
  | some m1 =>
    obtain ⟨hdb, hcache⟩ := finalizeInvoice_tables h
    simp only [Option.bind]
    apply finalizeInvoice_of_absent
    · intro c hc
      rw [hcache] at hc
      exact (List.mem_filter.1 hc).2
    · intro p hp
      rw [hdb] at hp
      exact (List.mem_filter.1 hp).2

/-- One round of the loop of `handleStaleInvoices`. -/
theorem foldl_staleStep_none (env : Env) (l : List PendingInvoice) :
    l.foldl
      (fun acc pi =>
        match acc with
        | none => none
        | some m =>
          let m := { m with pendingInvoiceCache :=
            (m.pendingInvoiceCache.filter fun c => !(c.paymentHash == pi.paymentHash)) ++ [pi] }
          match env.lookupInvoice pi.paymentHash with
          | none => none
          | some invoice => finalizeInvoice m invoice)
      (none : Option Manager) = none := by
  induction l with
  | nil => rfl
  | cons p ps ih => simpa using ih

theorem foldl_staleStep_pending (env : Env)
    (hlookup : ∀ h inv, env.lookupInvoice h = some inv → inv.rHash = h)
    (l : List PendingInvoice) (m0 m' : Manager)
    (h : l.foldl
      (fun acc pi =>
        match acc with
        | none => none
        | some m =>
          let m := { m with pendingInvoiceCache :=
            (m.pendingInvoiceCache.filter fun c => !(c.paymentHash == pi.paymentHash)) ++ [pi] }
          match env.lookupInvoice pi.paymentHash with
          | none => none
          | some invoice => finalizeInvoice m invoice)
      (some m0) = some m') :
    m'.db.pendingInvoices =
      m0.db.pendingInvoices.filter (fun p => !(l.any fun q => q.paymentHash == p.paymentHash)) := by
  induction l generalizing m0 with
  | nil =>
    simp only [List.foldl_nil, Option.some.injEq] at h
    subst h
    simp
  | cons pi rest ih =>
    simp only [List.foldl_cons] at h
    cases hl : env.lookupInvoice pi.paymentHash with
    | none =>
      simp only [hl] at h
      rw [foldl_staleStep_none] at h
      simp at h
    | some invoice =>
      simp only [hl] at h
      have hr := hlookup _ _ hl
      cases hf : finalizeInvoice
          { m0 with pendingInvoiceCache :=
            (m0.pendingInvoiceCache.filter fun c => !(c.paymentHash == pi.paymentHash)) ++ [pi] }
          invoice with
      | none =>
        rw [hf, foldl_staleStep_none] at h
        simp at h
      | some m1 =>
        rw [hf] at h
        have h1 := (finalizeInvoice_tables hf).1
        rw [ih m1 h, h1, List.filter_filter, hr]
        apply List.filter_congr
        intro p _
        simp only [List.any_cons, Bool.not_or]
        cases hpq : (p.paymentHash == pi.paymentHash) <;> cases hq : (pi.paymentHash == p.paymentHash)
          <;> simp_all

theorem handleStaleInvoices_clears (env : Env)
    (hlookup : ∀ h inv, env.lookupInvoice h = some inv → inv.rHash = h)
    {m m' : Manager} (h : handleStaleInvoices env m = some m') : m'.db.pendingInvoices = [] := by
  unfold handleStaleInvoices ListPendingInvoices at h
  rw [foldl_staleStep_pending env hlookup _ _ _ h, List.filter_eq_nil_iff]
  intro p hp
  simp only [Bool.not_eq_true, Bool.not_eq_false', List.any_eq_true]
  exact ⟨p, hp, by simp⟩

/-- C9: applying `finalizeInvoice` twice with the same event leaves the
manager (balances, Transactions, pending records, caches) that one
application leaves, the second finding no pending record; and, the payment
network answering each lookup with the invoice of the hash asked for, a
second run of the start-up sweep `handleStaleInvoices` (whatever the network
then answers) leaves the manager that the first run leaves. -/
theorem C9_finalization_idempotent (env env' : Env) (m : Manager) (invoice : LnInvoice)
    (hlookup : ∀ h inv, env.lookupInvoice h = some inv → inv.rHash = h) :
    (finalizeInvoice m invoice).bind (fun m' => finalizeInvoice m' invoice) =
        finalizeInvoice m invoice ∧
      (handleStaleInvoices env m).bind (handleStaleInvoices env') =
        handleStaleInvoices env m := by
  refine ⟨finalizeInvoice_twice m invoice, ?_⟩
  cases h : handleStaleInvoices env m with
  | none => rfl
  | some m1 =>
    have hnil := handleStaleInvoices_clears env hlookup h
    simp only [Option.bind]
    unfold handleStaleInvoices ListPendingInvoices
    rw [hnil]
    rfl

theorem envSettled_lookup (h : String) (inv : LnInvoice)
    (hl : envSettled.lookupInvoice h = some inv) : inv.rHash = h := by
  simp only [envSettled, Option.some.injEq] at hl
  rw [← hl]

/-- Witness for C9: on the restart with Alice's invoice pending and settled
on the payment network, the sweep credits 5000 once; the second sweep and the
second finalization change nothing. -/
theorem C9_finalization_idempotent_witness :
    ((finalizeInvoice managerRestart eventSettled).bind
        (fun m' => finalizeInvoice m' eventSettled) = finalizeInvoice managerRestart eventSettled ∧
      (handleStaleInvoices envSettled managerRestart).bind (handleStaleInvoices envSettled) =
        handleStaleInvoices envSettled managerRestart) ∧
    (handleStaleInvoices envSettled managerRestart).map (fun m => m.db.wallets) =
      some [{ id := "alice", username := "alice", balance := 5000 }] :=
  ⟨C9_finalization_idempotent envSettled envSettled managerRestart eventSettled
    envSettled_lookup, by decide⟩

/-! ## C10: wallet keys and the wallet-key cache -/

/-- C10, evaluated on two users who each own a wallet with the id `main`:
once Bob's wallet key has been validated for `(bob, main)`, the cache holds it
under `main`; the same key presented for `(alice, main)` is then accepted,
and Alice's own wallet key is rejected with `ErrUnauthenticated`. -/
theorem C10_wallet_key_cache_by_id :
    (ValidateWalletCredentials serviceTwoMain
        (some (walletKeyRequest "bob" "bob-main-key")) "main").err = none ∧
      (ValidateWalletCredentials serviceTwoMain
        (some (walletKeyRequest "bob" "bob-main-key")) "main").service.walletKeys =
        [("main", "bob-main-key")] ∧
      (ValidateWalletCredentials
        (ValidateWalletCredentials serviceTwoMain
          (some (walletKeyRequest "bob" "bob-main-key")) "main").service
        (some (walletKeyRequest "alice" "bob-main-key")) "main").err = none ∧
      (ValidateWalletCredentials
        (ValidateWalletCredentials serviceTwoMain
          (some (walletKeyRequest "bob" "bob-main-key")) "main").service
        (some (walletKeyRequest "alice" "bob-main-key")) "main").username = "alice" ∧
      (ValidateWalletCredentials
        (ValidateWalletCredentials serviceTwoMain
          (some (walletKeyRequest "bob" "bob-main-key")) "main").service
        (some (walletKeyRequest "alice" "alice-main-key")) "main").err =
        some Err.ErrUnauthenticated := by
  refine ⟨by decide, by decide, by decide, by decide, by decide⟩

/-! ## C12 -/

/-- C12, evaluated on Alice's wallet `(alice, alice)` with balance 1000 and
no pending payment of its own, while Carol's wallet `(carol, alice)` has a
payment of 950 in flight: the pending total of Alice's wallet is 0 and
`GetConfirmedBalance` returns 1000, yet `DecrementWalletBalance` by 100 fails
with the insufficient-balance error; with Carol's pending payment taken away
the same call succeeds.  The claim asks that it succeeds in both. -/
theorem C12_foreign_pending_blocks_decrement :
    GetWallet managerForeignPending.db "alice" "alice" = .ok walletAlice ∧
    pendingTotal managerForeignPending.db "alice" "alice" = 0 ∧
    GetConfirmedBalance managerForeignPending.db "alice" "alice" = .ok 1000 ∧
    DecrementWalletBalance managerForeignPending.db "alice" "alice" 100 =
      .error (Err.Reason MsgDecrementWalletFailed Err.ErrInsufficientBalance) ∧
    DecrementWalletBalance { managerForeignPending.db with pendingPayments := [] }
        "alice" "alice" 100 =
      .ok { managerForeignPending.db with
        pendingPayments := [],
        wallets := [{ id := "alice", username := "alice", balance := 900 },
                    { id := "bob", username := "bob", balance := 0 },
                    { id := "alice", username := "carol", balance := 5000 }] } := by
  refine ⟨by decide, by decide, by decide, by decide, by decide⟩

/-! ## C15 -/

/-- C15, evaluated on a request that carries no amount, with the payment
ceiling at 1000 and Alice holding 1000000.  `PayInvoiceAmount` with the
explicit amount 5000 returns no error and hands the payment network a request
for 5000; run synchronously, the payment is finalized and Alice is debited
5000.  With the explicit amount 0 a request is dispatched as well.  The
claim asks for an error, no dispatch and no movement of funds in both. -/
theorem C15_ceiling_checked_on_request_amount :
    managerCeiling.maxPayment = 1000 ∧
    envAmountless.decodePayReq "pr" = .ok payReqAmountless ∧
    (PayInvoiceAmount envAmountless managerCeiling "alice" "alice" "pr" false 5000).map
        (fun r => (r.1, r.2.sent)) =
      some (⟨none, none⟩,
        [{ paymentRequest := "pr", feeLimitMsat := 0, timeoutSeconds := 30, amtMsat := 5000 }]) ∧
    (PayInvoiceAmount envAmountless managerCeiling "alice" "alice" "pr" true 5000).map
        (fun r => (r.1, r.2.db.wallets)) =
      some (⟨some { success := true, amountMsat := 5000 }, none⟩,
        [{ id := "alice", username := "alice", balance := 995000 }]) ∧
    (PayInvoiceAmount envAmountless managerCeiling "alice" "alice" "pr" false 0).map
        (fun r => (r.1, r.2.sent)) =
      some (⟨none, none⟩,
        [{ paymentRequest := "pr", feeLimitMsat := 0, timeoutSeconds := 30, amtMsat := 0 }]) := by
  refine ⟨by decide, by decide, by decide, by decide, by decide⟩

/-! ## C16 -/

/-- C16, evaluated on a request that carries no amount, Alice holding a
confirmed balance of 1000000, whatever the value `fee` of the source's
floating-point expression: the fee limit handed to the payment network is
that expression taken at the amount of the request, 0, and is the same for a
payment of 5000 and for a payment of 100000, where the claim asks for
`min(3% of 5000, 995000) = 150` and `min(3% of 100000, 900000) = 3000`. -/
theorem C16_fee_limit_from_request_amount (fee : Int → Nat → Int) :
    GetConfirmedBalance managerFunded.db "alice" "alice" = .ok 1000000 ∧
    (PayInvoiceAmount { envAmountless with feeLimitMsat := fee } managerFunded
        "alice" "alice" "pr" false 5000).map (fun r => (r.1, r.2.sent)) =
      some (⟨none, none⟩,
        [{ paymentRequest := "pr", feeLimitMsat := fee 0 1000000, timeoutSeconds := 30,
           amtMsat := 5000 }]) ∧
    (PayInvoiceAmount { envAmountless with feeLimitMsat := fee } managerFunded
        "alice" "alice" "pr" false 100000).map (fun r => (r.1, r.2.sent)) =
      some (⟨none, none⟩,
        [{ paymentRequest := "pr", feeLimitMsat := fee 0 1000000, timeoutSeconds := 30,
           amtMsat := 100000 }]) := by
  refine ⟨by decide, by rfl, by rfl⟩

/-! ## C17 -/

/-- C17, evaluated where the store refuses the second write of
`CreateInvoice`: the call returns the error, yet the PendingInvoice written
by the first, separate write remains in the store and in the pending-invoice
cache, with no Invoice row beside it.  The claim asks that neither remains. -/
theorem C17_create_invoice_not_atomic :
    Invoices.CreateInvoice { createInvoice := some (Err.Reason MsgCreateInvoiceFailed Err.ErrInternal) }
        envInvoice managerAliceEmpty "alice" "alice" "memo" 5000 3600 =
      (⟨none, some (Err.Reason MsgCreateInvoiceFailed Err.ErrInternal)⟩,
       { managerAliceEmpty with
         db := { managerAliceEmpty.db with pendingInvoices := [pendingHash1] },
         pendingInvoiceCache := [pendingHash1] }) ∧
    managerAliceEmpty.db.pendingInvoices = [] ∧
    managerAliceEmpty.pendingInvoiceCache = [] := by
  refine ⟨by decide, by decide, by decide⟩

/-! ## C18 -/

/-- C18, evaluated on the settlement of Alice's invoice of 5000:
`finalizeInvoice` credits the wallet, writes the receipt and deletes the
PendingInvoice, and the Invoice row still has the zero Settled timestamp;
the self-payment of Bob's invoice by Alice leaves its Invoice row with the
time of the payment. -/
theorem C18_settled_invoice_keeps_zero_timestamp :
    (finalizeInvoice managerAliceInvoice eventSettled).map
        (fun m => (m.db.wallets.map (·.balance), m.db.pendingInvoices, m.db.transactions.length,
          m.db.invoices.map (fun i => (i.paymentHash, i.settled)))) =
      some ([5000], [], 1, [("inv5000", 0)]) ∧
    (payInvoice envPlain managerSelfPay walletAlice "pr" { numMsat := 100, paymentHash := "inv1" }
        100 false).map (fun r => r.2.db.invoices.map (fun i => (i.paymentHash, i.settled))) =
      some [("inv1", 1700000000)] := by
  refine ⟨by decide, by decide⟩

/-! ## C19 -/

/-- C19, evaluated on a withdrawal whose payment the network reports as
failed: `PayWithdrawInvoice` returns no error, the payment is finalized as
failed (no balance changes, no Transaction is written, the PendingPayment is
deleted), and the use counter of the template goes from 0 to 1.  The claim
asks that it stays 0. -/
theorem C19_failed_withdrawal_counted :
    managerWithdraw.db.withdraws.map (fun w => (w.k1, w.uses)) = [("k1", 0)] ∧
    (PayWithdrawInvoice envFailing managerWithdraw "k1" "pr").map
        (fun r => (r.1, r.2.db.withdraws.map (fun w => (w.k1, w.uses)))) =
      some (none, [("k1", 1)]) ∧
    (PayWithdrawInvoice envFailing managerWithdraw "k1" "pr").map
        (fun r => (r.2.db.wallets, r.2.db.transactions, r.2.db.pendingPayments)) =
      some (managerWithdraw.db.wallets, [], []) ∧
    (payInvoice envFailing managerWithdraw walletAlice "pr" payReqHundred 100 true).map (·.1) =
      some ⟨some { success := false, amountMsat := 100, feeMsat := 0,
                   failureReason := "FAILURE_REASON_NO_ROUTE" }, none⟩ := by
  refine ⟨by decide, by decide, by decide, by decide⟩

/-! ## C20 -/

/-- C20, evaluated on a template good for one use while its first withdrawal
is in flight: the PendingPayment of that withdrawal carries no `k1`, the
list of pending withdrawals of `k1` is empty, and a second
`PayWithdrawInvoice(k1, pr2)` passes every check and goes on to pay, where
the claim asks for the error "processing other withdrawals. Retry.".  Both
withdrawals run to their end, the counter stands at 2 with `MaxUse = 1`. -/
theorem C20_in_flight_withdrawal_not_counted :
    managerWithdrawInFlight.db.pendingPayments =
      [{ id := 1, walletID := "alice", walletUsername := "alice", paymentHash := "pr",
         amount := 100, withdrawK1 := none }] ∧
    ListPendingWithdraws managerWithdrawInFlight.db "alice" "alice" "k1" = [] ∧
    managerWithdrawInFlight.db.withdraws.map (fun w => (w.maxUse, w.uses)) = [(1, 0)] ∧
    payWithdrawChecks envWithdraw managerWithdrawInFlight "k1" "pr2" =
      .ok (walletAlice, payReqHundred) ∧
    ((PayWithdrawInvoice envWithdraw managerWithdrawInFlight "k1" "pr2").bind
        (fun r => (trackPendingPayment envWithdraw r.2 "pr").bind
          (fun t => match IncrementWithdrawCount t.2.db "k1" with
            | .ok db => some (r.1, db.withdraws.map (fun w => (w.maxUse, w.uses)),
                db.wallets.map (·.balance))
            | .error _ => none))) =
      some (none, [(1, 2)], [800]) := by
  refine ⟨by decide, by decide, by decide, by decide, by decide⟩

/-! ## C13 -/

theorem GetUser_of_hasUser {s : Store} {username : String} (h : s.hasUser username) :
    ∃ u, GetUser s username = .ok u := by
  unfold GetUser
  cases hf : s.users.find? (fun u => u.username == username && !u.deleted) with
  | some u => exact ⟨u, rfl⟩
  | none =>
    rw [List.find?_eq_none] at hf
    obtain ⟨u, hu, hn, hd⟩ := h
    exact absurd (by simp [hn, hd]) (hf u hu)

theorem GetUser_of_not_hasUser {s : Store} {username : String} (h : ¬ s.hasUser username) :
    GetUser s username = .error Err.ErrUserNotFound := by
  unfold GetUser
  cases hf : s.users.find? (fun u => u.username == username && !u.deleted) with
  | none => rfl
  | some u =>
    have hm := List.mem_of_find?_eq_some hf
    have hp := List.find?_some hf
    simp only [Bool.and_eq_true, beq_iff_eq, Bool.not_eq_true', ] at hp
    exact absurd ⟨u, hm, hp.1, hp.2⟩ h

theorem userExists_of_hasUser {s : Service} {username : String} (hname : username ≠ "")
    (h : s.db.hasUser username) : userExists s username = (true, none) := by
  obtain ⟨u, hu⟩ := GetUser_of_hasUser h
  simp [userExists, hname, hu]

theorem userExists_of_not_hasUser {s : Service} {username : String} (hname : username ≠ "")
    (h : ¬ s.db.hasUser username) :
    userExists s username = (false, some Err.ErrUnauthenticated) := by
  simp [userExists, hname, GetUser_of_not_hasUser h]

/-- C13: for a non-empty username and a request that carries the admin key
header alone, `ValidateUserCredentials` and `ValidateWalletCredentials`
(1) with the configured admin key succeed, returning the username, when a
user of that name is in the store; (2) with the configured admin key fail
with `ErrUnauthenticated` when no user of that name is in the store; (3) with
any other admin key fail with `ErrUnauthenticated`, whether or not the user is
in the store.  The service is left as it was in every case. -/
theorem C13_admin_key_requires_user (s : Service) (username key walletId : String)
    (hname : username ≠ "") :
    (key = s.xlnApiKey → s.db.hasUser username →
      ValidateUserCredentials s (some (adminKeyRequest username key)) = ⟨username, none, s⟩ ∧
      ValidateWalletCredentials s (some (adminKeyRequest username key)) walletId =
        ⟨username, none, s⟩) ∧
    (key = s.xlnApiKey → ¬ s.db.hasUser username →
      ValidateUserCredentials s (some (adminKeyRequest username key)) =
        ⟨username, some Err.ErrUnauthenticated, s⟩ ∧
      ValidateWalletCredentials s (some (adminKeyRequest username key)) walletId =
        ⟨username, some Err.ErrUnauthenticated, s⟩) ∧
    (key ≠ s.xlnApiKey →
      ValidateUserCredentials s (some (adminKeyRequest username key)) =
        ⟨username, some Err.ErrUnauthenticated, s⟩ ∧
      ValidateWalletCredentials s (some (adminKeyRequest username key)) walletId =
        ⟨username, some Err.ErrUnauthenticated, s⟩) := by
  refine ⟨?_, ?_, ?_⟩
  · intro hk hu
    subst hk
    simp [ValidateUserCredentials, ValidateWalletCredentials, adminKeyRequest, getStringHeader,
      getApiKey, userExists_of_hasUser hname hu]
  · intro hk hu
    subst hk
    simp [ValidateUserCredentials, ValidateWalletCredentials, adminKeyRequest, getStringHeader,
      getApiKey, userExists_of_not_hasUser hname hu]
  · intro hk
    have hk' : ¬ s.xlnApiKey = key := fun h => hk h.symm
    simp [ValidateUserCredentials, ValidateWalletCredentials, adminKeyRequest, getStringHeader,
      getApiKey, hk']

/-- Witness for C13: with the admin key, Alice's name is accepted by both
validators, and the name of a user that is not in the store is refused. -/
theorem C13_admin_key_requires_user_witness :
    (ValidateUserCredentials serviceTwoMain (some (adminKeyRequest "alice" "admin-key")) =
        ⟨"alice", none, serviceTwoMain⟩ ∧
      ValidateWalletCredentials serviceTwoMain (some (adminKeyRequest "alice" "admin-key")) "main" =
        ⟨"alice", none, serviceTwoMain⟩) ∧
    (ValidateUserCredentials serviceTwoMain (some (adminKeyRequest "zoe" "admin-key")) =
        ⟨"zoe", some Err.ErrUnauthenticated, serviceTwoMain⟩ ∧
      ValidateWalletCredentials serviceTwoMain (some (adminKeyRequest "zoe" "admin-key")) "main" =
        ⟨"zoe", some Err.ErrUnauthenticated, serviceTwoMain⟩) :=
  ⟨(C13_admin_key_requires_user serviceTwoMain "alice" "admin-key" "main" (by decide)).1 rfl
      (by decide),
   (C13_admin_key_requires_user serviceTwoMain "zoe" "admin-key" "main" (by decide)).2.1 rfl
      (by decide)⟩

/-! ## C14 -/

theorem KeyCache.get_some {c : KeyCache} {k v : String} (h : c.get k = some v) :
    (k, v) ∈ c := by
  unfold KeyCache.get at h
  cases hf : c.find? (fun e => e.1 == k) with
  | none => simp [hf] at h
  | some e =>
    simp only [hf, Option.map_some', Option.some.injEq] at h
    have hm := List.mem_of_find?_eq_some hf
    have hp := List.find?_some hf
    simp only [beq_iff_eq] at hp
    rw [← hp, ← h]
    exact hm

/-- The refusal of `userKeyMatchesUser`: every key that is empty or is not the key on
record for the username. -/
theorem userKeyMatchesUser_onRecord {s : Service} {username key : String}
    (hkey : key = "" ∨ s.userKeyOnRecord username ≠ some key) :
    (userKeyMatchesUser s username key).1 = false := by
  unfold userKeyMatchesUser
  by_cases hk : key = ""
  · simp [hk]
  · have hne : s.userKeyOnRecord username ≠ some key := hkey.resolve_left hk
    rw [if_neg hk]
    unfold Service.userKeyOnRecord at hne
    cases hget : s.userKeys.get username with
    | some apiKey =>
      rw [hget] at hne
      simpa using hne
    | none =>
      rw [hget] at hne
      unfold storedUserKey at hne
      cases hu : GetUser s.db username with
      | error e => rfl
      | ok u =>
        rw [hu] at hne
        simpa using hne

/-- With a cache that holds only keys of stored users, the key on record is
the key of the stored user whenever that user has one. -/
theorem userKeyOnRecord_of_coherent {s : Service} {username key : String}
    (hcoh : s.userKeysCoherent) (hkey : storedUserKey s.db username ≠ some key) :
    s.userKeyOnRecord username ≠ some key := by
  unfold Service.userKeyOnRecord
  cases hget : s.userKeys.get username with
  | some apiKey =>
    have hc := hcoh _ (KeyCache.get_some hget)
    simp only at hc
    rw [hc] at hkey
    exact hkey
  | none => exact hkey

/-- C14 (amended): `ValidateUserCredentials` on a request that carries one
key header, for every state of the service.  (1) A wallet key fails with
`ErrInvalidHeaderFormat`.  (2) An admin key other than the configured one
fails with `ErrUnauthenticated`.  (3) A user key that is empty, or that is not
the key on record for the username (the entry of the user-key cache for the
username if there is one, otherwise the key of the stored user; no entry and
no such user: no key), fails with `ErrUnauthenticated`.  (4) In particular,
while the cache holds only keys of stored users, a user key that is empty or
is not the key of the stored user fails with `ErrUnauthenticated`.  The
username of the request is returned in each case. -/
theorem C14_user_credentials_rejected (s : Service) (username key : String) :
    ValidateUserCredentials s (some (walletKeyRequest username key)) =
      ⟨username, some Err.ErrInvalidHeaderFormat, s⟩ ∧
    (key ≠ s.xlnApiKey →
      ValidateUserCredentials s (some (adminKeyRequest username key)) =
        ⟨username, some Err.ErrUnauthenticated, s⟩) ∧
    (key = "" ∨ s.userKeyOnRecord username ≠ some key →
      (ValidateUserCredentials s (some (userKeyRequest username key))).err =
          some Err.ErrUnauthenticated ∧
        (ValidateUserCredentials s (some (userKeyRequest username key))).username = username) ∧
    (s.userKeysCoherent → key = "" ∨ storedUserKey s.db username ≠ some key →
      (ValidateUserCredentials s (some (userKeyRequest username key))).err =
          some Err.ErrUnauthenticated ∧
        (ValidateUserCredentials s (some (userKeyRequest username key))).username = username) := by
  have h3 : key = "" ∨ s.userKeyOnRecord username ≠ some key →
      (ValidateUserCredentials s (some (userKeyRequest username key))).err =
          some Err.ErrUnauthenticated ∧
        (ValidateUserCredentials s (some (userKeyRequest username key))).username =
          username := by
    intro hkey
    have hm := @userKeyMatchesUser_onRecord s username key hkey
    simp only [ValidateUserCredentials, userKeyRequest, getStringHeader, getApiKey]
    cases hr : userKeyMatchesUser s username key with
    | mk b s1 =>
      rw [hr] at hm
      simp only at hm
      subst hm
      exact ⟨rfl, rfl⟩
  refine ⟨?_, ?_, h3, ?_⟩
  · simp [ValidateUserCredentials, walletKeyRequest, getStringHeader, getApiKey]
  · intro hk
    have hk' : ¬ s.xlnApiKey = key := fun h => hk h.symm
    simp [ValidateUserCredentials, adminKeyRequest, getStringHeader, getApiKey, hk']
  · intro hcoh hkey
    exact h3 (hkey.imp id (userKeyOnRecord_of_coherent hcoh))

/-- Witness for C14: with Alice's key in the cache, a wallet key presented
for Alice is refused as a header format error, a wrong admin key and Bob's
user key presented for Alice are refused as unauthenticated; with an empty
cache Bob's user key presented for Alice is refused as well. -/
theorem C14_user_credentials_rejected_witness :
    ValidateUserCredentials serviceWarm (some (walletKeyRequest "alice" "bob-user-key")) =
      ⟨"alice", some Err.ErrInvalidHeaderFormat, serviceWarm⟩ ∧
    ValidateUserCredentials serviceWarm (some (adminKeyRequest "alice" "bob-user-key")) =
      ⟨"alice", some Err.ErrUnauthenticated, serviceWarm⟩ ∧
    ((ValidateUserCredentials serviceWarm (some (userKeyRequest "alice" "bob-user-key"))).err =
        some Err.ErrUnauthenticated ∧
      (ValidateUserCredentials serviceWarm
        (some (userKeyRequest "alice" "bob-user-key"))).username = "alice") ∧
    ((ValidateUserCredentials serviceTwoMain (some (userKeyRequest "alice" "bob-user-key"))).err =
        some Err.ErrUnauthenticated ∧
      (ValidateUserCredentials serviceTwoMain
        (some (userKeyRequest "alice" "bob-user-key"))).username = "alice") :=
  ⟨(C14_user_credentials_rejected serviceWarm "alice" "bob-user-key").1,
   (C14_user_credentials_rejected serviceWarm "alice" "bob-user-key").2.1 (by decide),
   (C14_user_credentials_rejected serviceWarm "alice" "bob-user-key").2.2.1
     (Or.inr (by decide)),
   (C14_user_credentials_rejected serviceTwoMain "alice" "bob-user-key").2.2.2
     (by decide) (Or.inr (by decide))⟩

/-- Counterexample to C14 as stated.  Alice's wallet key presented to
`ValidateUserCredentials` fails with `ErrInvalidHeaderFormat`, which is not
`ErrUnauthenticated`.  After Alice has authenticated with her user key and
has then been deleted, no user `alice` is in the store, and her former key,
still in the user-key cache, is accepted. -/
theorem C14_user_credentials_rejected_counterexample :
    (ValidateUserCredentials serviceTwoMain
        (some (walletKeyRequest "alice" "alice-main-key"))).err =
      some Err.ErrInvalidHeaderFormat ∧
    (ValidateUserCredentials serviceTwoMain
        (some (walletKeyRequest "alice" "alice-main-key"))).err ≠
      some Err.ErrUnauthenticated ∧
    (userKeyMatchesUser serviceTwoMain "alice" "alice-user-key").2 = serviceWarm ∧
    (Users.DeleteUser serviceWarm.db "alice").1 = none ∧
    GetUser serviceStale.db "alice" = .error Err.ErrUserNotFound ∧
    ValidateUserCredentials serviceStale (some (userKeyRequest "alice" "alice-user-key")) =
      ⟨"alice", none, serviceStale⟩ := by
  refine ⟨by decide, by decide, by decide, by decide, by decide, by decide⟩

/-! ## C11 -/

/-- Under the primary key, a row of the table is the one `find?` returns for its key. -/
theorem find?_isWallet_of_mem {s : Store} (hpk : s.walletKeysUnique) {w : Wallet}
    (hw : w ∈ s.wallets) : s.wallets.find? (isWallet w.username w.id) = some w := by
  have hself : isWallet w.username w.id w = true := (isWallet_iff _ _ _).2 ⟨rfl, rfl⟩
  cases hf : s.wallets.find? (isWallet w.username w.id) with
  | none =>
    rw [List.find?_eq_none] at hf
    exact absurd hself (hf w hw)
  | some x => rw [eq_of_isWallet hpk hf hw hself]

theorem LockWalletRecordForUpdate_locked {s : Store} (hpk : s.walletKeysUnique) {w : Wallet}
    (hw : w ∈ s.wallets) (hl : w.locked = true) :
    LockWalletRecordForUpdate s w.username w.id = .error Err.ErrCannotUpdateLockedWallet := by
  unfold LockWalletRecordForUpdate
  rw [find?_isWallet_of_mem hpk hw]
  simp [hl]

theorem dbTransaction_of_error {α : Type} (commit : Option Err) (s : Store)
    {fc : Store → Except Err (α × Store)} {e : Err} (h : fc s = .error e) :
    dbTransaction commit s fc = (.error e, s) := by
  simp [dbTransaction, h]

theorem transferTx_locked {f : TransferFaults} {u a b : String} {amount : Nat} {s : Store}
    (h : LockWalletRecordForUpdate s u a = .error Err.ErrCannotUpdateLockedWallet ∨
      LockWalletRecordForUpdate s u b = .error Err.ErrCannotUpdateLockedWallet) :
    ∃ e, transferTx f u a b amount s = .error e := by
  unfold transferTx
  simp only [bind, Except.bind, isUpdatable]
  cases h1 : orFault f.lockFrom (LockWalletRecordForUpdate s u a) with
  | error e => exact ⟨e, rfl⟩
  | ok wf =>
    cases h2 : orFault f.lockTo (LockWalletRecordForUpdate s u b) with
    | error e => exact ⟨e, rfl⟩
    | ok wt =>
      rcases h with h | h
      · rw [h] at h1
        exact absurd (orFault_ok h1).2 (by simp)
      · rw [h] at h2
        exact absurd (orFault_ok h2).2 (by simp)

theorem Transfer_rejected {f : TransferFaults} {s : Store} {u a b : String} {amount : Nat}
    (h : ∃ e, transferTx f u a b amount s = .error e) :
    ∃ e, Transfer f s u a b amount = ⟨none, some e, s⟩ := by
  obtain ⟨e, he⟩ := h
  unfold Transfer
  split
  · exact ⟨_, rfl⟩
  · split
    · exact ⟨_, rfl⟩
    · split
      · exact ⟨_, rfl⟩
      · split
        · exact ⟨_, rfl⟩
        · rw [dbTransaction_of_error f.commit s he]
          simp only
          split <;> exact ⟨_, rfl⟩

theorem GetConfirmedBalance_locked {s : Store} (hpk : s.walletKeysUnique) {w : Wallet}
    (hw : w ∈ s.wallets) (hl : w.locked = true) :
    GetConfirmedBalance s w.username w.id =
      .error (Err.Reason MsgGetConfirmedBalanceFailed Err.ErrCannotUpdateLockedWallet) := by
  unfold GetConfirmedBalance
  rw [LockWalletRecordForUpdate_locked hpk hw hl]

theorem finalizeInvoice_halves (m : Manager) (invoice : LnInvoice) :
    finalizeInvoice m invoice =
      match lookupPendingInvoice m invoice.rHash with
      | none => some m
      | some (pendingInvoice, m) => settlePendingInvoice m pendingInvoice invoice := rfl

theorem finalizePayment_halves (env : Env) (m : Manager) (paymentHash : String) (success : Bool)
    (feesPaid : Int) :
    finalizePayment env m paymentHash success feesPaid =
      match lookupPendingPayment m paymentHash with
      | none => none
      | some (pendingPayment, m) =>
        settlePendingPayment env m pendingPayment paymentHash success feesPaid := rfl

theorem relock_key (locks : String → String → Bool) (w : Wallet) :
    (w.relock locks).key = w.key := rfl

theorem GetWallet_withLocks (locks : String → String → Bool) (s : Store) (u i : String) :
    GetWallet (s.withLocks locks) u i = (GetWallet s u i).map (Wallet.relock locks) := by
  unfold GetWallet Store.withLocks
  simp only
  rw [find?_isWallet_map _ _ (relock_key locks)]
  cases s.wallets.find? (isWallet u i) <;> rfl

theorem lookupPendingInvoice_withLocks (locks : String → String → Bool) (m : Manager)
    (h : String) :
    lookupPendingInvoice (m.withLocks locks) h =
      (lookupPendingInvoice m h).map fun r => (r.1, r.2.withLocks locks) := by
  unfold lookupPendingInvoice
  have hc : (m.withLocks locks).pendingInvoiceCache = m.pendingInvoiceCache := rfl
  have hg : GetPendingInvoice (m.withLocks locks).db h = GetPendingInvoice m.db h := rfl
  rw [hc, hg]
  cases m.pendingInvoiceCache.find? (fun pi => pi.paymentHash == h) with
  | some pi => rfl
  | none =>
    simp only
    cases GetPendingInvoice m.db h <;> rfl

theorem lookupPendingPayment_withLocks (locks : String → String → Bool) (m : Manager)
    (h : String) :
    lookupPendingPayment (m.withLocks locks) h =
      (lookupPendingPayment m h).map fun r => (r.1, r.2.withLocks locks) := by
  unfold lookupPendingPayment
  have hc : (m.withLocks locks).pendingPaymentCache = m.pendingPaymentCache := rfl
  have hg : GetPendingPayment (m.withLocks locks).db h = GetPendingPayment m.db h := rfl
  rw [hc, hg]
  cases m.pendingPaymentCache.find? (fun pp => pp.paymentHash == h) with
  | some pp => rfl
  | none =>
    simp only
    cases GetPendingPayment m.db h <;> rfl

theorem settlePendingInvoice_withLocks (locks : String → String → Bool) (m : Manager)
    (pending : PendingInvoice) (invoice : LnInvoice) :
    settlePendingInvoice (m.withLocks locks) pending invoice =
      (settlePendingInvoice m pending invoice).map (Manager.withLocks locks) := by
  unfold settlePendingInvoice dbTransaction
  have hdb : (m.withLocks locks).db = m.db.withLocks locks := rfl
  simp only [hdb, GetWallet_withLocks, CreateTransaction]
  by_cases hs : invoice.state ≠ InvoiceState.SETTLED
  · simp only [if_pos hs]
    rfl
  · simp only [if_neg hs]
    cases hw : GetWallet m.db pending.walletUsername pending.walletID with
    | error e => rfl
    | ok wal =>
      simp only [Except.map, Option.map, Manager.withLocks, Store.withLocks, List.map_map]
      congr 3
      apply List.map_congr_left
      intro w _
      simp only [Function.comp, Wallet.relock]
      have hi : isWallet wal.username wal.id { w with locked := locks w.username w.id } =
          isWallet wal.username wal.id w := rfl
      rw [hi]
      by_cases hw' : isWallet wal.username wal.id w = true
      · simp only [if_pos hw']
      · simp only [if_neg hw']

theorem DeletePendingPayment_withLocks (locks : String → String → Bool) (s : Store)
    (pp : PendingPayment) :
    DeletePendingPayment (s.withLocks locks) pp =
      (DeletePendingPayment s pp).map (Store.withLocks locks) := by
  unfold DeletePendingPayment
  have hp : (s.withLocks locks).pendingPayments = s.pendingPayments := rfl
  rw [hp]
  split <;> rfl

theorem DecrementWalletBalance_withLocks (locks : String → String → Bool) (s : Store)
    (u i : String) (d : Nat) :
    DecrementWalletBalance (s.withLocks locks) u i d =
      (DecrementWalletBalance s u i d).map (Store.withLocks locks) := by
  unfold DecrementWalletBalance
  have hp : (s.withLocks locks).pendingPayments = s.pendingPayments := rfl
  have hw : (s.withLocks locks).wallets = s.wallets.map (Wallet.relock locks) := rfl
  simp only [hp, hw, List.any_map, List.map_map]
  have hsel : ∀ (min : Nat) (w : Wallet),
      (isWallet u i (w.relock locks) && decide ((min : Int) ≤ (w.relock locks).balance)) =
        (isWallet u i w && decide ((min : Int) ≤ w.balance)) := fun _ _ => rfl
  split
  · next hany =>
    rw [if_pos (by simpa [Function.comp, hsel] using hany)]
    simp only [Except.map, Store.withLocks, List.map_map]
    congr 2
    apply List.map_congr_left
    intro w _
    simp only [Function.comp, hsel]
    split <;> rfl
  · next hany =>
    rw [if_neg (by simpa [Function.comp, hsel] using hany)]
    rfl

theorem settlePendingPaymentTx_withLocks (locks : String → String → Bool) (env : Env)
    (pp : PendingPayment) (h : String) (success : Bool) (feesPaid : Int) (s : Store) :
    settlePendingPaymentTx env pp h success feesPaid (s.withLocks locks) =
      (settlePendingPaymentTx env pp h success feesPaid s).map
        fun r => (r.1, r.2.withLocks locks) := by
  unfold settlePendingPaymentTx
  simp only [bind, Except.bind, DeletePendingPayment_withLocks]
  cases DeletePendingPayment s pp with
  | error e => rfl
  | ok s1 =>
    simp only [Except.map]
    cases success with
    | false => rfl
    | true =>
      simp only [Bool.not_true, Bool.false_eq_true, if_false, DecrementWalletBalance_withLocks]
      cases DecrementWalletBalance s1 pp.walletUsername pp.walletID
          (subU64 pp.amount (toUint64 feesPaid)) with
      | error e => rfl
      | ok s2 => rfl

theorem settlePendingPayment_withLocks (locks : String → String → Bool) (env : Env)
    (m : Manager) (pp : PendingPayment) (h : String) (success : Bool) (feesPaid : Int) :
    settlePendingPayment env (m.withLocks locks) pp h success feesPaid =
      (settlePendingPayment env m pp h success feesPaid).map (Manager.withLocks locks) := by
  unfold settlePendingPayment dbTransaction
  have hdb : (m.withLocks locks).db = m.db.withLocks locks := rfl
  rw [hdb, settlePendingPaymentTx_withLocks]
  cases settlePendingPaymentTx env pp h success feesPaid m.db with
  | error e => rfl
  | ok r => rfl

/-- The outcome of `finalizeInvoice` does not depend on the `Locked` flags. -/
theorem finalizeInvoice_withLocks (locks : String → String → Bool) (m : Manager)
    (invoice : LnInvoice) :
    finalizeInvoice (m.withLocks locks) invoice =
      (finalizeInvoice m invoice).map (Manager.withLocks locks) := by
  rw [finalizeInvoice_halves, finalizeInvoice_halves, lookupPendingInvoice_withLocks]
  cases lookupPendingInvoice m invoice.rHash with
  | none => rfl
  | some r => exact settlePendingInvoice_withLocks locks r.2 r.1 invoice

/-- The outcome of `finalizePayment` does not depend on the `Locked` flags. -/
theorem finalizePayment_withLocks (locks : String → String → Bool) (env : Env) (m : Manager)
    (paymentHash : String) (success : Bool) (feesPaid : Int) :
    finalizePayment env (m.withLocks locks) paymentHash success feesPaid =
      (finalizePayment env m paymentHash success feesPaid).map (Manager.withLocks locks) := by
  rw [finalizePayment_halves, finalizePayment_halves, lookupPendingPayment_withLocks]
  cases lookupPendingPayment m paymentHash with
  | none => rfl
  | some r => exact settlePendingPayment_withLocks locks env r.2 r.1 paymentHash success feesPaid

/-- C11 (amended): for a locked wallet row `w` of the store (the wallets
table respecting its primary key):
(1) every `Transfer` from it or to it, whatever the amount, the other wallet
and the storage failures, returns an error and leaves the store as it was;
(2) a self-payment that would debit it returns the error of
`GetConfirmedBalance` on a locked wallet and leaves the manager as it was;
(3) every `UpdateWalletOptions` on it that does not carry `Locked = false`
returns an error (`ErrCannotUpdateLockedWallet`, or the refusal to rename a
main wallet) and leaves the store as it was;
(4) an `UpdateWalletOptions` on it that carries `Locked = false` and does not
rename a main wallet is applied in full, a `Balance` it carries included;
(5) `finalizeInvoice` and (6) `finalizePayment` do not depend on the `Locked`
flags: with the flags of the wallets set in any other way beforehand, the
call halts or returns as it does on the manager as it is, and leaves the same
manager but for those flags. -/
theorem C11_locked_wallet_rejects (env : Env) (m : Manager) (w : Wallet)
    (hpk : m.db.walletKeysUnique) (hw : w ∈ m.db.wallets) (hl : w.locked = true) :
    (∀ (f : TransferFaults) (other : String) (amount : Nat),
      (∃ e, Transfer f m.db w.username w.id other amount = ⟨none, some e, m.db⟩) ∧
      (∃ e, Transfer f m.db w.username other w.id amount = ⟨none, some e, m.db⟩)) ∧
    (∀ (rUsername rId payHash : String) (amount : Int),
      handleSelfPayments env m w.username w.id rUsername rId payHash amount =
        (some (Err.Reason MsgGetConfirmedBalanceFailed Err.ErrCannotUpdateLockedWallet), m)) ∧
    (∀ walletOptions : WalletOptions, walletOptions.locked ≠ some false →
      Wallets.UpdateWalletOptions m.db w.username w.id walletOptions =
          (some Err.ErrCannotUpdateLockedWallet, m.db) ∨
        Wallets.UpdateWalletOptions m.db w.username w.id walletOptions =
          (some (Err.New "Cannot edit the name of the main wallet"), m.db)) ∧
    (∀ walletOptions : WalletOptions, walletOptions.locked = some false →
      renamesMainWallet w.username w.id walletOptions = false →
      Wallets.UpdateWalletOptions m.db w.username w.id walletOptions =
        (none, { m.db with
          wallets := m.db.wallets.map (optionsRow w.username w.id walletOptions) })) ∧
    (∀ (locks : String → String → Bool) (invoice : LnInvoice),
      finalizeInvoice (m.withLocks locks) invoice =
        (finalizeInvoice m invoice).map (Manager.withLocks locks)) ∧
    (∀ (locks : String → String → Bool) (paymentHash : String) (success : Bool)
        (feesPaid : Int),
      finalizePayment env (m.withLocks locks) paymentHash success feesPaid =
        (finalizePayment env m paymentHash success feesPaid).map (Manager.withLocks locks)) := by
  have hlock := LockWalletRecordForUpdate_locked hpk hw hl
  refine ⟨?_, ?_, ?_, ?_, ?_, ?_⟩
  · intro f other amount
    exact ⟨Transfer_rejected (transferTx_locked (Or.inl hlock)),
      Transfer_rejected (transferTx_locked (Or.inr hlock))⟩
  · intro rUsername rId payHash amount
    unfold handleSelfPayments dbTransaction
    simp only [bind, Except.bind, GetConfirmedBalance_locked hpk hw hl]
  · intro walletOptions hopt
    unfold Wallets.UpdateWalletOptions
    split
    · exact Or.inr rfl
    · left
      simp [dbTransaction, isUpdatable, hlock, hopt]
  · intro walletOptions hopt hren
    have hany : m.db.wallets.any (isWallet w.username w.id) = true :=
      List.any_eq_true.2 ⟨w, hw, (isWallet_iff _ _ _).2 ⟨rfl, rfl⟩⟩
    unfold renamesMainWallet at hren
    have hren' : ¬ (match walletOptions.name with
        | some name => decide (name ≠ "") && decide (w.id = w.username)
        | none => false) = true := by
      rw [hren]
      exact Bool.false_ne_true
    unfold Wallets.UpdateWalletOptions
    rw [if_neg hren']
    simp [dbTransaction, isUpdatable, hlock, hopt, Xln.UpdateWalletOptions, hany]
  · intro locks invoice
    exact finalizeInvoice_withLocks locks m invoice
  · intro locks paymentHash success feesPaid
    exact finalizePayment_withLocks locks env m paymentHash success feesPaid

/-- Witness for C11.  On Alice's locked wallet in `storeLocked`: a transfer of
10 to or from her wallet `savings`, a self-payment of 100 from it and an
update setting its balance to 7 are refused; an update that unlocks it and
sets its balance to 7 is applied.  On her locked wallet with an invoice of
5000 pending, and with a payment of 50 in flight: the settlement and the
finalization do on the locked wallet what they do on the unlocked one, the
credit of 5000 and the debit of 50. -/
theorem C11_locked_wallet_rejects_witness :
    managerLocked.db.walletKeysUnique ∧ walletLockedAlice ∈ managerLocked.db.wallets ∧
    walletLockedAlice.locked = true ∧
    ((∃ e, Transfer {} managerLocked.db "alice" "alice" "savings" 10 =
        ⟨none, some e, managerLocked.db⟩) ∧
      (∃ e, Transfer {} managerLocked.db "alice" "savings" "alice" 10 =
        ⟨none, some e, managerLocked.db⟩)) ∧
    handleSelfPayments envPlain managerLocked "alice" "alice" "bob" "bob" "inv1" 100 =
      (some (Err.Reason MsgGetConfirmedBalanceFailed Err.ErrCannotUpdateLockedWallet),
        managerLocked) ∧
    (Wallets.UpdateWalletOptions managerLocked.db "alice" "alice" { balance := some 7 } =
        (some Err.ErrCannotUpdateLockedWallet, managerLocked.db) ∨
      Wallets.UpdateWalletOptions managerLocked.db "alice" "alice" { balance := some 7 } =
        (some (Err.New "Cannot edit the name of the main wallet"), managerLocked.db)) ∧
    Wallets.UpdateWalletOptions managerLocked.db "alice" "alice"
        { locked := some false, balance := some 7 } =
      (none, { managerLocked.db with
        wallets := managerLocked.db.wallets.map
          (optionsRow "alice" "alice" { locked := some false, balance := some 7 }) }) ∧
    (managerLockedInvoice.withLocks (fun _ _ => false) = managerAliceInvoice ∧
      finalizeInvoice (managerLockedInvoice.withLocks fun _ _ => false) eventSettled =
        (finalizeInvoice managerLockedInvoice eventSettled).map
          (Manager.withLocks fun _ _ => false)) ∧
    (managerLockedPayment.withLocks (fun _ _ => false) = managerPayment ∧
      finalizePayment envPlain (managerLockedPayment.withLocks fun _ _ => false) "out1" true 0 =
        (finalizePayment envPlain managerLockedPayment "out1" true 0).map
          (Manager.withLocks fun _ _ => false)) :=
  ⟨by decide, by decide, rfl,
   (C11_locked_wallet_rejects envPlain managerLocked walletLockedAlice (by decide) (by decide)
      rfl).1 {} "savings" 10,
   (C11_locked_wallet_rejects envPlain managerLocked walletLockedAlice (by decide) (by decide)
      rfl).2.1 "bob" "bob" "inv1" 100,
   (C11_locked_wallet_rejects envPlain managerLocked walletLockedAlice (by decide) (by decide)
      rfl).2.2.1 { balance := some 7 } (by decide),
   (C11_locked_wallet_rejects envPlain managerLocked walletLockedAlice (by decide) (by decide)
      rfl).2.2.2.1 { locked := some false, balance := some 7 } rfl rfl,
   ⟨by decide,
    (C11_locked_wallet_rejects envPlain managerLockedInvoice
      { id := "alice", username := "alice", balance := 0, locked := true } (by decide)
      (by decide) rfl).2.2.2.2.1 (fun _ _ => false) eventSettled⟩,
   ⟨by decide,
    (C11_locked_wallet_rejects envPlain managerLockedPayment
      { id := "alice", username := "alice", balance := 1000, locked := true } (by decide)
      (by decide) rfl).2.2.2.2.2 (fun _ _ => false) "out1" true 0⟩⟩

/-- Counterexample to C11 as stated, on locked wallets.  The settlement of
Alice's invoice of 5000 credits her locked wallet from 0 to 5000; the
finalization of her succeeded payment of 50 debits her locked wallet from
1000 to 950; the self-payment by Alice of Bob's invoice of 100 credits Bob's
locked wallet from 0 to 100.  None is rejected.  On Alice's locked main
wallet, an update that carries `Locked = false`, the name `vault` and the
balance 7 is refused as the renaming of a main wallet. -/
theorem C11_locked_wallet_rejects_counterexample :
    (finalizeInvoice managerLockedInvoice eventSettled).map (fun m => m.db.wallets) =
      some [{ id := "alice", username := "alice", balance := 5000, locked := true }] ∧
    (finalizePayment envPlain managerLockedPayment "out1" true 0).map (fun m => m.db.wallets) =
      some [{ id := "alice", username := "alice", balance := 950, locked := true }] ∧
    (payInvoice envPlain managerLockedRecipient walletAlice "pr"
        { numMsat := 100, paymentHash := "inv1" } 100 false).map
        (fun r => (r.1, r.2.db.wallets)) =
      some (⟨some { success := true, amountMsat := 100 }, none⟩,
        [{ id := "alice", username := "alice", balance := 900 },
         { id := "bob", username := "bob", balance := 100, locked := true }]) ∧
    Wallets.UpdateWalletOptions managerLocked.db "alice" "alice"
        { name := some "vault", locked := some false, balance := some 7 } =
      (some (Err.New "Cannot edit the name of the main wallet"), managerLocked.db) := by
  refine ⟨by decide, by decide, by decide, by decide⟩

/-! ## C23 -/

theorem User.BeforeCreate_named (fresh : Fresh) {username : String} (hname : username ≠ "") :
    User.BeforeCreate fresh { username := if username ≠ "" then username else "" } =
      createdUser fresh username := by
  simp [User.BeforeCreate, createdUser, hname]

theorem Wallet.BeforeCreate_default (fresh : Fresh) {username : String} (hname : username ≠ "") :
    Wallet.BeforeCreate fresh { id := username, name := some username, username := username } =
      defaultWallet fresh username := by
  simp [Wallet.BeforeCreate, defaultWallet, hname]

theorem CreateUser_named (s : Store) (fresh : Fresh) {username : String} (hname : username ≠ "") :
    Xln.CreateUser s fresh { username := if username ≠ "" then username else "" } =
      if s.userClash (createdUser fresh username) then
        .error (Err.New "failed to create user. Reason: user with that username already exists")
      else .ok (createdUser fresh username,
        { s with users := s.users ++ [createdUser fresh username] }) := by
  unfold Xln.CreateUser
  rw [User.BeforeCreate_named fresh hname]
  rfl

theorem CreateWallet_default (s : Store) (fresh : Fresh) {username : String}
    (hname : username ≠ "") :
    Xln.CreateWallet s fresh { id := username, name := some username, username := username } =
      if s.walletClash (defaultWallet fresh username) then
        .error (Err.New "failed to create wallet. Reason: wallet with that id already exists")
      else .ok (defaultWallet fresh username,
        { s with wallets := s.wallets ++ [defaultWallet fresh username] }) := by
  unfold Xln.CreateWallet
  rw [Wallet.BeforeCreate_default fresh hname]
  rfl

/-- What `CreateUser` of the user manager returns for a non-empty username,
by the rows the store already holds. -/
theorem Users.CreateUser_cases (s : Store) (freshUser freshWallet : Fresh) {username : String}
    (hname : username ≠ "") :
    Users.CreateUser s freshUser freshWallet username =
      if s.userClash (createdUser freshUser username) then
        (.error (Err.New "failed to create user. Reason: user with that username already exists"),
          s)
      else if s.walletClash (defaultWallet freshWallet username) then
        (.error (Err.New "failed to create wallet. Reason: wallet with that id already exists"),
          s)
      else
        (.ok (createdUser freshUser username, [defaultWallet freshWallet username]),
          { s with users := s.users ++ [createdUser freshUser username],
                   wallets := s.wallets ++ [defaultWallet freshWallet username] }) := by
  unfold Users.CreateUser dbTransaction
  simp only [CreateUser_named _ freshUser hname, CreateWallet_default _ freshWallet hname]
  cases hu : s.userClash (createdUser freshUser username)
  · have hw' : ∀ users : List User, Store.walletClash
        { s with users := users } (defaultWallet freshWallet username) =
        s.walletClash (defaultWallet freshWallet username) := fun _ => rfl
    simp only [Bool.false_eq_true, if_false, hw']
    cases hw : s.walletClash (defaultWallet freshWallet username)
    · simp only [Bool.false_eq_true, if_false]
    · simp only [if_true]
  · simp only [if_true]

/-- A username that `ValidateUsername` lets through, as the server requires
before it calls `CreateUser`, is not empty. -/
theorem ValidateUsername_ne_empty {name : String} (h : ValidateUsername name = none) :
    name ≠ "" := by
  intro hname
  subst hname
  unfold ValidateUsername at h
  rw [if_pos rfl] at h
  cases h

/-- C23: for every non-empty username, every store and whatever the hooks
generate.
(1) A successful `CreateUser` has written the user row of that username and
exactly one wallet row, the wallet whose id is the username and whose owner is
the user, and returns the user carrying that one wallet.
(2) When the store takes the user row and refuses the wallet row,
`CreateUser` returns the error of the wallet creation and the store is as it
was: no user row remains.
(3) When the store refuses neither row, `CreateUser` succeeds.
(4) Whenever `CreateUser` returns an error the store is as it was.
The server calls `CreateUser` only with a username that `ValidateUsername`
has let through, which is not empty. -/
theorem C23_create_user_default_wallet (s : Store) (freshUser freshWallet : Fresh)
    (username : String) (hname : username ≠ "") :
    (∀ (user : User) (wallets : List Wallet) (s' : Store),
      Users.CreateUser s freshUser freshWallet username = (.ok (user, wallets), s') →
        user = createdUser freshUser username ∧ user.username = username ∧
        wallets = [defaultWallet freshWallet username] ∧
        (defaultWallet freshWallet username).id = user.username ∧
        (defaultWallet freshWallet username).username = user.username ∧
        s'.users = s.users ++ [user] ∧ s'.wallets = s.wallets ++ wallets ∧
        s' = { s with users := s'.users, wallets := s'.wallets }) ∧
    (s.userClash (createdUser freshUser username) = false →
      s.walletClash (defaultWallet freshWallet username) = true →
      Users.CreateUser s freshUser freshWallet username =
        (.error (Err.New "failed to create wallet. Reason: wallet with that id already exists"),
          s)) ∧
    (s.userClash (createdUser freshUser username) = false →
      s.walletClash (defaultWallet freshWallet username) = false →
      Users.CreateUser s freshUser freshWallet username =
        (.ok (createdUser freshUser username, [defaultWallet freshWallet username]),
          { s with users := s.users ++ [createdUser freshUser username],
                   wallets := s.wallets ++ [defaultWallet freshWallet username] })) ∧
    (∀ (err : Err) (s' : Store),
      Users.CreateUser s freshUser freshWallet username = (.error err, s') → s' = s) := by
  have hc := Users.CreateUser_cases s freshUser freshWallet hname
  refine ⟨?_, ?_, ?_, ?_⟩
  · intro user wallets s' h
    rw [hc] at h
    split at h
    · simp at h
    · split at h
      · simp at h
      · simp only [Prod.mk.injEq, Except.ok.injEq] at h
        obtain ⟨⟨hu, hw⟩, hs⟩ := h
        subst hu hw hs
        exact ⟨rfl, rfl, rfl, rfl, rfl, rfl, rfl, rfl⟩
  · intro hu hw
    rw [hc, hu, hw]
    rfl
  · intro hu hw
    rw [hc, hu, hw]
    rfl
  · intro err s' h
    rw [hc] at h
    split at h
    · simp only [Prod.mk.injEq] at h
      exact h.2.symm
    · split at h
      · simp only [Prod.mk.injEq] at h
        exact h.2.symm
      · simp at h

/-- Witness for C23: in the empty store `CreateUser("alice")` writes the user
`alice` and her wallet `(alice, alice)`; in a store that already holds a
wallet `(alice, alice)` it returns the error of the wallet creation and
leaves no user row. -/
theorem C23_create_user_default_wallet_witness :
    "alice" ≠ "" ∧
    Users.CreateUser {} freshUser1 freshWallet1 "alice" =
      (.ok ({ username := "alice", apiKey := "key-1" },
            [{ id := "alice", username := "alice", name := some "alice", apiKey := "key-2" }]),
       { users := [{ username := "alice", apiKey := "key-1" }],
         wallets :=
           [{ id := "alice", username := "alice", name := some "alice", apiKey := "key-2" }] }) ∧
    Users.CreateUser { wallets := [{ id := "alice", username := "alice" }] }
        freshUser1 freshWallet1 "alice" =
      (.error (Err.New "failed to create wallet. Reason: wallet with that id already exists"),
       { wallets := [{ id := "alice", username := "alice" }] }) :=
  ⟨by decide,
   (C23_create_user_default_wallet {} freshUser1 freshWallet1 "alice" (by decide)).2.2.1
     (by decide) (by decide),
   (C23_create_user_default_wallet { wallets := [{ id := "alice", username := "alice" }] }
     freshUser1 freshWallet1 "alice" (by decide)).2.1 (by decide) (by decide)⟩

/-! ## C24 -/

/-- C24, evaluated on Alice's history.  After `DeleteUser` (Alice and her
wallets are gone) the invoices and the receipt no longer name her, while the
payment and the transfer still name her and her wallets as `From`.  After
the user-initiated `DeleteWallet` of `w2` the invoices no longer name the
wallet, while all three ledger entries still name it, as `To` and as `From`.
The claim asks that no Transaction row names the deleted user or wallet. -/
theorem C24_transactions_keep_deleted_sender :
    (Users.DeleteUser storeHistory "alice").1 = none ∧
    (Users.DeleteUser storeHistory "alice").2.wallets = [] ∧
    (Users.DeleteUser storeHistory "alice").2.invoices.map
        (fun i => (i.recipientUsername, i.senderUsername)) = [(none, none), (none, none)] ∧
    (Users.DeleteUser storeHistory "alice").2.transactions.map
        (fun t => (t.fromID, t.fromUsername, t.toID, t.toUsername)) =
      [(none, none, none, none),
       (some "w2", some "alice", none, none),
       (some "alice", some "alice", none, none)] ∧
    (Wallets.DeleteWallet storeHistory "alice" "w2").1 = none ∧
    (Wallets.DeleteWallet storeHistory "alice" "w2").2.wallets.map (·.id) = ["alice"] ∧
    (Wallets.DeleteWallet storeHistory "alice" "w2").2.invoices.map
        (fun i => (i.recipientID, i.senderID)) = [(none, none), (none, none)] ∧
    (Wallets.DeleteWallet storeHistory "alice" "w2").2.transactions =
      storeHistory.transactions := by
  refine ⟨by decide, by decide, by decide, by decide, by decide, by decide, by decide, by decide⟩

/-! ## C25 -/

/-- C25, evaluated on a username that no user has: `DeleteUser` leaves the
store as it was and returns the error text "could not delete user. Reason:
failed to determine if user exists. Reason: internal database error", which
is not the sentinel `ErrUserNotFound`. -/
theorem C25_delete_missing_user_error :
    GetUser storeHistory "nobody" = .error Err.ErrUserNotFound ∧
    UserExists storeHistory "nobody" =
      (false, some (Err.Reason MsgUserExistsFailed Err.ErrInternal)) ∧
    Users.DeleteUser storeHistory "nobody" =
      (some (Err.Reason "could not delete user" (Err.Reason MsgUserExistsFailed Err.ErrInternal)),
        storeHistory) ∧
    (Users.DeleteUser storeHistory "nobody").1 ≠ some Err.ErrUserNotFound := by
  refine ⟨by decide, by decide, by decide, by decide⟩

/-! ## C26 -/

/-- C26, evaluated on a record that names both a user and a wallet through
three distinct pointers: the creation hook returns no error.  The record with
all three pointers nil is refused. -/
theorem C26_auth_hook_accepts_both :
    authBoth.refersToUser = true ∧ authBoth.refersToWallet = true ∧
    authBoth.BeforeCreate = none ∧
    Auth.BeforeCreate { k1 := "k1" } = some (Err.New "invalid auth struct") := by
  refine ⟨by decide, by decide, by decide, by decide⟩

/-! ## C27 -/

/-- C27, evaluated on names with a space, an exclamation mark and a letter
outside the Latin alphabet between alphanumeric characters: all three are
accepted, the `.` of the pattern standing for any character.  The names of
the test suite `My name!` and `a.` are refused, `a-a` is accepted. -/
theorem C27_username_dot_matches_any :
    ValidateUsername "a b" = none ∧ ValidateUsername "a!b" = none ∧
    ValidateUsername "aéb" = none ∧
    ValidateUsername "My name!" ≠ none ∧ ValidateUsername "a." ≠ none ∧
    ValidateUsername "a-a" = none := by
  refine ⟨by decide, by decide, by decide, by decide, by decide, by decide⟩

/-! ## C30 -/

/-- C30, evaluated on the two kinds of ledger entry with a sender-side
invoice.  For an outbound payment (sender set, no recipient)
`convertFullTransaction` dereferences the nil `RecipientUsername` and does not
return.  For a self-payment the `SenderUsername` of the response is the
recipient `bob`, not the sender `alice`. -/
theorem C30_sender_username_from_recipient :
    convertFullTransaction fullPayment = none ∧
    (convertFullTransaction fullSelfPayment).map (fun r => r.invoice.map (·.senderUsername)) =
      some (some "bob") ∧
    (fullSelfPayment.invoice.map (·.senderUsername)) = some (some "alice") := by
  refine ⟨by decide, by decide, by decide⟩

/-! ## C21 -/

theorem LockWalletRecordForUpdate_unlocked {s : Store} (hpk : s.walletKeysUnique) {w : Wallet}
    (hw : w ∈ s.wallets) (hl : w.locked = false) :
    LockWalletRecordForUpdate s w.username w.id = .ok w := by
  unfold LockWalletRecordForUpdate
  rw [find?_isWallet_of_mem hpk hw]
  simp [hl]

theorem any_isWallet_of_mem {s : Store} {w : Wallet} (hw : w ∈ s.wallets) :
    s.wallets.any (isWallet w.username w.id) = true :=
  List.any_eq_true.2 ⟨w, hw, (isWallet_iff _ _ _).2 ⟨rfl, rfl⟩⟩

/-- C21 (amended): `UpdateWalletOptions` on an existing wallet `w` (the
wallets table respecting its primary key).
(1) Options that carry a non-empty name for the main wallet of a user are
refused with "Cannot edit the name of the main wallet", locked or not, and
nothing changes.
Otherwise:
(2) on an unlocked wallet, and on a locked wallet when the options carry
`Locked = false`, every option carried is written to the row of the wallet
and no other row changes;
(3) on a locked wallet, options that do not carry `Locked = false` are
refused with `ErrCannotUpdateLockedWallet` and nothing changes. -/
theorem C21_update_wallet_options (s : Store) (w : Wallet) (walletOptions : WalletOptions)
    (hpk : s.walletKeysUnique) (hw : w ∈ s.wallets) :
    (renamesMainWallet w.username w.id walletOptions = true →
      Wallets.UpdateWalletOptions s w.username w.id walletOptions =
        (some (Err.New "Cannot edit the name of the main wallet"), s)) ∧
    (renamesMainWallet w.username w.id walletOptions = false →
      (w.locked = false ∨ walletOptions.locked = some false →
        Wallets.UpdateWalletOptions s w.username w.id walletOptions =
          (none, { s with
            wallets := s.wallets.map (optionsRow w.username w.id walletOptions) })) ∧
      (w.locked = true → walletOptions.locked ≠ some false →
        Wallets.UpdateWalletOptions s w.username w.id walletOptions =
          (some Err.ErrCannotUpdateLockedWallet, s))) := by
  have hany := any_isWallet_of_mem hw
  refine ⟨?_, ?_⟩
  · intro hren
    unfold renamesMainWallet at hren
    unfold Wallets.UpdateWalletOptions
    rw [if_pos hren]
  · intro hren
    unfold renamesMainWallet at hren
    have hren' : ¬ (match walletOptions.name with
        | some name => decide (name ≠ "") && decide (w.id = w.username)
        | none => false) = true := by
      rw [hren]
      exact Bool.false_ne_true
    refine ⟨?_, ?_⟩
    · intro hcase
      unfold Wallets.UpdateWalletOptions
      rw [if_neg hren']
      cases hl : w.locked with
      | false =>
        simp [dbTransaction, isUpdatable, LockWalletRecordForUpdate_unlocked hpk hw hl,
          Xln.UpdateWalletOptions, hany]
      | true =>
        have hopt : walletOptions.locked = some false := by
          rcases hcase with h | h
          · rw [hl] at h
            exact absurd h (by decide)
          · exact h
        simp [dbTransaction, isUpdatable, LockWalletRecordForUpdate_locked hpk hw hl, hopt,
          Xln.UpdateWalletOptions, hany]
    · intro hl hopt
      unfold Wallets.UpdateWalletOptions
      rw [if_neg hren']
      simp [dbTransaction, isUpdatable, LockWalletRecordForUpdate_locked hpk hw hl, hopt]

/-- Witness for C21: on Alice's locked main wallet the options `Locked =
false` are applied, the options `Balance = 7` are refused; on her unlocked
wallet `savings` the options `Name = nest, Balance = 7` are applied. -/
theorem C21_update_wallet_options_witness :
    storeLocked.walletKeysUnique ∧ walletLockedAlice ∈ storeLocked.wallets ∧
    Wallets.UpdateWalletOptions storeLocked "alice" "alice" { locked := some false } =
      (none, { storeLocked with
        wallets := storeLocked.wallets.map
          (optionsRow "alice" "alice" { locked := some false }) }) ∧
    Wallets.UpdateWalletOptions storeLocked "alice" "alice" { balance := some 7 } =
      (some Err.ErrCannotUpdateLockedWallet, storeLocked) ∧
    Wallets.UpdateWalletOptions storeLocked "alice" "savings"
        { name := some "nest", balance := some 7 } =
      (none, { storeLocked with
        wallets := storeLocked.wallets.map
          (optionsRow "alice" "savings" { name := some "nest", balance := some 7 }) }) :=
  ⟨by decide, by decide,
   ((C21_update_wallet_options storeLocked walletLockedAlice { locked := some false }
      (by decide) (by decide)).2 rfl).1 (Or.inr rfl),
   ((C21_update_wallet_options storeLocked walletLockedAlice { balance := some 7 }
      (by decide) (by decide)).2 rfl).2 rfl (by decide),
   ((C21_update_wallet_options storeLocked
      { id := "savings", username := "alice", balance := 500 }
      { name := some "nest", balance := some 7 } (by decide) (by decide)).2 rfl).1 (Or.inl rfl)⟩

/-- Counterexample to C21 as stated: on Alice's locked main wallet, options
that set `Locked = false` and the name `vault` are not applied and the error
is not `ErrCannotUpdateLockedWallet`; with her main wallet unlocked, the
options `Name = vault` are not applied either. -/
theorem C21_update_wallet_options_counterexample :
    Wallets.UpdateWalletOptions storeLocked "alice" "alice"
        { name := some "vault", locked := some false } =
      (some (Err.New "Cannot edit the name of the main wallet"), storeLocked) ∧
    Wallets.UpdateWalletOptions storeTwoWallets "u" "u" { name := some "vault" } =
      (some (Err.New "Cannot edit the name of the main wallet"), storeTwoWallets) := by
  refine ⟨by decide, by decide⟩

/-! ## C22 -/

/-- C22 (amended): `AdminDeleteWallet` on an existing wallet `w` (the wallets
table respecting its primary key) deletes the row of the wallet, whatever its
balance, when the wallet is not locked, and is refused with
`ErrCannotUpdateLockedWallet`, nothing changing, when it is locked; when no
wallet `(username, walletId)` exists it returns an error and changes nothing. -/
theorem C22_admin_delete_wallet (s : Store) (w : Wallet) (hpk : s.walletKeysUnique)
    (hw : w ∈ s.wallets) :
    (w.locked = false →
      Wallets.AdminDeleteWallet s w.username w.id = (none, withoutWallet s w.username w.id) ∧
      GetWallet (withoutWallet s w.username w.id) w.username w.id =
        .error Err.ErrWalletNotFound) ∧
    (w.locked = true →
      Wallets.AdminDeleteWallet s w.username w.id = (some Err.ErrCannotUpdateLockedWallet, s)) ∧
    (∀ username walletId : String, (∀ x ∈ s.wallets, isWallet username walletId x = false) →
      ∃ err, Wallets.AdminDeleteWallet s username walletId = (some err, s)) := by
  have hany := any_isWallet_of_mem hw
  refine ⟨?_, ?_, ?_⟩
  · intro hl
    refine ⟨?_, ?_⟩
    · unfold Wallets.AdminDeleteWallet
      simp [dbTransaction, bind, Except.bind, isUpdatable,
        LockWalletRecordForUpdate_unlocked hpk hw hl, Xln.DeleteWallet, hany, withoutWallet,
        pure, Except.pure]
    · unfold GetWallet withoutWallet
      rw [List.find?_eq_none.2]
      intro x hx
      simp only [List.mem_filter] at hx
      simpa using hx.2
  · intro hl
    unfold Wallets.AdminDeleteWallet
    simp [dbTransaction, bind, Except.bind, isUpdatable,
      LockWalletRecordForUpdate_locked hpk hw hl]
  · intro username walletId hnone
    have hfind : s.wallets.find? (isWallet username walletId) = none :=
      List.find?_eq_none.2 (fun x hx => by simp [hnone x hx])
    refine ⟨Err.ErrRecordNotFound, ?_⟩
    unfold Wallets.AdminDeleteWallet
    simp [dbTransaction, bind, Except.bind, isUpdatable, LockWalletRecordForUpdate, hfind]

/-- Witness for C22: Alice's unlocked wallet `savings`, holding 500, is
deleted; only her main wallet remains. -/
theorem C22_admin_delete_wallet_witness :
    storeLocked.walletKeysUnique ∧
    Wallets.AdminDeleteWallet storeLocked "alice" "savings" =
      (none, withoutWallet storeLocked "alice" "savings") ∧
    GetWallet (withoutWallet storeLocked "alice" "savings") "alice" "savings" =
      .error Err.ErrWalletNotFound ∧
    (withoutWallet storeLocked "alice" "savings").wallets = [walletLockedAlice] :=
  ⟨by decide,
   ((C22_admin_delete_wallet storeLocked { id := "savings", username := "alice", balance := 500 }
      (by decide) (by decide)).1 rfl).1,
   ((C22_admin_delete_wallet storeLocked { id := "savings", username := "alice", balance := 500 }
      (by decide) (by decide)).1 rfl).2,
   by decide⟩

/-- Counterexample to C22 as stated: the deletion of Alice's locked main
wallet is refused with `ErrCannotUpdateLockedWallet` and the wallet stays;
for a wallet that does not exist the error is the store's record-not-found
error, not `ErrWalletNotFound`. -/
theorem C22_admin_delete_wallet_counterexample :
    Wallets.AdminDeleteWallet storeLocked "alice" "alice" =
      (some Err.ErrCannotUpdateLockedWallet, storeLocked) ∧
    Wallets.AdminDeleteWallet storeLocked "alice" "nope" =
      (some Err.ErrRecordNotFound, storeLocked) := by
  refine ⟨by decide, by decide⟩

/-! ## C28 -/

theorem toInt64_of_lt {x : Nat} (h : x < 2 ^ 63) : toInt64 x = (x : Int) := by
  have hu : x % u64 = x := Nat.mod_eq_of_lt (by rw [u64_eq]; omega)
  unfold toInt64
  rw [hu, if_pos h]

theorem length_orderByCreatedAt (descending : Bool) (rows : List TransactionRecord) :
    (orderByCreatedAt descending rows).length = rows.length := by
  unfold orderByCreatedAt
  split <;> exact List.length_insertionSort _ _

theorem offsetLimit_page (rows : List TransactionRecord) {offset limit : Nat}
    (hlimit : limit ≠ 0) :
    offsetLimit rows (offset : Int) (limit : Int) = (rows.drop offset).take limit := by
  unfold offsetLimit
  have hl : (limit : Int) > 0 := by omega
  by_cases ho : offset = 0
  · subst ho
    simp [hl]
  · have ho' : (offset : Int) > 0 := by omega
    simp [hl, ho']

theorem offsetLimit_all (rows : List TransactionRecord) (offset : Nat) :
    offsetLimit rows (offset : Int) (-1) = rows.drop offset := by
  unfold offsetLimit
  by_cases ho : offset = 0
  · subst ho
    simp
  · have ho' : (offset : Int) > 0 := by omega
    simp [ho']

/-- What a listing with a non-zero limit below the result ceiling returns. -/
theorem listTransactions_page (sel : TransactionRecord → Bool) (table : List TransactionRecord)
    (startTime endTime offset limit : Nat) (descending : Bool)
    (hlimit : limit ≠ 0) (hmax : offset + limit < maxUint32) :
    ∃ l, listTransactions sel table startTime endTime offset limit descending = .ok l ∧
      l.txns = ((orderByCreatedAt descending
        (matchingRecords sel table startTime endTime)).drop offset).take limit ∧
      l.txns.length ≤ limit ∧
      l.total = (matchingRecords sel table startTime endTime).length ∧
      (offset + limit < l.total → l.nextOffset = ((offset + limit : Nat) : Int)) ∧
      (l.total < offset + limit → l.nextOffset = -1) ∧
      (offset = 0 → limit = l.total → l.nextOffset = -1) := by
  have hm : maxUint32 = 4294967295 := by decide
  have hu : (offset + limit) % u64 = offset + limit :=
    Nat.mod_eq_of_lt (by rw [u64_eq]; omega)
  have ho : toInt64 offset = (offset : Int) := toInt64_of_lt (by omega)
  have hl : toInt64 limit = (limit : Int) := toInt64_of_lt (by omega)
  have hs : toInt64 (offset + limit) = ((offset + limit : Nat) : Int) :=
    toInt64_of_lt (by omega)
  have hlen := length_orderByCreatedAt descending (matchingRecords sel table startTime endTime)
  have hpage : (((orderByCreatedAt descending
      (matchingRecords sel table startTime endTime)).drop offset).take limit).length =
      min limit ((matchingRecords sel table startTime endTime).length - offset) := by
    rw [List.length_take, List.length_drop, hlen]
  unfold listTransactions
  simp only [hu, ho, hl, hs, if_neg hlimit, offsetLimit_page _ hlimit,
    if_neg (show ¬ offset + limit ≥ maxUint32 by omega)]
  split
  · next hend =>
    rw [hpage] at hend
    refine ⟨_, rfl, rfl, ?_, rfl, ?_, ?_, ?_⟩ <;> dsimp only
    · rw [hpage]
      omega
    · intro hlt
      omega
    · intro _
      trivial
    · intro _ _
      trivial
  · next hend =>
    rw [hpage] at hend
    refine ⟨_, rfl, rfl, ?_, rfl, ?_, ?_, ?_⟩ <;> dsimp only
    · rw [hpage]
      omega
    · intro _
      trivial
    · intro hlt
      omega
    · intro h0 hN
      omega

/-- What a listing with limit 0 and an offset below the result ceiling returns. -/
theorem listTransactions_all (sel : TransactionRecord → Bool) (table : List TransactionRecord)
    (startTime endTime offset : Nat) (descending : Bool) (hmax : offset < maxUint32) :
    listTransactions sel table startTime endTime offset 0 descending =
      .ok ⟨(orderByCreatedAt descending (matchingRecords sel table startTime endTime)).drop offset,
        0, (matchingRecords sel table startTime endTime).length⟩ := by
  have hm : maxUint32 = 4294967295 := by decide
  have hu : (offset + 0) % u64 = offset := by
    rw [Nat.add_zero]
    exact Nat.mod_eq_of_lt (by rw [u64_eq]; omega)
  have ho : toInt64 offset = (offset : Int) := toInt64_of_lt (by omega)
  unfold listTransactions
  simp only [hu, ho, if_true, offsetLimit_all, if_neg (show ¬ offset ≥ maxUint32 by omega)]

theorem listTransactions_isPageOf (sel : TransactionRecord → Bool)
    (table : List TransactionRecord) (startTime endTime offset limit : Nat) (descending : Bool)
    (hlimit : limit ≠ 0) (hmax : offset + limit < maxUint32) :
    ∃ l, listTransactions sel table startTime endTime offset limit descending = .ok l ∧
      l.isPageOf (orderByCreatedAt descending (matchingRecords sel table startTime endTime))
        offset limit := by
  obtain ⟨l, h, h1, h2, h3, h4, h5, h6⟩ :=
    listTransactions_page sel table startTime endTime offset limit descending hlimit hmax
  refine ⟨l, h, h1, h2, ?_, ?_, ?_, ?_⟩
  · rw [h3, length_orderByCreatedAt]
  · rw [length_orderByCreatedAt, ← h3]
    exact h4
  · rw [length_orderByCreatedAt, ← h3]
    exact h5
  · rw [length_orderByCreatedAt, ← h3]
    exact h6

/-- A listing with `offset + limit` at or above `math.MaxUint32`, the sum not
wrapping, is refused. -/
theorem listTransactions_max (sel : TransactionRecord → Bool) (table : List TransactionRecord)
    (startTime endTime offset limit : Nat) (descending : Bool)
    (hmax : maxUint32 ≤ offset + limit) (hu64 : offset + limit < u64) :
    listTransactions sel table startTime endTime offset limit descending =
      .error Err.ErrMaxNumResultsExceeded := by
  unfold listTransactions
  rw [Nat.mod_eq_of_lt hu64]
  simp only [ge_iff_le, hmax, if_true]

/-- C28 (amended): `ListWalletTransactions` and `ListUserTransactions`, for
every table, owner, time range, order, offset and limit.
(1) With `offset + limit` below `math.MaxUint32` and a non-zero limit they
return no error and the page of the matching records in creation order: at
most `limit` records from `offset` on, `total` the number of matching records
in the time range, `nextOffset = offset + limit` when records remain after the
page, `nextOffset = -1` when `offset + limit` exceeds the total or the page
holds all matching records.
(2) With `offset` below `math.MaxUint32` and limit 0 they return all matching
records from `offset` on, `nextOffset = 0` and the same total.
(3) With `offset + limit` from `math.MaxUint32` on and below `2 ^ 64` they
return `ErrMaxNumResultsExceeded`. -/
theorem C28_transaction_pages (table : List TransactionRecord) (username walletId : String)
    (startTime endTime offset limit : Nat) (descending : Bool) :
    (offset + limit < maxUint32 → limit ≠ 0 →
      (∃ l, ListWalletTransactions table username walletId startTime endTime offset limit
          descending = .ok l ∧
        l.isPageOf (orderByCreatedAt descending
          (matchingRecords (ofWallet username walletId) table startTime endTime)) offset limit) ∧
      (∃ l, ListUserTransactions table username startTime endTime offset limit
          descending = .ok l ∧
        l.isPageOf (orderByCreatedAt descending
          (matchingRecords (ofUser username) table startTime endTime)) offset limit)) ∧
    (offset + limit < maxUint32 → limit = 0 →
      ListWalletTransactions table username walletId startTime endTime offset limit descending =
        .ok ⟨(orderByCreatedAt descending
            (matchingRecords (ofWallet username walletId) table startTime endTime)).drop offset,
          0, (matchingRecords (ofWallet username walletId) table startTime endTime).length⟩ ∧
      ListUserTransactions table username startTime endTime offset limit descending =
        .ok ⟨(orderByCreatedAt descending
            (matchingRecords (ofUser username) table startTime endTime)).drop offset,
          0, (matchingRecords (ofUser username) table startTime endTime).length⟩) ∧
    (maxUint32 ≤ offset + limit → offset + limit < u64 →
      ListWalletTransactions table username walletId startTime endTime offset limit descending =
        .error Err.ErrMaxNumResultsExceeded ∧
      ListUserTransactions table username startTime endTime offset limit descending =
        .error Err.ErrMaxNumResultsExceeded) := by
  refine ⟨?_, ?_, ?_⟩
  · intro hmax hlimit
    exact ⟨listTransactions_isPageOf _ table startTime endTime offset limit descending hlimit hmax,
      listTransactions_isPageOf _ table startTime endTime offset limit descending hlimit hmax⟩
  · intro hmax hlimit
    subst hlimit
    exact ⟨listTransactions_all _ table startTime endTime offset descending hmax,
      listTransactions_all _ table startTime endTime offset descending hmax⟩
  · intro hmax hu64
    exact ⟨listTransactions_max _ table startTime endTime offset limit descending hmax hu64,
      listTransactions_max _ table startTime endTime offset limit descending hmax hu64⟩

/-- Witness for C28: of the three transfers of Alice's ledger, the listing of
her wallet `w2` at offset 0 with limit 2 returns the two oldest, the total 3
and the next offset 2; at offset `2 ^ 32` with limit 1 both listings are
refused. -/
theorem C28_transaction_pages_witness :
    0 + 2 < maxUint32 ∧
    ((∃ l, ListWalletTransactions (ledgerOf 3) "alice" "w2" 0 100 0 2 false = .ok l ∧
        l.isPageOf (orderByCreatedAt false
          (matchingRecords (ofWallet "alice" "w2") (ledgerOf 3) 0 100)) 0 2) ∧
      (∃ l, ListUserTransactions (ledgerOf 3) "alice" 0 100 0 2 false = .ok l ∧
        l.isPageOf (orderByCreatedAt false
          (matchingRecords (ofUser "alice") (ledgerOf 3) 0 100)) 0 2)) ∧
    (ListWalletTransactions (ledgerOf 3) "alice" "w2" 0 100 0 2 false).toOption.map
        (fun l => (l.txns.map (·.createdAt), l.nextOffset, l.total)) = some ([1, 2], 2, 3) ∧
    (ListWalletTransactions (ledgerOf 3) "alice" "w2" 0 100 (2 ^ 32) 1 false =
        .error Err.ErrMaxNumResultsExceeded ∧
      ListUserTransactions (ledgerOf 3) "alice" 0 100 (2 ^ 32) 1 false =
        .error Err.ErrMaxNumResultsExceeded) :=
  ⟨by decide,
   (C28_transaction_pages (ledgerOf 3) "alice" "w2" 0 100 0 2 false).1 (by decide) (by decide),
   by decide,
   (C28_transaction_pages (ledgerOf 3) "alice" "w2" 0 100 (2 ^ 32) 1 false).2.2
     (by decide) (by decide)⟩

/-- Counterexample to C28 as stated.  Of ten matching records, the listing
at offset 5 with limit 5 returns the last five and the next offset 10, though
no record remains after the page (the listing at offset 10 is empty).  At
offset `2 ^ 32` with limit 1 the listing is an error. -/
theorem C28_transaction_pages_counterexample :
    (ListWalletTransactions (ledgerOf 10) "alice" "w2" 0 100 5 5 false).toOption.map
        (fun l => (l.txns.map (·.createdAt), l.nextOffset, l.total)) =
      some ([6, 7, 8, 9, 10], 10, 10) ∧
    (ListWalletTransactions (ledgerOf 10) "alice" "w2" 0 100 10 5 false).toOption.map
        (fun l => (l.txns, l.nextOffset, l.total)) = some ([], -1, 10) ∧
    ListWalletTransactions (ledgerOf 10) "alice" "w2" 0 100 (2 ^ 32) 1 false =
      .error Err.ErrMaxNumResultsExceeded := by
  refine ⟨by decide, by decide, by decide⟩

/-! ## C29 -/

set_option maxRecDepth 100000 in
/-- C29, evaluated on a history from the empty ledger in which every amount
is below `2 ^ 63`.  After `historyFunded` the three wallets `x` hold
`7 * 10 ^ 18` each against pending payments of `7`, `7` and `6 * 10 ^ 18`, and
the invariant holds.  The transfer of `5 * 10 ^ 18` out of Alice's wallet `x`
is let through: `DecrementWalletBalance` sums the pending payments of all
three wallets `x`, the sum `20 * 10 ^ 18` wraps to `1553255926290448384`, and
`5 * 10 ^ 18` more is below her balance.  Her wallet is left with
`2 * 10 ^ 18` against her own pending payment of `6 * 10 ^ 18`: the invariant
fails, and `GetConfirmedBalance` wraps to `2 ^ 64 - 4 * 10 ^ 18`. -/
theorem C29_reservation_overdrawn :
    (runLedger envLedger historyFunded managerEmpty).map
        (fun m => (m.db.wallets.map (fun w => (w.username, w.id, w.balance)),
          m.db.pendingPayments.map (fun p => (p.walletUsername, p.walletID, p.amount)))) =
      some ([("alice", "alice", 0), ("bob", "bob", 0), ("carol", "carol", 0),
             ("alice", "x", 7 * 10 ^ 18), ("bob", "x", 7 * 10 ^ 18),
             ("carol", "x", 7 * 10 ^ 18)],
            [("bob", "x", 7 * 10 ^ 18), ("carol", "x", 7 * 10 ^ 18),
             ("alice", "x", 6 * 10 ^ 18)]) ∧
    (runLedger envLedger historyFunded managerEmpty).map
        (fun m => decide m.db.reservationHolds) = some true ∧
    (runLedger envLedger historyFunded managerEmpty).map
        (fun m => minBalance m.db "x" (5 * 10 ^ 18)) = some 6553255926290448384 ∧
    (runLedger envLedger historyOverdrawn managerEmpty).map
        (fun m => (GetWallet m.db "alice" "x").toOption.map (·.balance)) =
      some (some (2 * 10 ^ 18)) ∧
    (runLedger envLedger historyOverdrawn managerEmpty).map
        (fun m => pendingTotal m.db "alice" "x") = some (6 * 10 ^ 18) ∧
    (runLedger envLedger historyOverdrawn managerEmpty).map
        (fun m => decide m.db.reservationHolds) = some false ∧
    (runLedger envLedger historyOverdrawn managerEmpty).map
        (fun m => GetConfirmedBalance m.db "alice" "x") =
      some (.ok (2 ^ 64 - 4 * 10 ^ 18)) := by
  refine ⟨by decide, by decide, by decide, by decide, by decide, by decide, by decide⟩

end Xln
